import Mathlib

/-!
# Pothos framework: topology commit, actor interface, buffer chunk serialization

A shallow embedding of
* `lib/Framework/TopologyCommit.cpp` (`installBufferManagers`, `updateFlows`,
  `topologySubCommit`, `Pothos::Topology::commit`),
* `lib/Framework/ActorInterface.hpp` and `WorkerActor::processTask`,
* `lib/Framework/BufferChunk.cpp` (`append` and the `save`/`load` pair),
* `lib/Framework/BufferConvert.cpp` (`convert`, `convertComplex` and the converter maps),
* `lib/Framework/WorkerActorPortAllocation.cpp` (`allocatePort`, `autoAllocatePort`,
  `autoDeletePorts`),
* `lib/Framework/TopologyJSON.cpp` (`Topology::make`).

Blocks (proxies) are identified by their uid, a natural number.  Remote calls on a
block or actor proxy are total functions of an environment `Env`; every control
message that is sent is recorded in a trace, and a C++ exception is an `Except` error.
-/

namespace Pothos

/-! ## Data model -/

/-- A port: a block reference and a port name. -/
structure Port where
  obj : Nat
  name : String
deriving DecidableEq, Repr

/-- A flow: source port to destination port, compared by its four components. -/
structure Flow where
  src : Port
  dst : Port
deriving DecidableEq, Repr

/-- The proxy returned by `getBufferManager(name, domain, isInput)` on an actor,
identified by the call that produced it. -/
structure Manager where
  actor : Nat
  name : String
  domain : String
  isInput : Bool
deriving DecidableEq, Repr

/-- Control messages sent to actors during a commit. -/
inductive Msg where
  | sendPortSubscriberMessage (actor : Nat) (action : String) (myPort : String)
      (peer : Nat) (peerPort : String)
  | setOutputBufferManager (actor : Nat) (name : String) (manager : Manager)
  | sendActivateMessage (actor : Nat)
  | sendDeactivateMessage (actor : Nat)
deriving DecidableEq, Repr

/-- Exceptions that the commit code names. -/
inductive Exn where
  | Exception (source : String) (text : String)
  | TopologyConnectError (source : String) (text : String)
  | out_of_range
deriving DecidableEq, Repr

/-- Answers of the blocks and actors to the calls made by the commit code. -/
structure Env where
  /-- The answer of `obj.call("getName")`. -/
  getName : Nat → String
  /-- The answer of `obj.callProxy("output", name).call("domain")`. -/
  outputDomain : Port → String
  /-- The answer of `obj.callProxy("input", name).call("domain")`. -/
  inputDomain : Port → String
  /-- The answer of `actor.getOutputBufferMode(name, domain)`. -/
  getOutputBufferMode : Nat → String → String → String
  /-- The answer of `actor.getInputBufferMode(name, domain)`. -/
  getInputBufferMode : Nat → String → String → String
  /-- The answer of `WaitInfo` on the handle returned for a control message. -/
  WaitInfo : Msg → String

/-! ## Error collection shared by the three commit helpers -/

/-- The loop `for (auto infoReceiver : infoReceivers)` that appends
`first + ": " + msg + "\n"` for every non-empty `WaitInfo`. -/
def collectErrors (env : Env) (infoReceivers : List (String × Msg)) : String :=
  infoReceivers.foldl
    (fun errors infoReceiver =>
      let msg := env.WaitInfo infoReceiver.2
      if msg ≠ "" then errors ++ (infoReceiver.1 ++ ": " ++ msg ++ "\n") else errors)
    ""

/-- The statement `if (not errors.empty()) Pothos::TopologyConnectError(src, errors);`:
the exception object is constructed as a temporary and dropped; there is no `throw`,
so control always continues. -/
def reportErrors (errors : String) : Except Exn Unit :=
  let _temporary : Option Exn :=
    if errors ≠ "" then some (Exn.TopologyConnectError "Pothos::Exectutor::commit()" errors)
    else none
  Except.ok ()

/-! ## installBufferManagers -/

/-- The statement `srcs[key].push_back(value)` on the map of source port to destinations.
The `unordered_map` is kept as an association list in insertion order of its keys; the
order in which the C++ map is traversed is unspecified, and nothing proved below depends
on it. -/
def pushBack : List (Port × List Port) → Port → Port → List (Port × List Port)
  | [], key, value => [(key, [value])]
  | (k, vs) :: rest, key, value =>
    if k = key then (k, vs ++ [value]) :: rest else (k, vs) :: pushBack rest key value

/-- The nested loop of lines 18-24 building the map of a source port to all destination
ports. -/
def buildSrcs (flatFlows : List Flow) : List (Port × List Port) :=
  flatFlows.foldl
    (fun srcs flow =>
      flatFlows.foldl
        (fun srcs subFlow =>
          if subFlow.src = flow.src then pushBack srcs flow.src subFlow.dst else srcs)
        srcs)
    []

/-- The body of the loop over `srcs` up to the choice of `manager` (lines 32-70); the
manager is named by the `getBufferManager` call that yields it. -/
def chooseManager (env : Env) (src : Port) (dsts : List Port) : Except Exn Manager :=
  match dsts with
  | [] => Except.error Exn.out_of_range
  | dst :: _ =>
    let srcDomain := env.outputDomain src
    let dstDomain := env.inputDomain dst
    let srcMode := env.getOutputBufferMode src.obj src.name dstDomain
    let dstMode := env.getInputBufferMode dst.obj dst.name srcDomain
    if srcMode = "CUSTOM" then
      Except.ok ⟨src.obj, src.name, dstDomain, false⟩
    else if dstMode = "CUSTOM" then
      if dsts.any (fun otherDst =>
          decide (otherDst ≠ dst) &&
          decide (env.getInputBufferMode otherDst.obj dst.name srcDomain ≠ "ABDICATE")) then
        Except.error (Exn.Exception "Pothos::Topology::installBufferManagers"
          "rectifyDomainFlows() logic does not /yet/ handle multiple destinations w/ custom buffer managers")
      else
        Except.ok ⟨dst.obj, dst.name, srcDomain, true⟩
    else
      Except.ok ⟨src.obj, src.name, dstDomain, false⟩

/-- The loop `for (const auto &pair : srcs)` of lines 30-75: the messages sent so far,
and either the exception thrown or the list of info receivers. -/
def installLoop (env : Env) :
    List (Port × List Port) → List Msg → List (String × Msg) →
      List Msg × Except Exn (List (String × Msg))
  | [], sent, infoReceivers => (sent, Except.ok infoReceivers)
  | (src, dsts) :: rest, sent, infoReceivers =>
    match chooseManager env src dsts with
    | Except.error e => (sent, Except.error e)
    | Except.ok manager =>
      let result := Msg.setOutputBufferManager src.obj src.name manager
      let msg := env.getName src.obj ++ ".setOutputBufferManager(" ++ src.name ++ ")"
      installLoop env rest (sent ++ [result]) (infoReceivers ++ [(msg, result)])

/-- The function `installBufferManagers(flatFlows)`: messages sent and outcome. -/
def installBufferManagers (env : Env) (flatFlows : List Flow) : List Msg × Except Exn Unit :=
  match installLoop env (buildSrcs flatFlows) [] [] with
  | (sent, Except.error e) => (sent, Except.error e)
  | (sent, Except.ok infoReceivers) => (sent, reportErrors (collectErrors env infoReceivers))

/-! ## updateFlows -/

/-- The test `action.find("INPUT") != std::string::npos`. -/
def isInputAction (action : String) : Bool :=
  action.data.tails.any (fun t => "INPUT".data.isPrefixOf t)

/-- The message sent by `updateFlows` for one flow. -/
def subscriberMsg (action : String) (flow : Flow) : Msg :=
  let pri := if isInputAction action then flow.src else flow.dst
  let sec := if isInputAction action then flow.dst else flow.src
  Msg.sendPortSubscriberMessage pri.obj action pri.name sec.obj sec.name

/-- The info receivers collected by `updateFlows`. -/
def updateFlowsReceivers (env : Env) (flows : List Flow) (action : String) :
    List (String × Msg) :=
  flows.map (fun flow =>
    let pri := if isInputAction action then flow.src else flow.dst
    (env.getName pri.obj ++ ".sendPortSubscriberMessage(" ++ action ++ ")",
      subscriberMsg action flow))

/-- The function `updateFlows(flows, action)`: messages sent and outcome. -/
def updateFlows (env : Env) (flows : List Flow) (action : String) :
    List Msg × Except Exn Unit :=
  let infoReceivers := updateFlowsReceivers env flows action
  (infoReceivers.map Prod.snd, reportErrors (collectErrors env infoReceivers))

/-! ## topologySubCommit -/

/-- Modelled from the spec: `getObjSetFromFlowList(flows, excludes)` is declared in
`Framework/TopologyImpl.hpp`, which is not among the sources; it is the set of endpoint
blocks of `flows` that are not endpoints of `excludes`, here as a list without
repetition. -/
def getObjSetFromFlowList (flows : List Flow) (excludes : List Flow) : List Nat :=
  let endpoints := fun (l : List Flow) => l.flatMap (fun flow => [flow.src.obj, flow.dst.obj])
  ((endpoints flows).filter (fun obj => decide (obj ∉ endpoints excludes))).dedup

/-- The fields of the topology implementation used by the commit. -/
structure TopologyImpl where
  flows : List Flow
  activeFlatFlows : List Flow
deriving DecidableEq, Repr

/-- The state after a commit step: the topology, every control message sent in order,
and whether the step returned or threw. -/
structure Outcome where
  impl : TopologyImpl
  sent : List Msg
  result : Except Exn Unit

/-- Lines 128-133: new flows are in flat flows but not in current. -/
def newFlowsOf (flatFlows activeFlatFlows : List Flow) : List Flow :=
  flatFlows.foldl
    (fun newFlows flow => if flow ∉ activeFlatFlows then newFlows ++ [flow] else newFlows) []

/-- Lines 135-140: old flows are in current and not in flat flows. -/
def oldFlowsOf (flatFlows activeFlatFlows : List Flow) : List Flow :=
  activeFlatFlows.foldl
    (fun oldFlows flow => if flow ∉ flatFlows then oldFlows ++ [flow] else oldFlows) []

/-- Lines 158-187 of `topologySubCommit`: activation, recording of the active flows,
deactivation and the final error check. -/
def activationPhase (env : Env) (impl : TopologyImpl) (newFlows oldFlows : List Flow)
    (sent : List Msg) : Outcome :=
  let activate := (getObjSetFromFlowList newFlows impl.activeFlatFlows).map
    (fun block => (env.getName block ++ ".sendActivateMessage()", Msg.sendActivateMessage block))
  let impl1 : TopologyImpl := { impl with activeFlatFlows := impl.flows }
  let deactivate := (getObjSetFromFlowList oldFlows impl1.activeFlatFlows).map
    (fun block =>
      (env.getName block ++ ".sendDeactivateMessage()", Msg.sendDeactivateMessage block))
  let infoReceivers := activate ++ deactivate
  { impl := impl1
    sent := sent ++ infoReceivers.map Prod.snd
    result := reportErrors (collectErrors env infoReceivers) }

/-- The function `topologySubCommit(topology)`. -/
def topologySubCommit (env : Env) (impl : TopologyImpl) : Outcome :=
  let newFlows := newFlowsOf impl.flows impl.activeFlatFlows
  let oldFlows := oldFlowsOf impl.flows impl.activeFlatFlows
  let s1 := updateFlows env newFlows "SUBINPUT"
  match s1.2 with
  | Except.error e => { impl := impl, sent := s1.1, result := Except.error e }
  | Except.ok _ =>
  let s2 := updateFlows env newFlows "SUBOUTPUT"
  match s2.2 with
  | Except.error e => { impl := impl, sent := s1.1 ++ s2.1, result := Except.error e }
  | Except.ok _ =>
  let s3 := updateFlows env oldFlows "UNSUBOUTPUT"
  match s3.2 with
  | Except.error e => { impl := impl, sent := s1.1 ++ s2.1 ++ s3.1, result := Except.error e }
  | Except.ok _ =>
  let s4 := updateFlows env oldFlows "UNSUBINPUT"
  match s4.2 with
  | Except.error e =>
    { impl := impl, sent := s1.1 ++ s2.1 ++ s3.1 ++ s4.1, result := Except.error e }
  | Except.ok _ =>
  let s5 := installBufferManagers env newFlows
  match s5.2 with
  | Except.error e =>
    { impl := impl, sent := s1.1 ++ s2.1 ++ s3.1 ++ s4.1 ++ s5.1, result := Except.error e }
  | Except.ok _ =>
  activationPhase env impl newFlows oldFlows (s1.1 ++ s2.1 ++ s3.1 ++ s4.1 ++ s5.1)

/-! ## Topology::commit -/

/-- Modelled from the spec: the text `ex.displayText()` of a caught exception, its name
followed by its message (the exception classes are declared in
`Pothos/Framework/Exception.hpp`, not among the sources). -/
def displayText : Exn → String
  | Exn.Exception source text => "Exception: " ++ source ++ ": " ++ text
  | Exn.TopologyConnectError source text =>
    "Topology connect error: " ++ source ++ ": " ++ text
  | Exn.out_of_range => "out_of_range"

/-- The loop of lines 238-246 over the futures: a `Pothos::Exception` thrown by a
sub-commit is caught and its text appended; any other exception leaves the loop. -/
def waitFutures : List (Except Exn Unit) → String → Except Exn String
  | [], errors => Except.ok errors
  | Except.ok _ :: futures, errors => waitFutures futures errors
  | Except.error Exn.out_of_range :: _, _ => Except.error Exn.out_of_range
  | Except.error ex :: futures, errors => waitFutures futures (errors ++ (displayText ex ++ "\n"))

/-- Lines 237-256 of `Pothos::Topology::commit`: `flatFlows` is the result of the squash,
network and domain phases (whose code is in `TopologyImpl`), and `futures` holds, for every
remote topology, whether its `subCommit` returned or threw. -/
def commit (impl : TopologyImpl) (flatFlows : List Flow) (futures : List (Except Exn Unit)) :
    TopologyImpl × Except Exn Unit :=
  match waitFutures futures "" with
  | Except.error e => (impl, Except.error e)
  | Except.ok errors =>
    match reportErrors errors with
    | Except.error e => (impl, Except.error e)
    | Except.ok _ => ({ impl with activeFlatFlows := flatFlows }, Except.ok ())

/-! ## Concrete scenarios used below -/

/-- A flow from port "0" of block 1 to port "0" of block 2. -/
def flow12 : Flow := ⟨⟨1, "0"⟩, ⟨2, "0"⟩⟩

/-- An environment in which every port abdicates and every control message fails
with the reason "boom". -/
def failingEnv : Env where
  getName := fun _ => "blk"
  outputDomain := fun _ => ""
  inputDomain := fun _ => ""
  getOutputBufferMode := fun _ _ _ => "ABDICATE"
  getInputBufferMode := fun _ _ _ => "ABDICATE"
  WaitInfo := fun _ => "boom"

/-! ## Auxiliary definitions for the statements -/

/-- The destinations stored under a key (empty when the key is absent). -/
def dstsOf : List (Port × List Port) → Port → List Port
  | [], _ => []
  | (k, vs) :: rest, key => if k = key then vs else dstsOf rest key

/-- The sequence of `push_back` operations performed by the nested loop. -/
def pushes (flatFlows : List Flow) : List (Port × Port) :=
  flatFlows.flatMap (fun flow =>
    (flatFlows.filter (fun subFlow => decide (subFlow.src = flow.src))).map
      (fun subFlow => (flow.src, subFlow.dst)))

/-- Whether a message installs a buffer manager on the given source port. -/
def installsOn (src : Port) : Msg → Bool
  | Msg.setOutputBufferManager actor name _ => decide (actor = src.obj ∧ name = src.name)
  | _ => false

/-- The install message produced by one iteration of the loop over `srcs`, if the
iteration does not throw. -/
def installedMsg (env : Env) (pair : Port × List Port) : Option Msg :=
  match chooseManager env pair.1 pair.2 with
  | Except.ok manager => some (Msg.setOutputBufferManager pair.1.obj pair.1.name manager)
  | Except.error _ => none

/-- The manager that the selection rule names for a source port and a destination port fed
by it: the source actor's when the source's output mode is CUSTOM, otherwise the
destination actor's (is_input = true) when the destination's input mode is CUSTOM,
otherwise the source actor's. -/
def claimedManager (env : Env) (src dst : Port) : Manager :=
  if env.getOutputBufferMode src.obj src.name (env.inputDomain dst) = "CUSTOM" then
    ⟨src.obj, src.name, env.inputDomain dst, false⟩
  else if env.getInputBufferMode dst.obj dst.name (env.outputDomain src) = "CUSTOM" then
    ⟨dst.obj, dst.name, env.outputDomain src, true⟩
  else ⟨src.obj, src.name, env.inputDomain dst, false⟩

/-- An environment in which the output port abdicates and every input port named "0"
asks for a custom buffer manager. -/
def twoCustomEnv : Env where
  getName := fun _ => "blk"
  outputDomain := fun _ => ""
  inputDomain := fun _ => ""
  getOutputBufferMode := fun _ _ _ => "ABDICATE"
  getInputBufferMode := fun _ name _ => if name = "0" then "CUSTOM" else "ABDICATE"
  WaitInfo := fun _ => ""

/-- Port "0" of block 0 feeds port "0" of block 1 and port "0" of block 2. -/
def fanoutFlows : List Flow := [⟨⟨0, "0"⟩, ⟨1, "0"⟩⟩, ⟨⟨0, "0"⟩, ⟨2, "0"⟩⟩]

/-- An environment in which the output port abdicates, block 1 asks for a custom manager
on its input port "0" and block 2 asks for one on its input port "1"; every other input
port, port "0" of block 2 included, abdicates. -/
def ownPortCustomEnv : Env where
  getName := fun _ => "blk"
  outputDomain := fun _ => ""
  inputDomain := fun _ => ""
  getOutputBufferMode := fun _ _ _ => "ABDICATE"
  getInputBufferMode := fun actor name _ =>
    if (actor = 1 ∧ name = "0") ∨ (actor = 2 ∧ name = "1") then "CUSTOM" else "ABDICATE"
  WaitInfo := fun _ => ""

/-- Port "0" of block 0 feeds port "0" of block 1 and port "1" of block 2. -/
def twoCustomFlows : List Flow := [⟨⟨0, "0"⟩, ⟨1, "0"⟩⟩, ⟨⟨0, "0"⟩, ⟨2, "1"⟩⟩]

/-- The same fan-out listed after a flow to the abdicating port "0" of block 3. -/
def abdicateFirstFlows : List Flow :=
  [⟨⟨0, "0"⟩, ⟨3, "0"⟩⟩, ⟨⟨0, "0"⟩, ⟨1, "0"⟩⟩, ⟨⟨0, "0"⟩, ⟨2, "1"⟩⟩]

/-! ## ActorInterface and WorkerActor::processTask

The mutex records the thread that owns it.  Every step below is one atomic operation of
one thread: an atomic exchange or store on `_changeFlagged`, a `lock` (enabled only when
the mutex is free), an `unlock`, or a plain read of `_waitModeEnabled`. -/

/-- The fields of `ActorInterface`; the condition variable carries no state, a waiter may
wake up at any time. -/
structure ActorInterface where
  _waitModeEnabled : Bool
  _changeFlagged : Bool
  _mutex : Option Nat
deriving DecidableEq, Repr

/-- The state built by the constructor of `ActorInterface`. -/
def ActorInterface.new : ActorInterface :=
  { _waitModeEnabled := false, _changeFlagged := false, _mutex := none }

/-- Where a worker thread stands inside `processTask`. -/
inductive WorkerPc where
  /-- Entered `workerThreadAcquire`, before the exchange of line 111. -/
  | acquireEntry
  /-- The flag was set: before `_mutex.lock()` of line 113. -/
  | fastLock
  /-- The flag was clear: before the test of `_waitModeEnabled` of line 118. -/
  | checkWaitMode
  /-- Wait mode: before the `unique_lock` of line 120 locks the mutex. -/
  | waitLock
  /-- Wait mode, mutex held: before the exchange of line 121. -/
  | waitLoop
  /-- Inside `wait_for` of line 123, the mutex released. -/
  | waiting
  /-- The call `wait_for` returned `timeout` with the mutex held again: before
  `return false`, which unlocks through the `unique_lock` destructor. -/
  | timedOut
  /-- The call `workerThreadAcquire` returned true: inside `workTask`. -/
  | workTask
  /-- After `workTask`: before `workerThreadRelease` of line 38. -/
  | release
  /-- The call `processTask` returned; the flag tells what `workerThreadAcquire`
  returned. -/
  | finished (acquired : Bool)
deriving DecidableEq, Repr

/-- Where an external caller stands inside an `ActorInterfaceLock` scope. -/
inductive ExternalPc where
  /-- Before `_mutex.lock()` of `externalCallAcquire`. -/
  | acquire
  /-- Between `externalCallAcquire` and `externalCallRelease`. -/
  | holding
  /-- In `externalCallRelease`, before `_changeFlagged = true`. -/
  | releaseFlag
  /-- In `externalCallRelease`, before `_mutex.unlock()`. -/
  | releaseUnlock
  /-- In `externalCallRelease`, before `_cond.notify_one()`. -/
  | releaseNotify
  | finished
deriving DecidableEq, Repr

/-- A thread using the actor. -/
inductive Thread where
  | worker (pc : WorkerPc)
  | external (pc : ExternalPc)
deriving DecidableEq, Repr

/-- One actor and the threads using it; a thread is named by its position. -/
structure System where
  actor : ActorInterface
  threads : List Thread
deriving DecidableEq, Repr

/-- One atomic step of worker thread `t`; `timeout` tells, for a thread inside `wait_for`,
whether the wait ends by timeout.  The result is `none` when the thread is blocked or has
finished. -/
def workerStep (t : Nat) (timeout : Bool) (a : ActorInterface) :
    WorkerPc → Option (ActorInterface × WorkerPc)
  | WorkerPc.acquireEntry =>
    if a._changeFlagged then some ({ a with _changeFlagged := false }, WorkerPc.fastLock)
    else some ({ a with _changeFlagged := false }, WorkerPc.checkWaitMode)
  | WorkerPc.fastLock =>
    if a._mutex = none then some ({ a with _mutex := some t }, WorkerPc.workTask) else none
  | WorkerPc.checkWaitMode =>
    if a._waitModeEnabled then some (a, WorkerPc.waitLock) else some (a, WorkerPc.workTask)
  | WorkerPc.waitLock =>
    if a._mutex = none then some ({ a with _mutex := some t }, WorkerPc.waitLoop) else none
  | WorkerPc.waitLoop =>
    if a._changeFlagged then some ({ a with _changeFlagged := false }, WorkerPc.workTask)
    else some ({ a with _changeFlagged := false, _mutex := none }, WorkerPc.waiting)
  | WorkerPc.waiting =>
    if a._mutex = none then
      some ({ a with _mutex := some t }, if timeout then WorkerPc.timedOut else WorkerPc.waitLoop)
    else none
  | WorkerPc.timedOut => some ({ a with _mutex := none }, WorkerPc.finished false)
  | WorkerPc.workTask => some (a, WorkerPc.release)
  | WorkerPc.release => some ({ a with _mutex := none }, WorkerPc.finished true)
  | WorkerPc.finished _ => none

/-- One atomic step of external caller `t`. -/
def externalStep (t : Nat) (a : ActorInterface) :
    ExternalPc → Option (ActorInterface × ExternalPc)
  | ExternalPc.acquire =>
    if a._mutex = none then some ({ a with _mutex := some t }, ExternalPc.holding) else none
  | ExternalPc.holding => some (a, ExternalPc.releaseFlag)
  | ExternalPc.releaseFlag => some ({ a with _changeFlagged := true }, ExternalPc.releaseUnlock)
  | ExternalPc.releaseUnlock => some ({ a with _mutex := none }, ExternalPc.releaseNotify)
  | ExternalPc.releaseNotify => some (a, ExternalPc.finished)
  | ExternalPc.finished => none

/-- One step of thread `t` of the system. -/
def step (t : Nat) (timeout : Bool) (s : System) : Option System :=
  match s.threads.get? t with
  | none => none
  | some (Thread.worker pc) =>
    (workerStep t timeout s.actor pc).map
      (fun r => { actor := r.1, threads := s.threads.set t (Thread.worker r.2) })
  | some (Thread.external pc) =>
    (externalStep t s.actor pc).map
      (fun r => { actor := r.1, threads := s.threads.set t (Thread.external r.2) })

/-- A schedule: which thread steps next, and how a pending `wait_for` ends. -/
def run : List (Nat × Bool) → System → Option System
  | [], s => some s
  | (t, timeout) :: rest, s => (step t timeout s).bind (run rest)

/-- Thread `t` is inside `workTask`. -/
def inWorkTask (s : System) (t : Nat) : Bool :=
  s.threads.get? t == some (Thread.worker WorkerPc.workTask)

/-- Thread `t` is an external caller between `externalCallAcquire` and
`externalCallRelease`. -/
def inExternalCall (s : System) (t : Nat) : Bool :=
  s.threads.get? t == some (Thread.external ExternalPc.holding)

/-- A freshly constructed actor with one worker thread and one external caller. -/
def workerAndCaller : System :=
  { actor := ActorInterface.new
    threads := [Thread.worker WorkerPc.acquireEntry, Thread.external ExternalPc.acquire] }

/-- A freshly constructed actor with two worker threads and one external caller. -/
def twoWorkersAndCaller : System :=
  { actor := ActorInterface.new
    threads := [Thread.worker WorkerPc.acquireEntry, Thread.external ExternalPc.acquire,
      Thread.worker WorkerPc.acquireEntry] }

/-! ## BufferChunk serialization -/

/-- Modelled from the spec: the data type of a chunk, an element type tag and a vector
size (`DType` is declared in `Pothos/Framework/DType.hpp`, not among the sources). -/
structure DType where
  elemType : Nat
  dimension : Nat
deriving DecidableEq, Repr

/-- A buffer chunk: its address, the `length` bytes found at that address, and its data
type. -/
structure BufferChunk where
  address : Nat
  bytes : List (Fin 256)
  dtype : DType
deriving DecidableEq, Repr

/-- The field `length`. -/
def BufferChunk.length (t : BufferChunk) : Nat := t.bytes.length

/-- Modelled from the spec: the test `not t` of a chunk; the null chunk is the one with no
address (`operator bool` is declared in `Pothos/Framework/BufferChunk.hpp`, not among the
sources). -/
def BufferChunk.isNull (t : BufferChunk) : Bool := t.address == 0

/-- Modelled from the spec: the default-constructed chunk `Pothos::BufferChunk()`, the
null chunk, with the default data type. -/
def BufferChunk.empty : BufferChunk := { address := 0, bytes := [], dtype := ⟨0, 1⟩ }

/-- One value written to or read from an archive. -/
inductive Item where
  | bool (b : Bool)
  | uint32 (n : Nat)
  | byte (b : Fin 256)
  | dtype (d : DType)
deriving DecidableEq, Repr

/-- The function `save(ar, t)` of lines 74-85: the items appended to the archive. -/
def save (t : BufferChunk) : List Item :=
  let is_null := t.isNull
  if is_null then [Item.bool is_null]
  else
    let length := t.length % 2 ^ 32
    [Item.bool is_null, Item.uint32 length] ++ t.bytes.map Item.byte ++ [Item.dtype t.dtype]

/-- The statement `ar >> bo` for a binary object of `n` bytes: the bytes read and the rest
of the archive, or `none` when the archive does not hold `n` bytes next. -/
def readBytes : Nat → List Item → Option (List (Fin 256) × List Item)
  | 0, ar => some ([], ar)
  | n + 1, Item.byte b :: ar => (readBytes n ar).map (fun r => (b :: r.1, r.2))
  | _ + 1, _ => none

/-- The function `load(ar, t)` of lines 87-100: the chunk read and the rest of the archive,
or `none` when the archive does not hold the expected items.  `alloc` gives the address of
the buffer allocated by `BufferChunk(size_t(length))`. -/
def load (alloc : Nat → Nat) (ar : List Item) : Option (BufferChunk × List Item) :=
  match ar with
  | Item.bool is_null :: ar1 =>
    if is_null then some (BufferChunk.empty, ar1)
    else
      match ar1 with
      | Item.uint32 length :: ar2 =>
        match readBytes length ar2 with
        | some (bytes, ar3) =>
          match ar3 with
          | Item.dtype d :: ar4 => some ({ address := alloc length, bytes := bytes, dtype := d }, ar4)
          | _ => none
        | none => none
      | _ => none
  | _ => none

/-- A non-null chunk of `n` zero bytes. -/
def zeroChunk (n : Nat) : BufferChunk :=
  { address := 1, bytes := List.replicate n 0, dtype := ⟨0, 1⟩ }

/-- A non-null chunk of 2^32 zero bytes. -/
def hugeChunk : BufferChunk := zeroChunk (2 ^ 32)

/-- An allocator that places every buffer at address 4096. -/
def pageAlloc : Nat → Nat := fun _ => 4096

/-- A non-null chunk of three bytes. -/
def smallChunk : BufferChunk := { address := 64, bytes := [1, 2, 3], dtype := ⟨5, 1⟩ }

/-! ## BufferChunk::append -/

/-- The method `append(other)` of lines 39-56 applied to `this`; `alloc` gives the address
of the buffer allocated by `BufferChunk(numBytes)`.  The result is the new value of
`*this`. -/
def BufferChunk.append (alloc : Nat → Nat) (this other : BufferChunk) : BufferChunk :=
  if this.isNull then other
  else
    let accumulator : BufferChunk :=
      { address := alloc (this.length + other.length)
        bytes := this.bytes ++ other.bytes
        dtype := this.dtype }
    accumulator

/-! ## Data types of the converters -/

/-- The ten numeric scalar types registered by `registerConverters`. -/
inductive Scalar where
  | int8 | uint8 | int16 | uint16 | int32 | uint32 | int64 | uint64 | float | double
deriving DecidableEq, Repr

/-- The scalar types in the order of lines 74-83 and 89-98. -/
def Scalar.all : List Scalar :=
  [Scalar.int8, Scalar.uint8, Scalar.int16, Scalar.uint16, Scalar.int32, Scalar.uint32,
    Scalar.int64, Scalar.uint64, Scalar.float, Scalar.double]

/-- The value of `sizeof` for a scalar type. -/
def Scalar.sizeof : Scalar → Nat
  | Scalar.int8 => 1 | Scalar.uint8 => 1
  | Scalar.int16 => 2 | Scalar.uint16 => 2
  | Scalar.int32 => 4 | Scalar.uint32 => 4
  | Scalar.int64 => 8 | Scalar.uint64 => 8
  | Scalar.float => 4 | Scalar.double => 8

/-- Whether a scalar type is an integer type. -/
def Scalar.isInteger : Scalar → Bool
  | Scalar.float => false
  | Scalar.double => false
  | _ => true

/-- Position of a scalar type in the list of scalar types. -/
def Scalar.position : Scalar → Nat
  | Scalar.int8 => 0 | Scalar.uint8 => 1
  | Scalar.int16 => 2 | Scalar.uint16 => 3
  | Scalar.int32 => 4 | Scalar.uint32 => 5
  | Scalar.int64 => 6 | Scalar.uint64 => 7
  | Scalar.float => 8 | Scalar.double => 9

/-- A numeric element type: a scalar type, taken real or as `std::complex`. -/
structure ElemType where
  scalar : Scalar
  complex : Bool
deriving DecidableEq, Repr

/-- Modelled from the spec: the tag `elemType()` of a numeric element type.  `DType` is
declared in `Pothos/Framework/DType.hpp`, not among the sources; the spec says the tag
enumerates the scalar types each with an optional complex flag, and `dtypeIOToHash` assumes
that it uses only the first few bits.  Tags 0 and 1 are left to non-numeric types. -/
def ElemType.tag (e : ElemType) : Nat :=
  2 + 2 * e.scalar.position + (if e.complex then 1 else 0)

/-- The numeric element types. -/
def ElemType.all : List ElemType :=
  Scalar.all.flatMap (fun s => [⟨s, false⟩, ⟨s, true⟩])

/-- The numeric element type named by a tag, if any. -/
def ElemType.ofTag (tag : Nat) : Option ElemType :=
  ElemType.all.find? (fun e => e.tag == tag)

/-- The data type `DType(typeid(T))` of one element of a numeric type, and vectors of it. -/
def DType.numeric (e : ElemType) (dimension : Nat) : DType :=
  { elemType := e.tag, dimension := dimension }

/-- Modelled from the spec: `elemSize()`, the bytes of one element (both components of a
complex element); types that are not numeric have no size in this model. -/
def DType.elemSize (d : DType) : Nat :=
  match ElemType.ofTag d.elemType with
  | some e => if e.complex then 2 * e.scalar.sizeof else e.scalar.sizeof
  | none => 0

/-- Modelled from the spec: `size()`, the bytes of one sample of `dimension` elements. -/
def DType.size (d : DType) : Nat := d.elemSize * d.dimension

/-- Modelled from the spec: `isInteger()`. -/
def DType.isInteger (d : DType) : Bool :=
  match ElemType.ofTag d.elemType with
  | some e => e.scalar.isInteger
  | none => false

/-- Modelled from the spec: `isComplex()`. -/
def DType.isComplex (d : DType) : Bool :=
  match ElemType.ofTag d.elemType with
  | some e => e.complex
  | none => false

/-! ## BufferChunk conversion

The contents of a buffer are kept as scalar cells: cell `k` of a chunk is the `k`-th scalar
stored from its address on, a complex element taking two consecutive cells (real part, then
imaginary part).  The values of the cells are of an arbitrary type `V`; the C++ conversion
`OutType(x)` between scalar types is the parameter `cast`.  Sizes are natural numbers; no
`size_t` product is anywhere near 2^64 in what follows. -/

/-- A chunk as the converters see it: the fields `address`, `length` and `dtype`, the number
of bytes of the underlying shared buffer from `address` on, and the scalar cells found
there. -/
structure Chunk (V : Type) where
  address : Nat
  length : Nat
  dtype : DType
  capacity : Nat
  cells : Nat → V

/-- What the converters take from their surroundings. -/
structure ConvertEnv (V : Type) where
  /-- The address of a newly allocated buffer of the given number of bytes. -/
  alloc : Nat → Nat
  /-- The contents of newly allocated memory. -/
  fresh : Nat → V
  /-- The conversion `OutType(x)` from the first scalar type to the second. -/
  cast : Scalar → Scalar → V → V
  /-- The value `OutType()` of a scalar type. -/
  zero : Scalar → V
  /-- The text `dtype.toString()`. -/
  dtypeToString : DType → String

/-- The exception raised by the conversions. -/
inductive ConvertExn where
  | BufferConvertError (source : String) (text : String)
deriving DecidableEq, Repr

/-- The function `rawConvert<InType, OutType>` of lines 15-21. -/
def rawConvert {V : Type} (cast : V → V) (inElems outElems : Nat → V) (num : Nat) : Nat → V :=
  (List.range num).foldl (fun out i => Function.update out i (cast (inElems i))) outElems

/-- The function `rawConvertRealToComplex<InType, OutType>` of lines 23-29. -/
def rawConvertRealToComplex {V : Type} (cast : V → V) (zero : V) (inElems outElems : Nat → V)
    (num : Nat) : Nat → V :=
  (List.range num).foldl
    (fun out i =>
      Function.update (Function.update out (2 * i) (cast (inElems i))) (2 * i + 1) zero)
    outElems

/-- The function `rawConvertComplex<InType, OutType>` of lines 31-37. -/
def rawConvertComplex {V : Type} (cast : V → V) (inElems outElems : Nat → V) (num : Nat) : Nat → V :=
  (List.range num).foldl
    (fun out i =>
      Function.update (Function.update out (2 * i) (cast (inElems (2 * i))))
        (2 * i + 1) (cast (inElems (2 * i + 1))))
    outElems

/-- The function `rawConvertComponents<InType, OutType>` of lines 39-50: the contents of
`outRe` and of `outIm`. -/
def rawConvertComponents {V : Type} (cast : V → V) (inElems outRe outIm : Nat → V) (num : Nat) :
    (Nat → V) × (Nat → V) :=
  (List.range num).foldl
    (fun out i =>
      (Function.update out.1 i (cast (inElems (2 * i))),
        Function.update out.2 i (cast (inElems (2 * i + 1)))))
    (outRe, outIm)

/-- The function `dtypeIOToHash` of lines 55-58. -/
def dtypeIOToHash (dIn dOut : DType) : Nat :=
  dIn.elemType ||| (dOut.elemType <<< 16)

/-- The functions stored in `convertMap`. -/
inductive Converter where
  | rawConvert (inType outType : Scalar)
  | rawConvertRealToComplex (inType outType : Scalar)
  | rawConvertComplex (inType outType : Scalar)
deriving DecidableEq, Repr

/-- The functions stored in `convertComplexMap`. -/
inductive ComplexConverter where
  | rawConvertComponents (inType outType : Scalar)
deriving DecidableEq, Repr

/-- The two maps of `BufferConvertImpl`; an assignment `map[h] = f` puts the pair in front,
and `find` returns the first pair with the key, that is the latest assignment. -/
structure BufferConvertImpl where
  convertMap : List (Nat × Converter)
  convertComplexMap : List (Nat × ComplexConverter)
deriving DecidableEq, Repr

/-- The function `registerConverter<InType, OutType>` of lines 101-117. -/
def registerConverterPair (impl : BufferConvertImpl) (inType outType : Scalar) :
    BufferConvertImpl :=
  let h1 := dtypeIOToHash (DType.numeric ⟨inType, false⟩ 1) (DType.numeric ⟨outType, false⟩ 1)
  let m1 := (h1, Converter.rawConvert inType outType) :: impl.convertMap
  let h2 := dtypeIOToHash (DType.numeric ⟨inType, false⟩ 1) (DType.numeric ⟨outType, true⟩ 1)
  let m2 := (h2, Converter.rawConvertRealToComplex inType outType) :: m1
  let h3 := dtypeIOToHash (DType.numeric ⟨inType, true⟩ 1) (DType.numeric ⟨outType, true⟩ 1)
  let m3 := (h3, Converter.rawConvertComplex inType outType) :: m2
  let h4 := dtypeIOToHash (DType.numeric ⟨inType, true⟩ 1) (DType.numeric ⟨outType, false⟩ 1)
  { convertMap := m3
    convertComplexMap :=
      (h4, ComplexConverter.rawConvertComponents inType outType) :: impl.convertComplexMap }

/-- The function `registerConverter<InType>` of lines 86-99. -/
def registerConverter (impl : BufferConvertImpl) (inType : Scalar) : BufferConvertImpl :=
  Scalar.all.foldl (fun impl outType => registerConverterPair impl inType outType) impl

/-- The function `registerConverters` of lines 72-84, from empty maps. -/
def registerConverters : BufferConvertImpl :=
  Scalar.all.foldl registerConverter { convertMap := [], convertComplexMap := [] }

/-- The singleton `getBufferConvertImpl()`. -/
def getBufferConvertImpl : BufferConvertImpl := registerConverters

/-- Modelled from the spec: the constructor `BufferChunk(dtype, numElems)`, declared in
`Pothos/Framework/BufferChunk.hpp` (not among the sources): a chunk of that data type over
a newly allocated buffer of `numElems` samples. -/
def Chunk.make {V : Type} (env : ConvertEnv V) (dtype : DType) (numElems : Nat) : Chunk V :=
  { address := env.alloc (dtype.size * numElems)
    length := dtype.size * numElems
    dtype := dtype
    capacity := dtype.size * numElems
    cells := env.fresh }

/-- The call `it->second(in, out, primElems)` on a function found in `convertMap`. -/
def Converter.run {V : Type} (env : ConvertEnv V) (inElems outElems : Nat → V) (num : Nat) :
    Converter → (Nat → V)
  | Converter.rawConvert i o => Pothos.rawConvert (env.cast i o) inElems outElems num
  | Converter.rawConvertRealToComplex i o =>
    Pothos.rawConvertRealToComplex (env.cast i o) (env.zero o) inElems outElems num
  | Converter.rawConvertComplex i o =>
    Pothos.rawConvertComplex (env.cast i o) inElems outElems num

/-- The method `BufferChunk::convert(outDType, numElems)` of lines 129-154. -/
def Chunk.convert {V : Type} (env : ConvertEnv V) (this : Chunk V) (outDType : DType) (numElems : Nat) :
    Except ConvertExn (Chunk V) :=
  let primElems := (numElems * this.dtype.size) / this.dtype.elemSize
  let outElems := primElems * outDType.size / outDType.elemSize
  if outDType.elemType = this.dtype.elemType ∨
      (outDType.elemSize = this.dtype.elemSize ∧
        outDType.isInteger = this.dtype.isInteger ∧
        outDType.isComplex = this.dtype.isComplex) then
    let out := this
    Except.ok { out with dtype := outDType, length := outDType.size * outElems }
  else
    match getBufferConvertImpl.convertMap.lookup (dtypeIOToHash this.dtype outDType) with
    | none =>
      Except.error (ConvertExn.BufferConvertError
        ("Pothos::BufferChunk::convert(" ++ env.dtypeToString this.dtype ++ ")")
        ("cant convert from " ++ env.dtypeToString this.dtype))
    | some converter =>
      let out := Chunk.make env outDType outElems
      Except.ok { out with cells := converter.run env this.cells out.cells primElems }

/-- The method `BufferChunk::convertComplex(outDType, numElems)` of lines 156-169. -/
def Chunk.convertComplex {V : Type} (env : ConvertEnv V) (this : Chunk V) (outDType : DType)
    (numElems : Nat) : Except ConvertExn (Chunk V × Chunk V) :=
  let primElems := (numElems * this.dtype.size) / this.dtype.elemSize
  let outElems := primElems * outDType.size / outDType.elemSize
  match getBufferConvertImpl.convertComplexMap.lookup (dtypeIOToHash this.dtype outDType) with
  | none =>
    Except.error (ConvertExn.BufferConvertError
      ("Pothos::BufferChunk::convertComplex(" ++ env.dtypeToString this.dtype ++ ")")
      ("cant convert from " ++ env.dtypeToString this.dtype))
  | some (ComplexConverter.rawConvertComponents i o) =>
    let outRe := Chunk.make env outDType outElems
    let outIm := Chunk.make env outDType outElems
    let r :=
      Pothos.rawConvertComponents (env.cast i o) this.cells outRe.cells outIm.cells primElems
    Except.ok ({ outRe with cells := r.1 }, { outIm with cells := r.2 })

/-- The test of lines 135-139 that selects the branch of `convert` that copies nothing. -/
def sharesBuffer (dIn dOut : DType) : Bool :=
  decide (dOut.elemType = dIn.elemType ∨
    (dOut.elemSize = dIn.elemSize ∧ dOut.isInteger = dIn.isInteger ∧
      dOut.isComplex = dIn.isComplex))

/-- A conversion environment over natural numbers whose casts keep the value. -/
def plainEnv : ConvertEnv Nat :=
  { alloc := fun _ => 4096, fresh := fun _ => 0, cast := fun _ _ v => v, zero := fun _ => 0,
    dtypeToString := fun d => toString d.elemType }

/-- One sample of two 32-bit integers: 8 bytes in a buffer of 8 bytes. -/
def pairChunk : Chunk Nat :=
  { address := 64, length := 8, dtype := DType.numeric ⟨Scalar.int32, false⟩ 2, capacity := 8,
    cells := fun k => k + 1 }

/-- Two 32-bit integers: 8 bytes in a buffer of 8 bytes. -/
def twoIntsChunk : Chunk Nat :=
  { address := 64, length := 8, dtype := DType.numeric ⟨Scalar.int32, false⟩ 1, capacity := 8,
    cells := fun k => k + 1 }

/-- One complex float: 8 bytes in a buffer of 8 bytes. -/
def complexFloatChunk : Chunk Nat :=
  { address := 64, length := 8, dtype := DType.numeric ⟨Scalar.float, true⟩ 1, capacity := 8,
    cells := fun k => k + 1 }

/-! ## Port allocation (WorkerActorPortAllocation.cpp)

One instance of the templated functions is modelled, over the tables of one direction
(inputs or outputs) of a block.  Port objects live on the heap: `ptr` is the address of the
object, and the tables other than `ports` hold such addresses. -/

/-- Value of a decimal digit. -/
def digitValue (c : Char) : Option Nat :=
  if '0' ≤ c ∧ c ≤ '9' then some (c.toNat - '0'.toNat) else none

/-- Value of a string of decimal digits read after the digits valued `acc`. -/
def parseDigits : List Char → Nat → Option Nat
  | [], acc => some acc
  | c :: rest, acc =>
    match digitValue c with
    | some d => parseDigits rest (10 * acc + d)
    | none => none

/-- Modelled from the spec: `Poco::NumberParser::tryParseUnsigned` (a library function, not
among the sources) on the decimal spellings the spec speaks of: a non-empty string of
decimal digits, leading zeros allowed, whose value fits an `unsigned` of 32 bits.  Other
spellings the library may accept are taken as not numeric. -/
def tryParseUnsigned (name : String) : Option Nat :=
  match name.data with
  | [] => none
  | cs =>
    match parseDigits cs 0 with
    | some value => if value < 2 ^ 32 then some value else none
    | none => none

/-- The function `portNameToIndex` of lines 11-16; `int(value)` wraps values from 2^31 on
to negative numbers. -/
def portNameToIndex (name : String) : Int :=
  match tryParseUnsigned name with
  | some value => if value < 2 ^ 31 then (value : Int) else (value : Int) - 2 ^ 32
  | none => -1

/-- A port object. -/
structure PortObj where
  ptr : Nat
  name : String
  index : Int
  dtype : DType
  domain : String
  subscribers : List (Nat × String)
deriving DecidableEq, Repr

/-- The order of `std::string` keys in a `std::map`. -/
def keyLess : List Char → List Char → Bool
  | [], [] => false
  | [], _ :: _ => true
  | _ :: _, [] => false
  | a :: as, b :: bs =>
    if a.toNat < b.toNat then true
    else if b.toNat < a.toNat then false
    else keyLess as bs

/-- The assignment `map[key] = value` on a `std::map` with string keys, kept in key
order. -/
def mapSet {β : Type} : List (String × β) → String → β → List (String × β)
  | [], key, value => [(key, value)]
  | (k, v) :: rest, key, value =>
    if k = key then (k, value) :: rest
    else if keyLess key.data k.data then (key, value) :: (k, v) :: rest
    else (k, v) :: mapSet rest key value

/-- The tables that the port functions work on. -/
structure PortTables where
  /-- The map `ports` from name to owned port object. -/
  ports : List (String × PortObj)
  /-- The map `namedPorts` from name to port address. -/
  namedPorts : List (String × Nat)
  /-- The vector `indexedPorts` of port addresses; `none` is `nullptr`. -/
  indexedPorts : List (Option Nat)
  /-- The vector `portNames`. -/
  portNames : List String
  /-- The set `automaticPorts` of port addresses. -/
  automaticPorts : List Nat
  /-- The size of the work-info pointer array kept by `updatePorts`. -/
  workInfoPointers : Nat
  /-- The address that the next `new` returns. -/
  heap : Nat
deriving DecidableEq, Repr

/-- The tables of a block without ports. -/
def PortTables.empty : PortTables :=
  { ports := [], namedPorts := [], indexedPorts := [], portNames := [], automaticPorts := [],
    workInfoPointers := 0, heap := 1 }

/-- What can end a port function other than a normal return. -/
inductive PortExn where
  /-- The exception `std::length_error` of a vector asked to grow beyond its maximal
  size. -/
  | length_error
  /-- A null or dangling pointer was dereferenced, or a vector was read out of range. -/
  | undefined_behaviour
  | PortAccessError (source : String) (text : String)
deriving DecidableEq, Repr

/-- The call `indexedPorts.resize(n, nullptr)` for `n` not below the size. -/
def growTo (indexedPorts : List (Option Nat)) (n : Nat) : List (Option Nat) :=
  indexedPorts ++ List.replicate (n - indexedPorts.length) none

/-- The function `allocatePort` of lines 21-53.  A numeric name from 2^31 on has a negative
index other than -1, `size_t(index)` is then beyond the maximal size of a vector and
`resize` throws; the tables as that exception leaves them are not modelled. -/
def allocatePort (st : PortTables) (name : String) (dtype : DType) (domain : String)
    (automatic : Bool) : Except PortExn PortTables :=
  let port : PortObj :=
    { ptr := st.heap, name := name, index := portNameToIndex name, dtype := dtype,
      domain := domain, subscribers := [] }
  let ports := mapSet st.ports name port
  let portNames := st.portNames ++ [name]
  let namedPorts := mapSet st.namedPorts name port.ptr
  if port.index ≠ -1 then
    if port.index < 0 then Except.error PortExn.length_error
    else
      let index := port.index.toNat
      let indexedPorts := (growTo st.indexedPorts (max (index + 1) st.indexedPorts.length)).set
        index (some port.ptr)
      Except.ok
        { ports := ports, namedPorts := namedPorts, indexedPorts := indexedPorts,
          portNames := portNames,
          automaticPorts :=
            if automatic then
              (if port.ptr ∈ st.automaticPorts then st.automaticPorts
                else st.automaticPorts ++ [port.ptr])
            else st.automaticPorts,
          workInfoPointers := indexedPorts.length, heap := st.heap + 1 }
  else
    Except.ok
      { ports := ports, namedPorts := namedPorts, indexedPorts := st.indexedPorts,
        portNames := portNames,
        automaticPorts :=
          if automatic then
            (if port.ptr ∈ st.automaticPorts then st.automaticPorts
              else st.automaticPorts ++ [port.ptr])
          else st.automaticPorts,
        workInfoPointers := st.indexedPorts.length, heap := st.heap + 1 }

/-- The loop of lines 63-68, entered with `i = n - 1`: the greatest `i` below `n` for which
a port named `std::to_string(i)` exists. -/
def lowerPort (ports : List (String × PortObj)) : Nat → Option Nat
  | 0 => none
  | i + 1 => if toString i ∈ ports.map Prod.fst then some i else lowerPort ports i

/-- The port object at an address, if the address is that of a live port. -/
def deref (st : PortTables) (ptr : Nat) : Option PortObj :=
  (st.ports.find? (fun entry => entry.2.ptr == ptr)).map Prod.snd

/-- The result of an operation on `int` values: the exact result taken modulo 2^32 into the
range of `int`.  An overflowing subtraction is taken to wrap, as the compiled code does. -/
def wrapInt (x : Int) : Int := (x + 2 ^ 31) % 2 ^ 32 - 2 ^ 31

/-- The function `autoAllocatePort` of lines 55-69.  The loop starts at `index-1` and runs
while `i >= 0`; for the least `int` the subtraction wraps to the greatest `int`. -/
def autoAllocatePort (st : PortTables) (name : String) : Except PortExn PortTables :=
  let index := portNameToIndex name
  if index = -1 then Except.ok st
  else if name ∈ st.ports.map Prod.fst then Except.ok st
  else
    let start := wrapInt (index - 1)
    match lowerPort st.ports (start + 1).toNat with
    | none => Except.ok st
    | some i =>
      match st.indexedPorts.get? i with
      | some (some ptr) =>
        match deref st ptr with
        | some port => allocatePort st name port.dtype port.domain true
        | none => Except.error PortExn.undefined_behaviour
      | _ => Except.error PortExn.undefined_behaviour

/-- The loop of lines 140-143 stripping null ports from the end of `indexedPorts`. -/
def stripNull (indexedPorts : List (Option Nat)) : List (Option Nat) :=
  indexedPorts.rdropWhile (fun p => p.isNone)

/-- One round of the loop of lines 120-159, for the map entry `thisIt`. -/
def autoDeleteStep (st : PortTables) (thisIt : String × PortObj) : PortTables :=
  let port := thisIt.2
  if port.subscribers ≠ [] then st
  else if port.ptr ∉ st.automaticPorts then st
  else
    let automaticPorts := st.automaticPorts.filter (fun p => p ≠ port.ptr)
    let indexedPorts :=
      if 0 ≤ port.index ∧ port.index.toNat < st.indexedPorts.length then
        st.indexedPorts.set port.index.toNat none
      else st.indexedPorts
    let indexedPorts := stripNull indexedPorts
    let namedPorts := st.namedPorts.filter (fun entry => entry.1 ≠ port.name)
    let portNames := st.portNames.erase port.name
    let ports := st.ports.filter (fun entry => entry.1 ≠ thisIt.1)
    { ports := ports, namedPorts := namedPorts, indexedPorts := indexedPorts,
      portNames := portNames, automaticPorts := automaticPorts,
      workInfoPointers := st.workInfoPointers, heap := st.heap }

/-- The function `autoDeletePorts` of lines 116-160: every entry of the map is visited
once, in key order. -/
def autoDeletePorts (st : PortTables) : PortTables :=
  st.ports.foldl autoDeleteStep st

/-- A call of one of the three port functions; ports set up by the block are not
automatic. -/
inductive PortCall where
  | allocatePort (name : String) (dtype : DType) (domain : String)
  | autoAllocatePort (name : String)
  | autoDeletePorts
deriving DecidableEq, Repr

/-- The effect of one call. -/
def PortCall.run (st : PortTables) : PortCall → Except PortExn PortTables
  | PortCall.allocatePort name dtype domain => Pothos.allocatePort st name dtype domain false
  | PortCall.autoAllocatePort name => Pothos.autoAllocatePort st name
  | PortCall.autoDeletePorts => Except.ok (Pothos.autoDeletePorts st)

/-- The effect of a sequence of calls, stopping at the first that does not return. -/
def runCalls : List PortCall → PortTables → Except PortExn PortTables
  | [], st => Except.ok st
  | call :: rest, st =>
    match call.run st with
    | Except.ok st1 => runCalls rest st1
    | Except.error e => Except.error e

/-- The data type of 32-bit integers. -/
def int32Type : DType := DType.numeric ⟨Scalar.int32, false⟩ 1

/-- The tables after the block set up port "0" with 32-bit integers. -/
def tablesWithPort0 : PortTables :=
  { ports := [("0", ⟨1, "0", 0, int32Type, "", []⟩)], namedPorts := [("0", 1)],
    indexedPorts := [some 1], portNames := ["0"], automaticPorts := [],
    workInfoPointers := 1, heap := 2 }

/-- The tables after the block set up port "01" with 32-bit integers. -/
def tablesWithPort01 : PortTables :=
  { ports := [("01", ⟨1, "01", 1, int32Type, "", []⟩)], namedPorts := [("01", 1)],
    indexedPorts := [none, some 1], portNames := ["01"], automaticPorts := [],
    workInfoPointers := 2, heap := 2 }

/-- The tables after port "0" was set up, port "01" was allocated automatically and port
"1" was set up. -/
def tablesWithSharedIndex : PortTables :=
  { ports := [("0", ⟨1, "0", 0, int32Type, "", []⟩), ("01", ⟨2, "01", 1, int32Type, "", []⟩),
      ("1", ⟨3, "1", 1, int32Type, "", []⟩)],
    namedPorts := [("0", 1), ("01", 2), ("1", 3)],
    indexedPorts := [some 1, some 3], portNames := ["0", "01", "1"], automaticPorts := [2],
    workInfoPointers := 2, heap := 4 }

/-! ## Topology::make from a JSON description (TopologyJSON.cpp) -/

/-- A parsed JSON value. -/
inductive Json where
  | null
  | bool (b : Bool)
  | number (n : Int)
  | string (s : String)
  | array (items : List Json)
  | object (fields : List (String × Json))

/-- What ends `Topology::make` other than a normal return. -/
inductive MakeExn where
  | DataFormatException (source : String) (text : String)
  /-- The exception of the library for the use of a null `Ptr`. -/
  | NullPointerException
  /-- The exception of the library for a value that cannot be converted. -/
  | ConversionException
deriving DecidableEq, Repr

/-- A connection made on the new topology. -/
structure Connection where
  src : Nat
  srcPort : String
  dst : Nat
  dstPort : String
deriving DecidableEq, Repr

/-- What `Topology::make` takes from its surroundings. -/
structure MakeEnv where
  /-- The conversion of a JSON value to `std::string` made by `getValue` and `getElement`
  of the library, `none` when it throws. -/
  convertString : Json → Option String
  /-- The proxy that `makeBlock` evaluates to for an id and a path; its body in the source
  is unfinished and ends without a return statement. -/
  blockProxy : String → String → Nat
  /-- The proxy of the new topology. -/
  topologyProxy : Nat

/-- The call `obj->getValue<std::string>(key)`. -/
def getValueString (env : MakeEnv) (fields : List (String × Json)) (key : String) :
    Except MakeExn String :=
  match fields.lookup key with
  | none => Except.error MakeExn.ConversionException
  | some value =>
    match env.convertString value with
    | some s => Except.ok s
    | none => Except.error MakeExn.ConversionException

/-- The call `topObj->getArray(key)` guarded by `topObj->isArray(key)`: the items of the
array, or `none` for the null `Ptr` that the variable keeps otherwise. -/
def getArrayIfArray (topObj : List (String × Json)) (key : String) : Option (List Json) :=
  match topObj.lookup key with
  | some (Json.array items) => some items
  | _ => none

/-- The function `makeBlock` of lines 68-73. -/
def makeBlock (env : MakeEnv) (blockObj : List (String × Json)) : Except MakeExn Nat :=
  match getValueString env blockObj "id" with
  | Except.error e => Except.error e
  | Except.ok id =>
    match getValueString env blockObj "path" with
    | Except.error e => Except.error e
    | Except.ok path => Except.ok (env.blockProxy id path)

/-- The loop of lines 98-107 from index `i` on. -/
def makeBlocks (env : MakeEnv) :
    List Json → Nat → List (String × Nat) → Except MakeExn (List (String × Nat))
  | [], _, blocks => Except.ok blocks
  | Json.object blockObj :: rest, i, blocks =>
    if (blockObj.lookup "id").isNone then
      Except.error (MakeExn.DataFormatException "Pothos::Topology::make()"
        ("blocks[" ++ toString i ++ "] missing 'id' field"))
    else
      match getValueString env blockObj "id" with
      | Except.error e => Except.error e
      | Except.ok id =>
        match makeBlock env blockObj with
        | Except.error e => Except.error e
        | Except.ok proxy => makeBlocks env rest (i + 1) (mapSet blocks id proxy)
  | _ :: _, i, _ =>
    Except.error (MakeExn.DataFormatException "Pothos::Topology::make()"
      ("blocks[" ++ toString i ++ "] must be an object"))

/-- The call `connArgs->getElement<std::string>(k)`. -/
def getElementString (env : MakeEnv) (connArgs : List Json) (k : Nat) : Except MakeExn String :=
  match connArgs.get? k with
  | none => Except.error MakeExn.ConversionException
  | some value =>
    match env.convertString value with
    | some s => Except.ok s
    | none => Except.error MakeExn.ConversionException

/-- The loop of lines 112-134 from index `i` on; `made` holds the connections made so
far. -/
def makeConnections (env : MakeEnv) (blocks : List (String × Nat)) :
    List Json → Nat → List Connection → Except MakeExn (List Connection)
  | [], _, made => Except.ok made
  | Json.array connArgs :: rest, i, made =>
    if connArgs.length ≠ 4 then
      Except.error (MakeExn.DataFormatException "Pothos::Topology::make()"
        ("connections[" ++ toString i ++ "] must be size 4"))
    else
      match getElementString env connArgs 0, getElementString env connArgs 1,
        getElementString env connArgs 2, getElementString env connArgs 3 with
      | Except.ok srcId, Except.ok srcPort, Except.ok dstId, Except.ok dstPort =>
        match blocks.lookup srcId with
        | none =>
          Except.error (MakeExn.DataFormatException "Pothos::Topology::make()"
            ("connections[" ++ toString i ++ "] no such ID: " ++ srcId))
        | some src =>
          match blocks.lookup dstId with
          | none =>
            Except.error (MakeExn.DataFormatException "Pothos::Topology::make()"
              ("connections[" ++ toString i ++ "] no such ID: " ++ dstId))
          | some dst =>
            makeConnections env blocks rest (i + 1) (made ++ [⟨src, srcPort, dst, dstPort⟩])
      | _, _, _, _ => Except.error MakeExn.ConversionException
  | _ :: _, i, _ =>
    Except.error (MakeExn.DataFormatException "Pothos::Topology::make()"
      ("connections[" ++ toString i ++ "] must be an array"))

/-- The function `Pothos::Topology::make(json)` of lines 78-137 on the parsed top-level
object: the connections of the topology it returns. -/
def Topology.make (env : MakeEnv) (topObj : List (String × Json)) :
    Except MakeExn (List Connection) :=
  let blocks0 : List (String × Nat) :=
    mapSet (mapSet (mapSet [] "self" env.topologyProxy) "this" env.topologyProxy) ""
      env.topologyProxy
  match getArrayIfArray topObj "blocks" with
  | none => Except.error MakeExn.NullPointerException
  | some blockArray =>
    match makeBlocks env blockArray 0 blocks0 with
    | Except.error e => Except.error e
    | Except.ok blocks =>
      match getArrayIfArray topObj "connections" with
      | none => Except.error MakeExn.NullPointerException
      | some connArray => makeConnections env blocks connArray 0 []

/-- A surrounding in which only JSON strings convert to strings. -/
def stringsOnlyEnv : MakeEnv :=
  { convertString := fun v => match v with
      | Json.string s => some s
      | _ => none,
    blockProxy := fun _ _ => 7, topologyProxy := 1 }

/-- The test of lines 126-131: no subscribers and recorded as automatic. -/
def removable (st : PortTables) (port : PortObj) : Bool :=
  decide (port.subscribers = []) && decide (port.ptr ∈ st.automaticPorts)

/-- The tables after port "0" was set up and port "2" was allocated automatically. -/
def tablesWithAutoPort : PortTables :=
  { ports := [("0", ⟨1, "0", 0, int32Type, "", []⟩), ("2", ⟨2, "2", 2, int32Type, "", []⟩)],
    namedPorts := [("0", 1), ("2", 2)], indexedPorts := [some 1, none, some 2],
    portNames := ["0", "2"], automaticPorts := [2], workInfoPointers := 3, heap := 3 }

/-- An actor in wait mode with one worker thread and one external caller. -/
def waitingWorkerAndCaller : System :=
  { actor := { _waitModeEnabled := true, _changeFlagged := false, _mutex := none }
    threads := [Thread.worker WorkerPc.acquireEntry, Thread.external ExternalPc.acquire] }

/-- An actor in wait mode with two worker threads and one external caller. -/
def waitingTwoWorkersAndCaller : System :=
  { actor := { _waitModeEnabled := true, _changeFlagged := false, _mutex := none }
    threads := [Thread.worker WorkerPc.acquireEntry, Thread.external ExternalPc.acquire,
      Thread.worker WorkerPc.acquireEntry] }

/-- Whether thread `t` of the system is an external caller. -/
def isExternal (s : System) (t : Nat) : Bool :=
  match s.threads.get? t with
  | some (Thread.external _) => true
  | _ => false

/-- The program points of a worker after the exchange of line 111 found the flag set: before
the lock of line 113, inside `workTask`, before the release, and after the return with
`workerThreadAcquire` having returned true. -/
def WorkerPc.onFastPath : WorkerPc → Bool
  | WorkerPc.fastLock => true
  | WorkerPc.workTask => true
  | WorkerPc.release => true
  | WorkerPc.finished true => true
  | _ => false

/-- What holds of external caller `e` in every state of a run in which only external
callers take steps: once it has stored the flag the flag is set, and once it has unlocked
the mutex is free or owned by another external caller. -/
def callerInvariant (e : Nat) (s : System) : Prop :=
  (∀ pc, s.threads.get? e = some (Thread.external pc) →
    (pc = ExternalPc.releaseUnlock ∨ pc = ExternalPc.releaseNotify ∨ pc = ExternalPc.finished) →
    s.actor._changeFlagged = true) ∧
  (∀ pc, s.threads.get? e = some (Thread.external pc) →
    (pc = ExternalPc.releaseNotify ∨ pc = ExternalPc.finished) →
    s.actor._mutex = none ∨ ∃ o, o ≠ e ∧ s.actor._mutex = some o ∧ isExternal s o = true)

/-- The program points of a worker between the test of `_waitModeEnabled` and the return of
`false`. -/
def WorkerPc.inWaitPath : WorkerPc → Bool
  | WorkerPc.waitLock => true
  | WorkerPc.waitLoop => true
  | WorkerPc.waiting => true
  | WorkerPc.timedOut => true
  | WorkerPc.finished false => true
  | _ => false

/-- What holds of worker `t` in every state of a run: on the wait path the wait mode is
enabled, and after the return of `false` the worker does not own the mutex. -/
def workerInvariant (t : Nat) (s : System) : Prop :=
  (∀ pc, s.threads.get? t = some (Thread.worker pc) → pc.inWaitPath = true →
    s.actor._waitModeEnabled = true) ∧
  (s.threads.get? t = some (Thread.worker (WorkerPc.finished false)) →
    s.actor._mutex ≠ some t)

/-- Whether a message is a port-subscriber message. -/
def isSubscriberMsg : Msg → Bool
  | Msg.sendPortSubscriberMessage _ _ _ _ _ => true
  | _ => false

/-- The endpoint blocks (sources and destinations) of a list of flows. -/
def endpointBlocks (flows : List Flow) : List Nat :=
  flows.flatMap (fun flow => [flow.src.obj, flow.dst.obj])

/-- The activated blocks after the messages of a list took effect in order, each activate
and deactivate message succeeding. -/
def applyActivation (activated : List Nat) : List Msg → List Nat
  | [] => activated
  | Msg.sendActivateMessage block :: rest => applyActivation (block :: activated) rest
  | Msg.sendDeactivateMessage block :: rest =>
    applyActivation (activated.filter (fun b => b ≠ block)) rest
  | _ :: rest => applyActivation activated rest

/-! ## Thread priority (ThreadConfigUnix.cpp)

A finite `double` is a rational number; the product of two doubles is the exact product
rounded to a double, and the rounding is a parameter.  Infinities and NaN are not
modelled. -/

/-- The scheduling policies of `sched.h`. -/
inductive Policy where
  | SCHED_OTHER | SCHED_FIFO | SCHED_RR
deriving DecidableEq, Repr

/-- A call `sched_setscheduler(0, policy, &param)`. -/
structure SchedRequest where
  policy : Policy
  sched_priority : Int
deriving DecidableEq, Repr

/-- What `setPriority` takes from the operating system and from the arithmetic. -/
structure SchedEnv where
  /-- The value of `sched_get_priority_max(policy)`. -/
  sched_get_priority_max : Policy → Int
  /-- The value of `sched_get_priority_min(policy)`. -/
  sched_get_priority_min : Policy → Int
  /-- The text `strerror(errno)` after a call that failed. -/
  strerror : String
  /-- The value returned by `sched_setscheduler` for a request. -/
  sched_setscheduler : SchedRequest → Int
  /-- The rounding of a real number to a `double`. -/
  round : ℚ → ℚ

/-- The conversion `int(x)` of a `double`: truncation towards zero. -/
def truncToInt (x : ℚ) : Int :=
  if 0 ≤ x then ⌊x⌋ else ⌈x⌉

/-- The function `setPriority` of lines 12-31: the call of `sched_setscheduler` it makes, if
any, and the text it returns. -/
def setPriority (env : SchedEnv) (prio : ℚ) : Option SchedRequest × String :=
  if prio ≤ 0 then (none, "")
  else
    let policy := Policy.SCHED_RR
    let maxPrio := env.sched_get_priority_max policy
    if maxPrio < 0 then (none, env.strerror)
    else
      let minPrio := env.sched_get_priority_min policy
      if minPrio < 0 then (none, env.strerror)
      else
        let param : SchedRequest :=
          { policy := policy
            sched_priority :=
              minPrio + truncToInt (env.round (prio * ((maxPrio - minPrio : Int) : ℚ))) }
        if env.sched_setscheduler param ≠ 0 then (some param, env.strerror)
        else (some param, "")

/-- A system with round-robin priorities 1 to 99 on which every call succeeds, with exact
arithmetic. -/
def linuxSched : SchedEnv :=
  { sched_get_priority_max := fun _ => 99, sched_get_priority_min := fun _ => 1,
    strerror := "Operation not permitted", sched_setscheduler := fun _ => 0,
    round := fun x => x }

/-! ## Integer conversions on bit patterns

For the integer scalar types a cell can be taken to hold the bit pattern of the scalar, a
natural number below 2^width.  The conversion `OutType(x)` between integer types keeps the
value modulo 2^width of the output type (two-complement representation). -/

/-- Whether a scalar type is signed (`std::is_signed`). -/
def Scalar.isSigned : Scalar → Bool
  | Scalar.uint8 => false
  | Scalar.uint16 => false
  | Scalar.uint32 => false
  | Scalar.uint64 => false
  | _ => true

/-- The width in bits of a scalar type. -/
def Scalar.width (s : Scalar) : Nat := 8 * s.sizeof

/-- The integer value of a bit pattern of an integer scalar type. -/
def decodeInt (s : Scalar) (bits : Nat) : Int :=
  if s.isSigned = true ∧ 2 ^ (s.width - 1) ≤ bits then (bits : Int) - 2 ^ s.width else (bits : Int)

/-- The bit pattern of an integer value in an integer scalar type: the value modulo
2^width. -/
def encodeInt (s : Scalar) (v : Int) : Nat := (v % 2 ^ s.width).toNat

/-- The conversion `OutType(x)` between integer scalar types, on bit patterns. -/
def intCast (inType outType : Scalar) (bits : Nat) : Nat :=
  encodeInt outType (decodeInt inType bits)

/-- The cells an element-wise integer conversion modulo 2^width produces from the cells of
a chunk (the conversion the claims about the branch that copies nothing compare with). -/
def elementwiseIntConversion (inType outType : Scalar) (cells : Nat → Nat) : Nat → Nat :=
  fun k => intCast inType outType (cells k)

/-- A conversion environment over bit patterns whose casts are the integer conversions. -/
def intEnv : ConvertEnv Nat :=
  { alloc := fun _ => 4096, fresh := fun _ => 0, cast := intCast, zero := fun _ => 0,
    dtypeToString := fun d => toString d.elemType }

/-- One sample of two signed 8-bit integers, -1 and 5: 2 bytes in a buffer of 2 bytes. -/
def bytePairChunk : Chunk Nat :=
  { address := 64, length := 2, dtype := DType.numeric ⟨Scalar.int8, false⟩ 2, capacity := 2,
    cells := fun k => if k = 0 then 255 else 5 }

/-- Two signed 8-bit integers, -1 and 5: 2 bytes in a buffer of 2 bytes. -/
def twoBytesChunk : Chunk Nat :=
  { address := 64, length := 2, dtype := DType.numeric ⟨Scalar.int8, false⟩ 1, capacity := 2,
    cells := fun k => if k = 0 then 255 else 5 }

/-! ## Basic facts -/

theorem reportErrors_ok (errors : String) : reportErrors errors = Except.ok () := rfl

theorem updateFlows_snd (env : Env) (flows : List Flow) (action : String) :
    (updateFlows env flows action).2 = Except.ok () := rfl

theorem updateFlows_fst (env : Env) (flows : List Flow) (action : String) :
    (updateFlows env flows action).1 = flows.map (subscriberMsg action) := by
  simp [updateFlows, updateFlowsReceivers, List.map_map, Function.comp_def]

theorem foldl_push_filter (p : Flow → Prop) [DecidablePred p] (l acc : List Flow) :
    l.foldl (fun out flow => if p flow then out ++ [flow] else out) acc
      = acc ++ l.filter (fun flow => decide (p flow)) := by
  induction l generalizing acc with
  | nil => simp
  | cons a t ih =>
    by_cases h : p a
    · simp [List.foldl_cons, ih, h, List.filter_cons]
    · simp [List.foldl_cons, ih, h, List.filter_cons]

theorem newFlowsOf_eq (flatFlows activeFlatFlows : List Flow) :
    newFlowsOf flatFlows activeFlatFlows
      = flatFlows.filter (fun flow => decide (flow ∉ activeFlatFlows)) := by
  unfold newFlowsOf
  rw [foldl_push_filter (fun flow => flow ∉ activeFlatFlows)]
  simp

theorem oldFlowsOf_eq (flatFlows activeFlatFlows : List Flow) :
    oldFlowsOf flatFlows activeFlatFlows
      = activeFlatFlows.filter (fun flow => decide (flow ∉ flatFlows)) := by
  unfold oldFlowsOf
  rw [foldl_push_filter (fun flow => flow ∉ flatFlows)]
  simp





theorem installBufferManagers_nil (env : Env) :
    installBufferManagers env [] = ([], Except.ok ()) := rfl

theorem topologySubCommit_result_cases (env : Env) (impl : TopologyImpl) :
    (topologySubCommit env impl).result = Except.ok () ∨
      (topologySubCommit env impl).result
        = (installBufferManagers env (newFlowsOf impl.flows impl.activeFlatFlows)).2 := by
  unfold topologySubCommit
  simp only [updateFlows_snd]
  cases h : (installBufferManagers env (newFlowsOf impl.flows impl.activeFlatFlows)).2 with
  | error e => right; rfl
  | ok u => left; rfl

/-- C4: the new flows are exactly the flat flows equal to no active flow, in flat-flow
order; the old flows are exactly the active flows equal to no flat flow, in active-flow
order; the two lists are disjoint and a flow present in both inputs is in neither. -/
theorem newFlows_oldFlows_set_difference (flatFlows activeFlatFlows : List Flow) :
    newFlowsOf flatFlows activeFlatFlows
        = flatFlows.filter (fun flow => decide (∀ other ∈ activeFlatFlows, flow ≠ other)) ∧
    oldFlowsOf flatFlows activeFlatFlows
        = activeFlatFlows.filter (fun flow => decide (∀ other ∈ flatFlows, flow ≠ other)) ∧
    List.Disjoint (newFlowsOf flatFlows activeFlatFlows) (oldFlowsOf flatFlows activeFlatFlows) ∧
    (∀ flow, flow ∈ flatFlows → flow ∈ activeFlatFlows →
      flow ∉ newFlowsOf flatFlows activeFlatFlows ∧
      flow ∉ oldFlowsOf flatFlows activeFlatFlows) := by
  have hmem : ∀ (l : List Flow) (flow : Flow), (∀ other ∈ l, flow ≠ other) ↔ flow ∉ l := by
    intro l flow
    constructor
    · intro h hin; exact h flow hin rfl
    · intro h other hin heq; exact h (heq ▸ hin)
  refine ⟨?_, ?_, ?_, ?_⟩
  · rw [newFlowsOf_eq]; simp only [hmem]
  · rw [oldFlowsOf_eq]; simp only [hmem]
  · intro flow hnew hold
    rw [newFlowsOf_eq] at hnew
    rw [oldFlowsOf_eq] at hold
    simp only [List.mem_filter, decide_eq_true_eq] at hnew hold
    exact hnew.2 hold.1
  · intro flow hflat hact
    rw [newFlowsOf_eq, oldFlowsOf_eq]
    simp only [List.mem_filter, decide_eq_true_eq, not_and, not_not]
    exact ⟨fun _ => hact, fun _ => hflat⟩

/-- C8: a sub-commit with an empty flow list sends an UNSUBOUTPUT and an UNSUBINPUT
message for every previously active flow, sends no SUBINPUT or SUBOUTPUT message, returns
normally and leaves `activeFlatFlows` empty. -/
theorem subCommit_empty_flows_tears_down (env : Env) (activeFlatFlows : List Flow) :
    (∀ flow ∈ activeFlatFlows,
      Msg.sendPortSubscriberMessage flow.dst.obj "UNSUBOUTPUT" flow.dst.name
          flow.src.obj flow.src.name ∈ (topologySubCommit env ⟨[], activeFlatFlows⟩).sent ∧
      Msg.sendPortSubscriberMessage flow.src.obj "UNSUBINPUT" flow.src.name
          flow.dst.obj flow.dst.name ∈ (topologySubCommit env ⟨[], activeFlatFlows⟩).sent) ∧
    (∀ actor action myPort peer peerPort,
      Msg.sendPortSubscriberMessage actor action myPort peer peerPort
          ∈ (topologySubCommit env ⟨[], activeFlatFlows⟩).sent →
        action ≠ "SUBINPUT" ∧ action ≠ "SUBOUTPUT") ∧
    (topologySubCommit env ⟨[], activeFlatFlows⟩).result = Except.ok () ∧
    (topologySubCommit env ⟨[], activeFlatFlows⟩).impl.activeFlatFlows = [] := by
  have hnew : newFlowsOf [] activeFlatFlows = [] := rfl
  have hold : oldFlowsOf [] activeFlatFlows = activeFlatFlows := by
    rw [oldFlowsOf_eq]; simp
  have hin : isInputAction "UNSUBINPUT" = true := by decide
  have hout : isInputAction "UNSUBOUTPUT" = false := by decide
  have hsent : (topologySubCommit env ⟨[], activeFlatFlows⟩).sent
      = activeFlatFlows.map (subscriberMsg "UNSUBOUTPUT")
        ++ activeFlatFlows.map (subscriberMsg "UNSUBINPUT")
        ++ (getObjSetFromFlowList activeFlatFlows []).map Msg.sendDeactivateMessage := by
    simp [topologySubCommit, updateFlows_snd, updateFlows_fst, hnew, hold,
      installBufferManagers_nil, activationPhase, getObjSetFromFlowList, List.map_map,
      Function.comp_def]
  refine ⟨?_, ?_, ?_, ?_⟩
  · intro flow hflow
    rw [hsent]
    constructor
    · apply List.mem_append_left
      apply List.mem_append_left
      exact List.mem_map.mpr ⟨flow, hflow, by simp [subscriberMsg, hout]⟩
    · apply List.mem_append_left
      apply List.mem_append_right
      exact List.mem_map.mpr ⟨flow, hflow, by simp [subscriberMsg, hin]⟩
  · intro actor action myPort peer peerPort hmem
    rw [hsent] at hmem
    simp only [List.mem_append, List.mem_map] at hmem
    rcases hmem with (⟨flow, _, h⟩ | ⟨flow, _, h⟩) | ⟨block, _, h⟩
    · simp only [subscriberMsg, Msg.sendPortSubscriberMessage.injEq] at h
      rw [← h.2.1]; decide
    · simp only [subscriberMsg, Msg.sendPortSubscriberMessage.injEq] at h
      rw [← h.2.1]; decide
    · cases h
  · simp [topologySubCommit, updateFlows_snd, hnew, installBufferManagers_nil, activationPhase,
      reportErrors_ok]
  · simp [topologySubCommit, updateFlows_snd, hnew, installBufferManagers_nil, activationPhase]

/-! ## The map of source ports built by installBufferManagers -/

theorem keys_pushBack (m : List (Port × List Port)) (key value : Port) :
    (pushBack m key value).map Prod.fst
      = if key ∈ m.map Prod.fst then m.map Prod.fst else m.map Prod.fst ++ [key] := by
  induction m with
  | nil => simp [pushBack]
  | cons p rest ih =>
    obtain ⟨k, vs⟩ := p
    by_cases h : k = key
    · simp [pushBack, h]
    · have h2 : ¬ key = k := fun e => h e.symm
      by_cases hin : key ∈ rest.map Prod.fst
      · simp only [pushBack, h, if_false, List.map_cons, ih, hin, if_true, List.mem_cons, or_true]
      · simp only [pushBack, h, if_false, List.map_cons, ih, hin, List.mem_cons, h2, or_self,
          List.cons_append]

theorem dstsOf_pushBack (m : List (Port × List Port)) (key value other : Port) :
    dstsOf (pushBack m key value) other
      = if key = other then dstsOf m other ++ [value] else dstsOf m other := by
  induction m with
  | nil =>
    by_cases h : key = other <;> simp [pushBack, dstsOf, h]
  | cons p rest ih =>
    obtain ⟨k, vs⟩ := p
    by_cases h : k = key
    · subst h
      by_cases h2 : k = other <;> simp [pushBack, dstsOf, h2]
    · by_cases h2 : k = other
      · have h3 : ¬ key = other := fun e => h (h2.trans e.symm)
        subst h2
        simp [pushBack, dstsOf, h, h3]
      · simp [pushBack, dstsOf, h, h2, ih]

theorem nodup_keys_pushBack (m : List (Port × List Port)) (key value : Port)
    (h : (m.map Prod.fst).Nodup) : ((pushBack m key value).map Prod.fst).Nodup := by
  rw [keys_pushBack]
  by_cases hin : key ∈ m.map Prod.fst
  · simpa [hin] using h
  · simp only [hin, if_false]
    exact List.Nodup.append h (List.nodup_singleton key) (by
      intro a ha hb
      simp only [List.mem_singleton] at hb
      exact hin (hb ▸ ha))

theorem pushAll_facts (ps : List (Port × Port)) (m : List (Port × List Port))
    (h : (m.map Prod.fst).Nodup) :
    ((ps.foldl (fun srcs kv => pushBack srcs kv.1 kv.2) m).map Prod.fst).Nodup ∧
    (∀ key, key ∈ (ps.foldl (fun srcs kv => pushBack srcs kv.1 kv.2) m).map Prod.fst
        ↔ key ∈ m.map Prod.fst ∨ key ∈ ps.map Prod.fst) ∧
    (∀ key, dstsOf (ps.foldl (fun srcs kv => pushBack srcs kv.1 kv.2) m) key
        = dstsOf m key ++ (ps.filter (fun kv => decide (kv.1 = key))).map Prod.snd) := by
  induction ps generalizing m with
  | nil => simp [h]
  | cons kv rest ih =>
    obtain ⟨h1, h2, h3⟩ := ih (pushBack m kv.1 kv.2) (nodup_keys_pushBack m kv.1 kv.2 h)
    refine ⟨h1, ?_, ?_⟩
    · intro key
      rw [List.foldl_cons, h2 key, keys_pushBack]
      by_cases hin : kv.1 ∈ m.map Prod.fst
      · simp only [hin, if_true, List.map_cons, List.mem_cons]
        constructor
        · rintro (h | h)
          · exact Or.inl h
          · exact Or.inr (Or.inr h)
        · rintro (h | h | h)
          · exact Or.inl h
          · exact Or.inl (h ▸ hin)
          · exact Or.inr h
      · simp only [hin, if_false, List.map_cons, List.mem_cons, List.mem_append,
          List.mem_singleton]
        tauto
    · intro key
      rw [List.foldl_cons, h3 key, dstsOf_pushBack]
      by_cases hk : kv.1 = key
      · simp [hk, List.filter_cons]
      · simp [hk, List.filter_cons]

theorem inner_fold_eq (l : List Flow) (key : Port) (m : List (Port × List Port)) :
    l.foldl (fun srcs subFlow =>
        if subFlow.src = key then pushBack srcs key subFlow.dst else srcs) m
      = ((l.filter (fun subFlow => decide (subFlow.src = key))).map
          (fun subFlow => (key, subFlow.dst))).foldl
            (fun srcs kv => pushBack srcs kv.1 kv.2) m := by
  induction l generalizing m with
  | nil => rfl
  | cons a t ih =>
    by_cases h : a.src = key
    · simp [List.foldl_cons, List.filter_cons, h, ih]
    · simp [List.foldl_cons, List.filter_cons, h, ih]

theorem outer_fold_eq (flatFlows l : List Flow) (m : List (Port × List Port)) :
    l.foldl (fun srcs flow =>
        flatFlows.foldl (fun srcs subFlow =>
          if subFlow.src = flow.src then pushBack srcs flow.src subFlow.dst else srcs) srcs) m
      = (l.flatMap (fun flow =>
          (flatFlows.filter (fun subFlow => decide (subFlow.src = flow.src))).map
            (fun subFlow => (flow.src, subFlow.dst)))).foldl
              (fun srcs kv => pushBack srcs kv.1 kv.2) m := by
  induction l generalizing m with
  | nil => rfl
  | cons a t ih =>
    rw [List.foldl_cons, ih, inner_fold_eq, List.flatMap_cons, List.foldl_append]

theorem buildSrcs_eq (flatFlows : List Flow) :
    buildSrcs flatFlows
      = (pushes flatFlows).foldl (fun srcs kv => pushBack srcs kv.1 kv.2) [] :=
  outer_fold_eq flatFlows flatFlows []

theorem buildSrcs_nodup (flatFlows : List Flow) :
    ((buildSrcs flatFlows).map Prod.fst).Nodup := by
  rw [buildSrcs_eq]
  exact (pushAll_facts (pushes flatFlows) [] (by simp)).1

theorem mem_keys_buildSrcs (flatFlows : List Flow) (key : Port) :
    key ∈ (buildSrcs flatFlows).map Prod.fst ↔ ∃ flow ∈ flatFlows, flow.src = key := by
  rw [buildSrcs_eq, (pushAll_facts (pushes flatFlows) [] (by simp)).2.1 key]
  simp only [List.map_nil, List.not_mem_nil, false_or, pushes, List.mem_map, List.mem_flatMap,
    List.mem_filter, decide_eq_true_eq, Prod.exists, exists_and_right, exists_eq_right]
  constructor
  · rintro ⟨_, flow, hflow, sub, ⟨_, _⟩, heq⟩
    exact ⟨flow, hflow, (Prod.mk.inj heq).1⟩
  · rintro ⟨flow, hflow, rfl⟩
    exact ⟨flow.dst, flow, hflow, flow, ⟨hflow, rfl⟩, rfl⟩

theorem flatMap_const_filter (l : List Flow) (p : Flow → Bool) (D : List Port) :
    (l.flatMap (fun flow => if p flow then D else [])) = (l.filter p).flatMap (fun _ => D) := by
  induction l with
  | nil => rfl
  | cons a t ih =>
    cases h : p a <;> simp [List.flatMap_cons, List.filter_cons, h, ih]

theorem pushes_filter_key (l G : List Flow) (key : Port) :
    ((l.flatMap (fun flow =>
        (G.filter (fun subFlow => decide (subFlow.src = flow.src))).map
          (fun subFlow => (flow.src, subFlow.dst)))).filter
        (fun kv => decide (kv.1 = key))).map Prod.snd
      = l.flatMap (fun flow =>
          if decide (flow.src = key) then
            (G.filter (fun subFlow => decide (subFlow.src = key))).map Flow.dst
          else []) := by
  induction l with
  | nil => rfl
  | cons a t ih =>
    rw [List.flatMap_cons, List.filter_append, List.map_append, List.flatMap_cons, ih]
    congr 1
    by_cases h : a.src = key
    · subst h
      simp [List.filter_map, Function.comp_def, List.map_map]
    · simp [List.filter_map, Function.comp_def, h]

theorem dstsOf_buildSrcs (flatFlows : List Flow) (key : Port) :
    dstsOf (buildSrcs flatFlows) key
      = (flatFlows.filter (fun flow => decide (flow.src = key))).flatMap (fun _ =>
          (flatFlows.filter (fun flow => decide (flow.src = key))).map Flow.dst) := by
  rw [buildSrcs_eq, (pushAll_facts (pushes flatFlows) [] (by simp)).2.2 key]
  simp only [dstsOf, List.nil_append, pushes]
  rw [pushes_filter_key, flatMap_const_filter]

theorem head_filter_eq_find (l : List Flow) (p : Flow → Bool) :
    (l.filter p).head? = l.find? p := by
  induction l with
  | nil => rfl
  | cons a t ih =>
    cases h : p a <;> simp [List.filter_cons, List.find?_cons, h, ih]

theorem head_dstsOf_buildSrcs (flatFlows : List Flow) (key : Port) :
    (dstsOf (buildSrcs flatFlows) key).head?
      = (flatFlows.find? (fun flow => decide (flow.src = key))).map Flow.dst := by
  rw [dstsOf_buildSrcs, ← head_filter_eq_find]
  cases h : flatFlows.filter (fun flow => decide (flow.src = key)) with
  | nil => rfl
  | cons a t => simp [List.flatMap_cons]

theorem dstsOf_of_mem (m : List (Port × List Port)) (key : Port) (vs : List Port)
    (hnd : (m.map Prod.fst).Nodup) (hmem : (key, vs) ∈ m) : dstsOf m key = vs := by
  induction m with
  | nil => cases hmem
  | cons p rest ih =>
    obtain ⟨k, ws⟩ := p
    simp only [List.map_cons, List.nodup_cons] at hnd
    rcases List.mem_cons.mp hmem with h | h
    · cases h; simp [dstsOf]
    · have hne : ¬ k = key := by
        intro e
        exact hnd.1 (e ▸ List.mem_map.mpr ⟨(key, vs), h, rfl⟩)
      simp [dstsOf, hne, ih hnd.2 h]

theorem chooseManager_error (env : Env) (src : Port) (dsts : List Port) (e : Exn)
    (h : chooseManager env src dsts = Except.error e) :
    ∀ source text, e ≠ Exn.TopologyConnectError source text := by
  intro source text he
  subst he
  unfold chooseManager at h
  split at h
  · cases h
  · simp only at h
    split_ifs at h
    cases h

theorem installLoop_error (env : Env) (srcs : List (Port × List Port)) (sent : List Msg)
    (infos : List (String × Msg)) (e : Exn)
    (h : (installLoop env srcs sent infos).2 = Except.error e) :
    ∀ source text, e ≠ Exn.TopologyConnectError source text := by
  induction srcs generalizing sent infos with
  | nil => simp [installLoop] at h
  | cons p rest ih =>
    obtain ⟨src, dsts⟩ := p
    unfold installLoop at h
    cases hc : chooseManager env src dsts with
    | error e2 =>
      rw [hc] at h
      simp only [Except.error.injEq] at h
      subst h
      exact chooseManager_error env src dsts e2 hc
    | ok manager =>
      rw [hc] at h
      exact ih _ _ h

theorem installLoop_ok (env : Env) (srcs : List (Port × List Port)) (sent : List Msg)
    (infos infos2 : List (String × Msg))
    (h : (installLoop env srcs sent infos).2 = Except.ok infos2) :
    (installLoop env srcs sent infos).1 = sent ++ srcs.filterMap (installedMsg env) ∧
    ∀ pair ∈ srcs, ∃ manager, chooseManager env pair.1 pair.2 = Except.ok manager := by
  induction srcs generalizing sent infos with
  | nil => simp [installLoop]
  | cons p rest ih =>
    obtain ⟨src, dsts⟩ := p
    unfold installLoop at h ⊢
    cases hc : chooseManager env src dsts with
    | error e2 =>
      rw [hc] at h
      cases h
    | ok manager =>
      rw [hc] at h
      obtain ⟨h1, h2⟩ := ih _ _ h
      simp only
      refine ⟨?_, ?_⟩
      · rw [h1]
        simp [List.filterMap_cons, installedMsg, hc]
      · intro pair hpair
        rcases List.mem_cons.mp hpair with hp | hp
        · subst hp
          exact ⟨manager, hc⟩
        · exact h2 pair hp

theorem installLoop_sent_kind (env : Env) (srcs : List (Port × List Port)) (sent : List Msg)
    (infos : List (String × Msg)) :
    ∀ m ∈ (installLoop env srcs sent infos).1,
      m ∈ sent ∨ ∃ actor name manager, m = Msg.setOutputBufferManager actor name manager := by
  induction srcs generalizing sent infos with
  | nil => intro m hm; exact Or.inl hm
  | cons p rest ih =>
    obtain ⟨src, dsts⟩ := p
    intro m hm
    unfold installLoop at hm
    cases hc : chooseManager env src dsts with
    | error e2 =>
      rw [hc] at hm
      exact Or.inl hm
    | ok manager =>
      rw [hc] at hm
      rcases ih _ _ m hm with h | h
      · rcases List.mem_append.mp h with h | h
        · exact Or.inl h
        · simp only [List.mem_singleton] at h
          exact Or.inr ⟨_, _, _, h⟩
      · exact Or.inr h

theorem installBufferManagers_sent_kind (env : Env) (flows : List Flow) :
    ∀ m ∈ (installBufferManagers env flows).1,
      ∃ actor name manager, m = Msg.setOutputBufferManager actor name manager := by
  intro m hm
  have hk := installLoop_sent_kind env (buildSrcs flows) [] [] m
  unfold installBufferManagers at hm
  rcases hl : installLoop env (buildSrcs flows) [] [] with ⟨sent, r⟩
  rw [hl] at hm hk
  cases r with
  | error e => rcases hk hm with h | h; cases h; exact h
  | ok infos => rcases hk hm with h | h; cases h; exact h

theorem installBufferManagers_ok (env : Env) (flows : List Flow)
    (h : (installBufferManagers env flows).2 = Except.ok ()) :
    (installBufferManagers env flows).1 = (buildSrcs flows).filterMap (installedMsg env) ∧
    ∀ pair ∈ buildSrcs flows, ∃ manager, chooseManager env pair.1 pair.2 = Except.ok manager := by
  unfold installBufferManagers at h ⊢
  rcases hl : installLoop env (buildSrcs flows) [] [] with ⟨sent, r⟩
  rw [hl] at h
  cases r with
  | error e => cases h
  | ok infos =>
    have := installLoop_ok env (buildSrcs flows) [] [] infos (by rw [hl])
    rw [hl] at this
    simpa using this

theorem filter_installed (env : Env) (srcs : List (Port × List Port)) (src : Port)
    (hnd : (srcs.map Prod.fst).Nodup)
    (hok : ∀ pair ∈ srcs, ∃ manager, chooseManager env pair.1 pair.2 = Except.ok manager)
    (hmem : src ∈ srcs.map Prod.fst) :
    ∃ manager, chooseManager env src (dstsOf srcs src) = Except.ok manager ∧
      (srcs.filterMap (installedMsg env)).filter (installsOn src)
        = [Msg.setOutputBufferManager src.obj src.name manager] := by
  induction srcs with
  | nil => simp at hmem
  | cons p rest ih =>
    obtain ⟨k, vs⟩ := p
    simp only [List.map_cons, List.nodup_cons] at hnd
    obtain ⟨manager, hm⟩ := hok (k, vs) (List.mem_cons_self _ _)
    have hrest_none : ∀ key, key ∉ rest.map Prod.fst →
        (rest.filterMap (installedMsg env)).filter (installsOn key) = [] := by
      intro key hkey
      rw [List.filter_eq_nil_iff]
      intro m hmm
      obtain ⟨pair, hpair, hpm⟩ := List.mem_filterMap.mp hmm
      unfold installedMsg at hpm
      cases hc : chooseManager env pair.1 pair.2 with
      | error e => rw [hc] at hpm; cases hpm
      | ok mg =>
        rw [hc] at hpm
        simp only [Option.some.injEq] at hpm
        subst hpm
        simp only [installsOn, decide_eq_true_eq]
        intro hh
        apply hkey
        have : pair.1 = key := by
          cases hp1 : pair.1; cases key
          rw [hp1] at hh
          simp only at hh
          simp [hh.1, hh.2]
        exact this ▸ List.mem_map.mpr ⟨pair, hpair, rfl⟩
    by_cases hk : k = src
    · subst hk
      refine ⟨manager, by simpa [dstsOf] using hm, ?_⟩
      simp only at hm
      simp [List.filterMap_cons, installedMsg, hm, List.filter_cons, installsOn,
        hrest_none k hnd.1]
    · have hmem2 : src ∈ rest.map Prod.fst := by
        rcases List.mem_cons.mp hmem with h | h
        · exact absurd h.symm hk
        · exact h
      obtain ⟨mg, h1, h2⟩ := ih hnd.2 (fun pair hp => hok pair (List.mem_cons_of_mem _ hp)) hmem2
      refine ⟨mg, by simpa [dstsOf, hk] using h1, ?_⟩
      simp only at hm
      have hne : ¬ (k.obj = src.obj ∧ k.name = src.name) := by
        intro hh
        apply hk
        cases k; cases src
        simp only at hh
        simp [hh.1, hh.2]
      simp [List.filterMap_cons, installedMsg, hm, List.filter_cons, installsOn, hne, h2]

theorem chooseManager_rule (env : Env) (src dst : Port) (rest : List Port) (manager : Manager)
    (h : chooseManager env src (dst :: rest) = Except.ok manager) :
    manager =
      if env.getOutputBufferMode src.obj src.name (env.inputDomain dst) = "CUSTOM" then
        ⟨src.obj, src.name, env.inputDomain dst, false⟩
      else if env.getInputBufferMode dst.obj dst.name (env.outputDomain src) = "CUSTOM" then
        ⟨dst.obj, dst.name, env.outputDomain src, true⟩
      else ⟨src.obj, src.name, env.inputDomain dst, false⟩ := by
  unfold chooseManager at h
  simp only at h
  split_ifs at h with h1 h2 h3
  · cases h; simp [h1]
  · cases h; simp [h1, h2]
  · cases h; simp [h1, h2]

/-- C5, as stated, fails: when two destinations fed by one abdicating source port both ask
for a custom manager, installBufferManagers throws and no manager is installed on that
source port. -/
theorem installBufferManagers_may_install_nothing :
    (⟨⟨0, "0"⟩, ⟨1, "0"⟩⟩ : Flow) ∈ fanoutFlows ∧
    (installBufferManagers twoCustomEnv fanoutFlows).2
      = Except.error (Exn.Exception "Pothos::Topology::installBufferManagers"
          "rectifyDomainFlows() logic does not /yet/ handle multiple destinations w/ custom buffer managers") ∧
    (installBufferManagers twoCustomEnv fanoutFlows).1.filter (installsOn ⟨0, "0"⟩) = [] := by
  refine ⟨by decide, ?_, ?_⟩
  · rfl
  · rfl

/-- The manager installed on a source port when installBufferManagers raises no error, in
terms of the flow list: the rule is applied to the destination that the map of source ports
lists first. -/
theorem installBufferManagers_head_rule (env : Env) (flows : List Flow)
    (hok : (installBufferManagers env flows).2 = Except.ok ()) (flow : Flow)
    (hflow : flow ∈ flows) :
    ∃ first, flows.find? (fun f => decide (f.src = flow.src)) = some first ∧
      (installBufferManagers env flows).1.filter (installsOn flow.src)
        = [Msg.setOutputBufferManager flow.src.obj flow.src.name
            (claimedManager env flow.src first.dst)] := by
  obtain ⟨hsent, hall⟩ := installBufferManagers_ok env flows hok
  have hkey : flow.src ∈ (buildSrcs flows).map Prod.fst :=
    (mem_keys_buildSrcs flows flow.src).mpr ⟨flow, hflow, rfl⟩
  obtain ⟨manager, hm, hfilter⟩ :=
    filter_installed env (buildSrcs flows) flow.src (buildSrcs_nodup flows) hall hkey
  have hhead := head_dstsOf_buildSrcs flows flow.src
  cases hd : dstsOf (buildSrcs flows) flow.src with
  | nil =>
    rw [hd] at hm
    simp [chooseManager] at hm
  | cons dst rest =>
    rw [hd] at hm hhead
    cases hf : flows.find? (fun f => decide (f.src = flow.src)) with
    | none => rw [hf] at hhead; simp at hhead
    | some first =>
      rw [hf] at hhead
      simp only [List.head?_cons, Option.map_some', Option.some.injEq] at hhead
      subst hhead
      refine ⟨first, rfl, ?_⟩
      rw [hsent, hfilter, chooseManager_rule env flow.src first.dst rest manager hm]
      rfl

/-- C5 (amended): when installBufferManagers raises no error, for every source port among
the given flows exactly one setOutputBufferManager message is sent to that port; its manager
comes from the source actor when the source output mode is CUSTOM, otherwise from the
destination actor (is_input = true) when the destination input mode is CUSTOM, otherwise from
the source actor, the destination being one of the destinations that the source port feeds
(the only one, when the port feeds a single destination). -/
theorem installBufferManagers_selection (env : Env) (flows : List Flow)
    (hok : (installBufferManagers env flows).2 = Except.ok ()) (flow : Flow)
    (hflow : flow ∈ flows) :
    ∃ dst, (∃ f ∈ flows, f.src = flow.src ∧ f.dst = dst) ∧
      (installBufferManagers env flows).1.filter (installsOn flow.src)
        = [Msg.setOutputBufferManager flow.src.obj flow.src.name
            (claimedManager env flow.src dst)] ∧
      ((∀ f ∈ flows, f.src = flow.src → f.dst = flow.dst) → dst = flow.dst) := by
  obtain ⟨first, hfind, hsent⟩ := installBufferManagers_head_rule env flows hok flow hflow
  have hmem : first ∈ flows := List.mem_of_find?_eq_some hfind
  have hsrc : first.src = flow.src := by
    have h := List.find?_some hfind
    simpa using h
  exact ⟨first.dst, ⟨first, hmem, hsrc, rfl⟩, hsent, fun hall => hall first hmem hsrc⟩

/-- Witness for C5 (amended): one flow from an abdicating output port to an input port
that asks for a custom manager. -/
theorem installBufferManagers_selection_witness :
    ∃ dst, (∃ f ∈ [flow12], f.src = flow12.src ∧ f.dst = dst) ∧
      (installBufferManagers twoCustomEnv [flow12]).1.filter (installsOn flow12.src)
        = [Msg.setOutputBufferManager flow12.src.obj flow12.src.name
            (claimedManager twoCustomEnv flow12.src dst)] ∧
      ((∀ f ∈ [flow12], f.src = flow12.src → f.dst = flow12.dst) → dst = flow12.dst) :=
  installBufferManagers_selection twoCustomEnv [flow12] rfl flow12 (by decide)

/-! ## Error reporting of the commit -/

theorem installBufferManagers_not_connectError (env : Env) (flows : List Flow)
    (source text : String) :
    (installBufferManagers env flows).2
      ≠ Except.error (Exn.TopologyConnectError source text) := by
  intro h
  unfold installBufferManagers at h
  rcases hl : installLoop env (buildSrcs flows) [] [] with ⟨sent, r⟩
  rw [hl] at h
  cases r with
  | error e =>
    simp only [Except.error.injEq] at h
    exact installLoop_error env (buildSrcs flows) [] [] e (by rw [hl]) source text h
  | ok infos => simp [reportErrors] at h

/-- C1: the commit does not raise TopologyConnectError.  With one new flow whose every
control message reports the reason "boom", the aggregated error text is not empty, yet
the three helpers and the sub-commit return normally; a failing sub-commit does not make
Topology::commit fail either; and no input at all makes the sub-commit end in a
TopologyConnectError. -/
theorem commit_swallows_control_message_errors :
    failingEnv.WaitInfo (Msg.sendPortSubscriberMessage 1 "SUBINPUT" "0" 2 "0") = "boom" ∧
    collectErrors failingEnv (updateFlowsReceivers failingEnv [flow12] "SUBINPUT")
      = "blk.sendPortSubscriberMessage(SUBINPUT): boom\n" ∧
    (updateFlows failingEnv [flow12] "SUBINPUT").2 = Except.ok () ∧
    (installBufferManagers failingEnv [flow12]).2 = Except.ok () ∧
    (topologySubCommit failingEnv ⟨[flow12], []⟩).result = Except.ok () ∧
    (commit ⟨[flow12], []⟩ [flow12]
        [Except.error (Exn.TopologyConnectError "Pothos::Exectutor::commit()" "boom")]).2
      = Except.ok () ∧
    (∀ (env : Env) (impl : TopologyImpl) (source text : String),
      (topologySubCommit env impl).result
        ≠ Except.error (Exn.TopologyConnectError source text)) := by
  refine ⟨rfl, by decide, rfl, rfl, rfl, rfl, ?_⟩
  intro env impl source text
  rcases topologySubCommit_result_cases env impl with h | h
  · rw [h]; simp
  · rw [h]; exact installBufferManagers_not_connectError env _ source text

/-- C9: a commit in which control messages report errors still replaces the recorded
active flows.  Before the commit no flow is active; every message of the sub-commit
reports "boom"; afterwards `activeFlatFlows` holds the new flow.  The same happens in
Topology::commit when a sub-commit throws. -/
theorem failed_commit_overwrites_activeFlatFlows :
    (∀ m ∈ (topologySubCommit failingEnv ⟨[flow12], []⟩).sent, failingEnv.WaitInfo m ≠ "") ∧
    (topologySubCommit failingEnv ⟨[flow12], []⟩).sent ≠ [] ∧
    (topologySubCommit failingEnv ⟨[flow12], []⟩).impl.activeFlatFlows = [flow12] ∧
    (commit ⟨[flow12], []⟩ [flow12]
        [Except.error (Exn.TopologyConnectError "Pothos::Exectutor::commit()" "boom")]).1.activeFlatFlows
      = [flow12] := by
  refine ⟨?_, ?_, rfl, rfl⟩
  · intro m _
    show "boom" ≠ ""
    decide
  · decide

/-! ## Several custom destinations -/

/-- C6: two destinations of one abdicating source port each report CUSTOM for their own
input port, yet installBufferManagers raises no error: listed custom-first, the other
destination is asked about the first destination's port name and the first destination's
manager is installed; listed after an abdicating destination, no check is made and the
source's manager is installed. -/
theorem installBufferManagers_misses_second_custom_destination :
    ownPortCustomEnv.getOutputBufferMode 0 "0" "" = "ABDICATE" ∧
    ownPortCustomEnv.getInputBufferMode 1 "0" "" = "CUSTOM" ∧
    ownPortCustomEnv.getInputBufferMode 2 "1" "" = "CUSTOM" ∧
    installBufferManagers ownPortCustomEnv twoCustomFlows
      = ([Msg.setOutputBufferManager 0 "0" ⟨1, "0", "", true⟩], Except.ok ()) ∧
    installBufferManagers ownPortCustomEnv abdicateFirstFlows
      = ([Msg.setOutputBufferManager 0 "0" ⟨0, "0", "", false⟩], Except.ok ()) := by
  refine ⟨rfl, rfl, rfl, rfl, rfl⟩

/-! ## Activation and deactivation -/

theorem mem_getObjSetFromFlowList (flows excludes : List Flow) (block : Nat) :
    block ∈ getObjSetFromFlowList flows excludes ↔
      (∃ flow ∈ flows, flow.src.obj = block ∨ flow.dst.obj = block) ∧
      ¬ (∃ flow ∈ excludes, flow.src.obj = block ∨ flow.dst.obj = block) := by
  have hend : ∀ l : List Flow,
      block ∈ l.flatMap (fun flow => [flow.src.obj, flow.dst.obj]) ↔
        ∃ flow ∈ l, flow.src.obj = block ∨ flow.dst.obj = block := by
    intro l
    simp only [List.mem_flatMap, List.mem_cons, List.mem_singleton, List.not_mem_nil, or_false]
    constructor
    · rintro ⟨flow, hf, h | h⟩
      · exact ⟨flow, hf, Or.inl h.symm⟩
      · exact ⟨flow, hf, Or.inr h.symm⟩
    · rintro ⟨flow, hf, h | h⟩
      · exact ⟨flow, hf, Or.inl h.symm⟩
      · exact ⟨flow, hf, Or.inr h.symm⟩
  unfold getObjSetFromFlowList
  simp only [List.mem_dedup, List.mem_filter, decide_eq_true_eq]
  rw [hend flows, hend excludes]

theorem subscriber_ne_activate (action : String) (flows : List Flow) (block : Nat) :
    Msg.sendActivateMessage block ∉ flows.map (subscriberMsg action) ∧
    Msg.sendDeactivateMessage block ∉ flows.map (subscriberMsg action) := by
  constructor <;>
  · intro h
    obtain ⟨flow, _, heq⟩ := List.mem_map.mp h
    simp [subscriberMsg] at heq

theorem install_ne_activate (env : Env) (flows : List Flow) (block : Nat) :
    Msg.sendActivateMessage block ∉ (installBufferManagers env flows).1 ∧
    Msg.sendDeactivateMessage block ∉ (installBufferManagers env flows).1 := by
  constructor <;>
  · intro h
    obtain ⟨_, _, _, heq⟩ := installBufferManagers_sent_kind env flows _ h
    cases heq

/-- C7, as stated, fails: block 0 is the source of a new flow and an endpoint of no
active flow, but installBufferManagers throws before the activation step, so block 0 is
sent no sendActivateMessage. -/
theorem qualifying_block_not_activated_on_throw :
    (∃ flow ∈ newFlowsOf fanoutFlows [], flow.src.obj = 0) ∧
    (¬ ∃ flow ∈ ([] : List Flow), flow.src.obj = 0 ∨ flow.dst.obj = 0) ∧
    Msg.sendActivateMessage 0 ∉ (topologySubCommit twoCustomEnv ⟨fanoutFlows, []⟩).sent := by
  refine ⟨⟨⟨⟨0, "0"⟩, ⟨1, "0"⟩⟩, by decide, rfl⟩, by simp, by decide⟩

theorem topologySubCommit_sent (env : Env) (impl : TopologyImpl) :
    (topologySubCommit env impl).sent
      = (newFlowsOf impl.flows impl.activeFlatFlows).map (subscriberMsg "SUBINPUT")
        ++ (newFlowsOf impl.flows impl.activeFlatFlows).map (subscriberMsg "SUBOUTPUT")
        ++ (oldFlowsOf impl.flows impl.activeFlatFlows).map (subscriberMsg "UNSUBOUTPUT")
        ++ (oldFlowsOf impl.flows impl.activeFlatFlows).map (subscriberMsg "UNSUBINPUT")
        ++ (installBufferManagers env (newFlowsOf impl.flows impl.activeFlatFlows)).1
        ++ (match (installBufferManagers env (newFlowsOf impl.flows impl.activeFlatFlows)).2 with
            | Except.error _ => []
            | Except.ok _ =>
              (getObjSetFromFlowList (newFlowsOf impl.flows impl.activeFlatFlows)
                  impl.activeFlatFlows).map Msg.sendActivateMessage
              ++ (getObjSetFromFlowList (oldFlowsOf impl.flows impl.activeFlatFlows)
                  impl.flows).map Msg.sendDeactivateMessage) := by
  unfold topologySubCommit
  simp only [updateFlows_snd, updateFlows_fst]
  cases h : (installBufferManagers env (newFlowsOf impl.flows impl.activeFlatFlows)).2 with
  | error e => simp
  | ok u =>
    simp [activationPhase, List.map_map, Function.comp_def]

/-- C7 (amended): a block is sent sendActivateMessage if and only if installBufferManagers
raised no error and the block is an endpoint of some new flow and of no previously active
flow; it is sent sendDeactivateMessage if and only if installBufferManagers raised no error
and the block is an endpoint of some old flow and of no flow in the new flat flow list. -/
theorem activation_iff (env : Env) (impl : TopologyImpl) (block : Nat) :
    (Msg.sendActivateMessage block ∈ (topologySubCommit env impl).sent ↔
      (installBufferManagers env (newFlowsOf impl.flows impl.activeFlatFlows)).2 = Except.ok () ∧
      (∃ flow ∈ newFlowsOf impl.flows impl.activeFlatFlows,
        flow.src.obj = block ∨ flow.dst.obj = block) ∧
      ¬ (∃ flow ∈ impl.activeFlatFlows, flow.src.obj = block ∨ flow.dst.obj = block)) ∧
    (Msg.sendDeactivateMessage block ∈ (topologySubCommit env impl).sent ↔
      (installBufferManagers env (newFlowsOf impl.flows impl.activeFlatFlows)).2 = Except.ok () ∧
      (∃ flow ∈ oldFlowsOf impl.flows impl.activeFlatFlows,
        flow.src.obj = block ∨ flow.dst.obj = block) ∧
      ¬ (∃ flow ∈ impl.flows, flow.src.obj = block ∨ flow.dst.obj = block)) := by
  rw [topologySubCommit_sent]
  have hs := fun action flows => subscriber_ne_activate action flows block
  have hi := install_ne_activate env (newFlowsOf impl.flows impl.activeFlatFlows) block
  simp only [List.mem_append, (hs _ _).1, (hs _ _).2, hi.1, hi.2, false_or]
  cases h : (installBufferManagers env (newFlowsOf impl.flows impl.activeFlatFlows)).2 with
  | error e => simp
  | ok u =>
    simp only [List.mem_append, List.mem_map, Msg.sendActivateMessage.injEq,
      Msg.sendDeactivateMessage.injEq, exists_eq_right, and_false, exists_false, or_false,
      false_or, true_and, mem_getObjSetFromFlowList]
    simp

/-! ## Exclusive access to the actor -/

/-- C2: on a freshly constructed actor (poll mode, flag clear) the external caller locks
the mutex, and then both workers pass workerThreadAcquire without locking: two threads are
inside workTask at once while the external call holds the mutex. -/
theorem workTask_overlaps_in_poll_mode :
    run [(1, false), (0, false), (0, false), (2, false), (2, false)] twoWorkersAndCaller
      = some
        { actor := { _waitModeEnabled := false, _changeFlagged := false, _mutex := some 1 }
          threads := [Thread.worker WorkerPc.workTask, Thread.external ExternalPc.holding,
            Thread.worker WorkerPc.workTask] } ∧
    (∀ s, run [(1, false), (0, false), (0, false), (2, false), (2, false)] twoWorkersAndCaller
        = some s →
      inWorkTask s 0 = true ∧ inWorkTask s 2 = true ∧ inExternalCall s 1 = true) := by
  refine ⟨rfl, ?_⟩
  intro s hs
  cases hs
  decide

/-- C3: on a freshly constructed actor (wait mode disabled, flag clear) the worker passes
workerThreadAcquire with the result true without locking: it is inside workTask while the
mutex has no owner, and when it reaches workerThreadRelease the mutex is owned by the
external caller that locked it meanwhile, not by the worker. -/
theorem workerThreadAcquire_true_without_mutex :
    run [(0, false), (0, false)] workerAndCaller
      = some
        { actor := { _waitModeEnabled := false, _changeFlagged := false, _mutex := none }
          threads := [Thread.worker WorkerPc.workTask, Thread.external ExternalPc.acquire] } ∧
    run [(0, false), (0, false), (1, false), (0, false)] workerAndCaller
      = some
        { actor := { _waitModeEnabled := false, _changeFlagged := false, _mutex := some 1 }
          threads := [Thread.worker WorkerPc.release, Thread.external ExternalPc.holding] } :=
  ⟨rfl, rfl⟩

/-! ## BufferChunk serialization -/

theorem readBytes_map_byte (bytes : List (Fin 256)) (rest : List Item) :
    readBytes bytes.length (bytes.map Item.byte ++ rest) = some (bytes, rest) := by
  induction bytes with
  | nil => simp [readBytes]
  | cons b t ih => simp [readBytes, ih]

theorem readBytes_length (n : Nat) (ar : List Item) (bytes : List (Fin 256))
    (rest : List Item) (h : readBytes n ar = some (bytes, rest)) : bytes.length = n := by
  induction n generalizing ar bytes rest with
  | zero =>
    simp only [readBytes, Option.some.injEq, Prod.mk.injEq] at h
    rw [← h.1]; rfl
  | succ k ih =>
    cases ar with
    | nil => simp [readBytes] at h
    | cons item ar1 =>
      cases item with
      | byte b =>
        simp only [readBytes, Option.map_eq_some', Prod.mk.injEq] at h
        obtain ⟨r, hr, hb, _⟩ := h
        rw [← hb, List.length_cons, ih ar1 r.1 r.2 hr]
      | bool b => simp [readBytes] at h
      | uint32 m => simp [readBytes] at h
      | dtype d => simp [readBytes] at h

theorem load_length_of_header (alloc : Nat → Nat) (length : Nat) (ar : List Item)
    (t : BufferChunk) (rest : List Item)
    (h : load alloc (Item.bool false :: Item.uint32 length :: ar) = some (t, rest)) :
    t.length = length := by
  simp only [load, Bool.false_eq_true, if_false] at h
  cases hr : readBytes length ar with
  | none => rw [hr] at h; cases h
  | some r =>
    obtain ⟨bytes, ar3⟩ := r
    rw [hr] at h
    simp only at h
    cases ar3 with
    | nil => cases h
    | cons item ar4 =>
      cases item with
      | dtype d =>
        simp only [Option.some.injEq, Prod.mk.injEq] at h
        rw [← h.1]
        exact readBytes_length length ar bytes _ hr
      | bool b => cases h
      | uint32 m => cases h
      | byte b => cases h

theorem zeroChunk_roundtrip_length (alloc : Nat → Nat) (n : Nat) (t : BufferChunk)
    (rest : List Item) (h : load alloc (save (zeroChunk n)) = some (t, rest)) :
    t.length = n % 2 ^ 32 := by
  have hsave : save (zeroChunk n)
      = Item.bool false :: Item.uint32 (n % 2 ^ 32)
          :: ((List.replicate n (0 : Fin 256)).map Item.byte ++ [Item.dtype ⟨0, 1⟩]) := by
    have hnull : (zeroChunk n).isNull = false := rfl
    have hlen : (zeroChunk n).length = n := List.length_replicate n 0
    simp only [save, hnull, hlen, Bool.false_eq_true, if_false, List.cons_append,
      List.nil_append, List.append_assoc]
    rfl
  rw [hsave] at h
  exact load_length_of_header alloc _ _ t rest h

/-- C10, as stated, fails: for a non-null chunk of 2^32 bytes the length written is 0, and
load applied to the output of save does not yield a chunk of the same length. -/
theorem roundtrip_fails_at_two_pow_32 :
    hugeChunk.isNull = false ∧ hugeChunk.length = 2 ^ 32 ∧
    ¬ ∃ t rest, load pageAlloc (save hugeChunk) = some (t, rest) ∧
        t.length = hugeChunk.length := by
  have hlen : hugeChunk.length = 2 ^ 32 := List.length_replicate (2 ^ 32) 0
  refine ⟨rfl, hlen, ?_⟩
  rintro ⟨t, rest, hload, heq⟩
  have h1 := zeroChunk_roundtrip_length pageAlloc (2 ^ 32) t rest hload
  rw [hlen, h1] at heq
  exact absurd heq (by norm_num)

/-- C10 (amended): for every non-null chunk of fewer than 2^32 bytes, load applied to the
output of save yields a chunk with the same length, the same bytes and the same dtype; for
a null chunk only the null flag is written and load yields a null chunk. -/
theorem save_load_roundtrip (alloc : Nat → Nat) (c : BufferChunk) :
    (c.isNull = false → c.length < 2 ^ 32 →
      ∃ t, load alloc (save c) = some (t, []) ∧
        t.length = c.length ∧ t.bytes = c.bytes ∧ t.dtype = c.dtype) ∧
    (c.isNull = true →
      save c = [Item.bool true] ∧
      ∃ t, load alloc (save c) = some (t, []) ∧ t.isNull = true) := by
  constructor
  · intro hnull hlen
    refine ⟨{ address := alloc c.length, bytes := c.bytes, dtype := c.dtype }, ?_, rfl, rfl, rfl⟩
    have hmod : c.length % 2 ^ 32 = c.length := Nat.mod_eq_of_lt hlen
    simp only [save, hnull, hmod]
    simp only [Bool.false_eq_true, if_false, List.cons_append, List.nil_append, load,
      List.append_assoc]
    rw [show c.length = c.bytes.length from rfl, readBytes_map_byte]
  · intro hnull
    refine ⟨by simp [save, hnull], BufferChunk.empty, ?_, rfl⟩
    simp [save, hnull, load]

/-- Witness for C10 (amended): a chunk of three bytes, and the null chunk. -/
theorem save_load_roundtrip_witness :
    (∃ t, load pageAlloc (save smallChunk) = some (t, []) ∧
      t.length = smallChunk.length ∧ t.bytes = smallChunk.bytes ∧ t.dtype = smallChunk.dtype) ∧
    (save BufferChunk.empty = [Item.bool true] ∧
      ∃ t, load pageAlloc (save BufferChunk.empty) = some (t, []) ∧ t.isNull = true) :=
  ⟨(save_load_roundtrip pageAlloc smallChunk).1 rfl (by decide),
    (save_load_roundtrip pageAlloc BufferChunk.empty).2 rfl⟩

/-! ## BufferChunk::append -/

/-- C14: for a non-null chunk `a`, after `a.append(b)` the chunk has length
`a.length + b.length`, its first `a.length` bytes are the former bytes of `a`, the remaining
bytes are those of `b`, and its dtype is the former dtype of `a`; for a null chunk `a`,
`a.append(b)` makes `a` equal to `b`. -/
theorem append_concatenates (alloc : Nat → Nat) (a b : BufferChunk) :
    (a.isNull = false →
      (a.append alloc b).length = a.length + b.length ∧
      (a.append alloc b).bytes.take a.length = a.bytes ∧
      (a.append alloc b).bytes.drop a.length = b.bytes ∧
      ((a.append alloc b).bytes.drop a.length).length = b.length ∧
      (a.append alloc b).dtype = a.dtype) ∧
    (a.isNull = true → a.append alloc b = b) := by
  constructor
  · intro h
    simp [BufferChunk.append, h, BufferChunk.length]
  · intro h
    simp [BufferChunk.append, h]

/-- Witness for C14: appending the three-byte chunk to itself, and to the null chunk. -/
theorem append_concatenates_witness :
    ((smallChunk.append pageAlloc smallChunk).length = smallChunk.length + smallChunk.length ∧
      (smallChunk.append pageAlloc smallChunk).bytes.take smallChunk.length = smallChunk.bytes ∧
      (smallChunk.append pageAlloc smallChunk).bytes.drop smallChunk.length = smallChunk.bytes ∧
      ((smallChunk.append pageAlloc smallChunk).bytes.drop smallChunk.length).length
        = smallChunk.length ∧
      (smallChunk.append pageAlloc smallChunk).dtype = smallChunk.dtype) ∧
    BufferChunk.empty.append pageAlloc smallChunk = smallChunk :=
  ⟨(append_concatenates pageAlloc smallChunk smallChunk).1 rfl,
    (append_concatenates pageAlloc BufferChunk.empty smallChunk).2 rfl⟩

/-! ## BufferChunk conversion -/

/-- C11: converting a chunk of one sample of two 32-bit integers (8 bytes) to the dtype it
already has, over its one element, returns a chunk at the same address with the same dtype
but of length 32; converting that result to the same dtype again, over its four elements,
returns length 128. -/
theorem convert_same_dtype_changes_length :
    pairChunk.length = 8 ∧ pairChunk.length / pairChunk.dtype.size = 1 ∧
    (pairChunk.convert plainEnv pairChunk.dtype 1).map
        (fun out => (out.address, out.length, out.dtype))
      = Except.ok (64, 32, pairChunk.dtype) ∧
    (32 : Nat) / pairChunk.dtype.size = 4 ∧
    ((pairChunk.convert plainEnv pairChunk.dtype 1).bind
        (fun out => out.convert plainEnv pairChunk.dtype 4)).map
        (fun out => (out.address, out.length, out.dtype))
      = Except.ok (64, 128, pairChunk.dtype) := by
  refine ⟨rfl, by decide, rfl, by decide, rfl⟩

/-- C12: a chunk of two 32-bit integers whose length 8 equals the capacity of its buffer,
converted over its two elements to vectors of two unsigned 32-bit integers, comes back from
the branch that reuses the buffer with length 32, above the capacity 8. -/
theorem convert_length_exceeds_capacity :
    twoIntsChunk.length ≤ twoIntsChunk.capacity ∧
    2 ≤ twoIntsChunk.length / twoIntsChunk.dtype.size ∧
    sharesBuffer twoIntsChunk.dtype (DType.numeric ⟨Scalar.uint32, false⟩ 2) = true ∧
    (twoIntsChunk.convert plainEnv (DType.numeric ⟨Scalar.uint32, false⟩ 2) 2).map
        (fun out => (out.address, out.length, out.capacity))
      = Except.ok (64, 32, 8) := by
  refine ⟨by decide, by decide, by decide, rfl⟩

theorem mem_ElemType_all (e : ElemType) : e ∈ ElemType.all := by
  obtain ⟨s, c⟩ := e
  cases s <;> cases c <;> decide

theorem convertMap_lookup_table : ∀ eIn ∈ ElemType.all, ∀ eOut ∈ ElemType.all,
    (!(sharesBuffer (DType.numeric eIn 1) (DType.numeric eOut 1)) &&
      (getBufferConvertImpl.convertMap.lookup
        (dtypeIOToHash (DType.numeric eIn 1) (DType.numeric eOut 1))).isNone)
      = (eIn.complex && !eOut.complex) := by
  decide -- all pairs of element types

theorem convert_error_iff {V : Type} (env : ConvertEnv V) (c : Chunk V) (outDType : DType)
    (numElems : Nat) :
    (∃ source text, c.convert env outDType numElems
        = Except.error (ConvertExn.BufferConvertError source text)) ↔
      sharesBuffer c.dtype outDType = false ∧
      getBufferConvertImpl.convertMap.lookup (dtypeIOToHash c.dtype outDType) = none := by
  unfold Chunk.convert sharesBuffer
  simp only [decide_eq_false_iff_not]
  split_ifs with h
  · simp [h]
  · cases hl : getBufferConvertImpl.convertMap.lookup (dtypeIOToHash c.dtype outDType) with
    | none => simp [h]
    | some conv => simp [h]

/-- C13, as stated, fails: converting a chunk of complex floats to floats raises
BufferConvertError. -/
theorem convert_complex_to_real_raises :
    ∃ source text,
      complexFloatChunk.convert plainEnv (DType.numeric ⟨Scalar.float, false⟩ 1) 1
        = Except.error (ConvertExn.BufferConvertError source text) :=
  ⟨_, _, rfl⟩

/-- C13 (amended): for every pair of numeric element types (any vector sizes), convert
raises BufferConvertError exactly when the pair is not handled without copying and has no
converter registered in convertMap, and that is exactly when the input type is complex and
the output type is real; for every other pair convert succeeds. -/
theorem convert_raises_iff_complex_to_real {V : Type} (env : ConvertEnv V) (c : Chunk V)
    (eIn eOut : ElemType) (dimIn dimOut numElems : Nat)
    (hIn : c.dtype = DType.numeric eIn dimIn) :
    ((∃ source text, c.convert env (DType.numeric eOut dimOut) numElems
          = Except.error (ConvertExn.BufferConvertError source text)) ↔
        sharesBuffer c.dtype (DType.numeric eOut dimOut) = false ∧
        getBufferConvertImpl.convertMap.lookup
          (dtypeIOToHash c.dtype (DType.numeric eOut dimOut)) = none) ∧
    ((∃ source text, c.convert env (DType.numeric eOut dimOut) numElems
          = Except.error (ConvertExn.BufferConvertError source text)) ↔
        eIn.complex = true ∧ eOut.complex = false) ∧
    (¬ (eIn.complex = true ∧ eOut.complex = false) →
      ∃ out, c.convert env (DType.numeric eOut dimOut) numElems = Except.ok out) := by
  have htab := convertMap_lookup_table eIn (mem_ElemType_all eIn) eOut (mem_ElemType_all eOut)
  have hshare : sharesBuffer c.dtype (DType.numeric eOut dimOut)
      = sharesBuffer (DType.numeric eIn 1) (DType.numeric eOut 1) := by rw [hIn]; rfl
  have hhash : dtypeIOToHash c.dtype (DType.numeric eOut dimOut)
      = dtypeIOToHash (DType.numeric eIn 1) (DType.numeric eOut 1) := by rw [hIn]; rfl
  have hiff : (sharesBuffer c.dtype (DType.numeric eOut dimOut) = false ∧
      getBufferConvertImpl.convertMap.lookup
        (dtypeIOToHash c.dtype (DType.numeric eOut dimOut)) = none) ↔
      (eIn.complex = true ∧ eOut.complex = false) := by
    rw [hshare, hhash]
    have := congrArg (fun b => b = true) htab
    simp only [Bool.and_eq_true, Bool.not_eq_true', Option.isNone_iff_eq_none, eq_iff_iff]
      at this
    exact this
  refine ⟨convert_error_iff env c _ numElems, (convert_error_iff env c _ numElems).trans hiff, ?_⟩
  intro hne
  cases hres : c.convert env (DType.numeric eOut dimOut) numElems with
  | ok out => exact ⟨out, rfl⟩
  | error e =>
    cases e with
    | BufferConvertError source text =>
      exact absurd (((convert_error_iff env c _ numElems).trans hiff).mp ⟨source, text, hres⟩) hne

/-- Witness for C13 (amended): 32-bit integers to doubles. -/
theorem convert_raises_iff_complex_to_real_witness :
    ∃ out, twoIntsChunk.convert plainEnv (DType.numeric ⟨Scalar.double, false⟩ 1) 2
      = Except.ok out :=
  (convert_raises_iff_complex_to_real plainEnv twoIntsChunk ⟨Scalar.int32, false⟩
    ⟨Scalar.double, false⟩ 1 1 2 rfl).2.2 (by decide)

theorem rawConvertComponents_spec {V : Type} (cast : V → V) (inElems outRe outIm : Nat → V)
    (num i : Nat) :
    (rawConvertComponents cast inElems outRe outIm num).1 i
        = (if i < num then cast (inElems (2 * i)) else outRe i) ∧
    (rawConvertComponents cast inElems outRe outIm num).2 i
        = (if i < num then cast (inElems (2 * i + 1)) else outIm i) := by
  unfold rawConvertComponents
  induction num with
  | zero => simp
  | succ n ih =>
    rw [List.range_succ, List.foldl_append]
    simp only [List.foldl_cons, List.foldl_nil]
    by_cases h : i = n
    · subst h
      simp [Function.update_same]
    · have hlt : i < n + 1 ↔ i < n := by omega
      simp only [Function.update_noteq h, ih.1, ih.2, hlt, and_self]

theorem convertComplexMap_lookup_table : ∀ eIn ∈ ElemType.all, ∀ eOut ∈ ElemType.all,
    getBufferConvertImpl.convertComplexMap.lookup
        (dtypeIOToHash (DType.numeric eIn 1) (DType.numeric eOut 1))
      = (if eIn.complex && !eOut.complex then
          some (ComplexConverter.rawConvertComponents eIn.scalar eOut.scalar)
        else none) := by
  decide -- all pairs of element types

theorem numeric_elemSize_pos : ∀ e ∈ ElemType.all, 0 < (DType.numeric e 1).elemSize := by
  decide

theorem numeric_primElems (e : ElemType) (dimension numElems : Nat) :
    (numElems * (DType.numeric e dimension).size) / (DType.numeric e dimension).elemSize
      = numElems * dimension := by
  have hpos : 0 < (DType.numeric e dimension).elemSize :=
    numeric_elemSize_pos e (mem_ElemType_all e)
  unfold DType.size
  rw [← Nat.mul_assoc, Nat.mul_comm numElems, Nat.mul_assoc, Nat.mul_div_cancel_left _ hpos]
  rfl

/-- C15: for a chunk of complex elements with scalar type `sIn` and a real output type
`sOut` among the ten scalar types, convertComplex returns two chunks of the output dtype in
which, for every index `i` below the converted element count, the first holds
`sOut(real(in[i]))` and the second `sOut(imag(in[i]))`; for a pair of numeric types that
is not complex input with real output it raises BufferConvertError. -/
theorem convertComplex_components {V : Type} (env : ConvertEnv V) (c : Chunk V)
    (eIn eOut : ElemType) (dimIn dimOut numElems : Nat)
    (hIn : c.dtype = DType.numeric eIn dimIn) :
    (eIn.complex = true → eOut.complex = false →
      ∃ re im, c.convertComplex env (DType.numeric eOut dimOut) numElems = Except.ok (re, im) ∧
        re.dtype = DType.numeric eOut dimOut ∧ im.dtype = DType.numeric eOut dimOut ∧
        ∀ i, i < numElems * dimIn →
          re.cells i = env.cast eIn.scalar eOut.scalar (c.cells (2 * i)) ∧
          im.cells i = env.cast eIn.scalar eOut.scalar (c.cells (2 * i + 1))) ∧
    (¬ (eIn.complex = true ∧ eOut.complex = false) →
      ∃ source text, c.convertComplex env (DType.numeric eOut dimOut) numElems
        = Except.error (ConvertExn.BufferConvertError source text)) := by
  have htab :=
    convertComplexMap_lookup_table eIn (mem_ElemType_all eIn) eOut (mem_ElemType_all eOut)
  have hhash : dtypeIOToHash c.dtype (DType.numeric eOut dimOut)
      = dtypeIOToHash (DType.numeric eIn 1) (DType.numeric eOut 1) := by rw [hIn]; rfl
  constructor
  · intro h1 h2
    simp only [h1, h2, Bool.not_false, Bool.and_self, if_true] at htab
    unfold Chunk.convertComplex
    rw [hhash, htab]
    refine ⟨_, _, rfl, rfl, rfl, ?_⟩
    intro i hi
    have hprim := numeric_primElems eIn dimIn numElems
    rw [← hIn] at hprim
    simp only [hprim]
    have hspec := rawConvertComponents_spec (env.cast eIn.scalar eOut.scalar) c.cells
      (Chunk.make env (DType.numeric eOut dimOut)
        (numElems * dimIn * (DType.numeric eOut dimOut).size
          / (DType.numeric eOut dimOut).elemSize)).cells
      (Chunk.make env (DType.numeric eOut dimOut)
        (numElems * dimIn * (DType.numeric eOut dimOut).size
          / (DType.numeric eOut dimOut).elemSize)).cells
      (numElems * dimIn) i
    simp only [hi, if_true] at hspec
    exact hspec
  · intro hne
    have hcond : (eIn.complex && !eOut.complex) = false := by
      cases h1 : eIn.complex <;> cases h2 : eOut.complex <;> simp_all
    simp only [hcond, Bool.false_eq_true, if_false] at htab
    unfold Chunk.convertComplex
    rw [hhash, htab]
    exact ⟨_, _, rfl⟩

/-- Witness for C15: one complex float split into two floats. -/
theorem convertComplex_components_witness :
    ∃ re im, complexFloatChunk.convertComplex plainEnv (DType.numeric ⟨Scalar.float, false⟩ 1) 1
        = Except.ok (re, im) ∧
      re.dtype = DType.numeric ⟨Scalar.float, false⟩ 1 ∧
      im.dtype = DType.numeric ⟨Scalar.float, false⟩ 1 ∧
      ∀ i, i < 1 * 1 →
        re.cells i = plainEnv.cast Scalar.float Scalar.float (complexFloatChunk.cells (2 * i)) ∧
        im.cells i
          = plainEnv.cast Scalar.float Scalar.float (complexFloatChunk.cells (2 * i + 1)) :=
  (convertComplex_components plainEnv complexFloatChunk ⟨Scalar.float, true⟩
    ⟨Scalar.float, false⟩ 1 1 1 rfl).1 rfl rfl

/-! ## Port allocation -/

theorem mem_keys_mapSet {β : Type} (m : List (String × β)) (key : String) (value : β)
    (k : String) :
    k ∈ (mapSet m key value).map Prod.fst ↔ k = key ∨ k ∈ m.map Prod.fst := by
  induction m with
  | nil => simp [mapSet]
  | cons entry rest ih =>
    obtain ⟨k0, v0⟩ := entry
    unfold mapSet
    split_ifs with h1 h2
    · subst h1; simp
    · simp
    · simp only [List.map_cons, List.mem_cons, ih]
      tauto

theorem mem_mapSet_of_ne {β : Type} (m : List (String × β)) (key : String) (value : β)
    (k : String) (v : β) (hne : k ≠ key) :
    (k, v) ∈ mapSet m key value ↔ (k, v) ∈ m := by
  induction m with
  | nil => simp [mapSet, hne]
  | cons entry rest ih =>
    obtain ⟨k0, v0⟩ := entry
    unfold mapSet
    split_ifs with h1 h2
    · subst h1
      simp [hne]
    · simp [hne]
    · simp only [List.mem_cons, ih]

theorem mem_mapSet_self {β : Type} (m : List (String × β)) (key : String) (value : β) :
    (key, value) ∈ mapSet m key value := by
  induction m with
  | nil => simp [mapSet]
  | cons entry rest ih =>
    obtain ⟨k0, v0⟩ := entry
    unfold mapSet
    split_ifs with h1 h2
    · subst h1; simp
    · simp
    · exact List.mem_cons_of_mem _ ih

theorem lowerPort_eq_none (ports : List (String × PortObj)) (n : Nat)
    (h : ∀ j, j < n → toString j ∉ ports.map Prod.fst) : lowerPort ports n = none := by
  induction n with
  | zero => rfl
  | succ k ih =>
    unfold lowerPort
    rw [if_neg (h k (Nat.lt_succ_self k))]
    exact ih (fun j hj => h j (Nat.lt_succ_of_lt hj))

theorem lowerPort_eq_some (ports : List (String × PortObj)) (n i : Nat) (hi : i < n)
    (hex : toString i ∈ ports.map Prod.fst)
    (hmax : ∀ j, i < j → j < n → toString j ∉ ports.map Prod.fst) :
    lowerPort ports n = some i := by
  induction n with
  | zero => omega
  | succ k ih =>
    unfold lowerPort
    by_cases hk : i = k
    · subst hk
      rw [if_pos hex]
    · have hik : i < k := by omega
      rw [if_neg (hmax k hik (Nat.lt_succ_self k))]
      exact ih hik (fun j h1 h2 => hmax j h1 (Nat.lt_succ_of_lt h2))

theorem portNameToIndex_of_parse (name : String) (n : Nat)
    (hparse : tryParseUnsigned name = some n) (hn : n < 2 ^ 31) :
    portNameToIndex name = (n : Int) := by
  unfold portNameToIndex
  rw [hparse]
  simp only
  rw [if_pos hn]

theorem tryParseUnsigned_lt (name : String) (n : Nat)
    (hparse : tryParseUnsigned name = some n) : n < 2 ^ 32 := by
  unfold tryParseUnsigned at hparse
  split at hparse
  · cases hparse
  · split at hparse
    · split_ifs at hparse with h
      simp only [Option.some.injEq] at hparse
      omega
    · cases hparse

theorem loopStart_of_nat (n : Nat) (hn : n < 2 ^ 31) :
    (wrapInt ((n : Int) - 1) + 1).toNat = n := by
  unfold wrapInt
  omega

theorem loopStart_le (name : String) (n : Nat)
    (hparse : tryParseUnsigned name = some n) :
    (wrapInt (portNameToIndex name - 1) + 1).toNat ≤ n := by
  have hlt := tryParseUnsigned_lt name n hparse
  unfold portNameToIndex wrapInt
  rw [hparse]
  simp only
  split_ifs with h
  · omega
  · omega

/-- C17, as stated, fails: auto-allocating the input port "1" on a block without ports
returns normally, with the tables unchanged; no PortAccessError is raised. -/
theorem autoAllocatePort_raises_nothing :
    tryParseUnsigned "1" = some 1 ∧
    autoAllocatePort PortTables.empty "1" = Except.ok PortTables.empty :=
  ⟨by decide, rfl⟩

/-- C17 (amended): auto-allocating a port with a numeric name N when no port named by the
decimal spelling of a lower index exists allocates nothing and returns normally, the tables
unchanged. -/
theorem autoAllocatePort_without_lower_port (st : PortTables) (name : String) (n : Nat)
    (hparse : tryParseUnsigned name = some n)
    (hnone : ∀ j, j < n → toString j ∉ st.ports.map Prod.fst) :
    autoAllocatePort st name = Except.ok st := by
  unfold autoAllocatePort
  have hlow : lowerPort st.ports (wrapInt (portNameToIndex name - 1) + 1).toNat = none :=
    lowerPort_eq_none _ _
      (fun j hj => hnone j (Nat.lt_of_lt_of_le hj (loopStart_le name n hparse)))
  simp only [hlow]
  split_ifs <;> rfl

/-- Witness for C17 (amended): port "2" on a block without ports. -/
theorem autoAllocatePort_without_lower_port_witness :
    autoAllocatePort PortTables.empty "2" = Except.ok PortTables.empty :=
  autoAllocatePort_without_lower_port PortTables.empty "2" 2 (by decide) (by simp [PortTables.empty])

/-- C19: setting up port "0" twice leaves one port "0" allocated and the name "0" twice in
the port-name list. -/
theorem portNames_repeat_after_second_setup :
    (runCalls [PortCall.allocatePort "0" int32Type "", PortCall.allocatePort "0" int32Type ""]
        PortTables.empty).map (fun st => (st.ports.map Prod.fst, st.portNames))
      = Except.ok (["0"], ["0", "0"]) :=
  rfl

theorem deref_eq_some (st : PortTables) (key : String) (port : PortObj)
    (hmem : (key, port) ∈ st.ports)
    (huniq : ∀ entry ∈ st.ports, entry.2.ptr = port.ptr → entry.2 = port) :
    deref st port.ptr = some port := by
  unfold deref
  cases hfind : st.ports.find? (fun entry => entry.2.ptr == port.ptr) with
  | none =>
    have := List.find?_eq_none.mp hfind (key, port) hmem
    simp at this
  | some entry =>
    have hp := List.find?_some hfind
    have hin := List.mem_of_find?_eq_some hfind
    simp only [beq_iff_eq] at hp
    simp [huniq entry hin hp]

/-- C16, as stated, fails: with port "0" set up, auto-allocating the numeric name
"3000000000" creates nothing, since its index wraps to a negative `int`; and with only
port "01" (index 1) set up, auto-allocating "2" creates nothing, since no port is named
"1" or "0". -/
theorem autoAllocatePort_skips_numeric_names :
    (allocatePort PortTables.empty "0" int32Type "" false = Except.ok tablesWithPort0 ∧
      tryParseUnsigned "3000000000" = some 3000000000 ∧
      portNameToIndex "3000000000" = -1294967296 ∧
      autoAllocatePort tablesWithPort0 "3000000000" = Except.ok tablesWithPort0) ∧
    (allocatePort PortTables.empty "01" int32Type "" false = Except.ok tablesWithPort01 ∧
      tryParseUnsigned "2" = some 2 ∧ portNameToIndex "01" = 1 ∧
      autoAllocatePort tablesWithPort01 "2" = Except.ok tablesWithPort01) :=
  ⟨⟨rfl, by decide, by decide, rfl⟩, ⟨rfl, by decide, by decide, rfl⟩⟩

/-- C16 (amended): for a numeric port name N below 2^31 that is not yet allocated, when `i`
is the greatest index below N for which a port named by the decimal spelling of `i` exists
and the indexed-port vector holds that port at entry `i`, autoAllocatePort creates exactly
one new port, named N, with index N, whose dtype and domain equal those of that port, and
records it as automatic, leaving every other entry of the port map as it was; when the
name is not numeric or the port already exists, autoAllocatePort changes nothing. -/
theorem autoAllocatePort_creates (st : PortTables) (name : String) :
    (∀ (n i : Nat) (port : PortObj),
      tryParseUnsigned name = some n → n < 2 ^ 31 →
      name ∉ st.ports.map Prod.fst →
      i < n → (toString i, port) ∈ st.ports →
      (∀ j, i < j → j < n → toString j ∉ st.ports.map Prod.fst) →
      st.indexedPorts.get? i = some (some port.ptr) →
      (∀ entry ∈ st.ports, entry.2.ptr = port.ptr → entry.2 = port) →
      ∃ st1 newPort, autoAllocatePort st name = Except.ok st1 ∧
        (name, newPort) ∈ st1.ports ∧
        newPort.name = name ∧ newPort.index = (n : Int) ∧
        newPort.dtype = port.dtype ∧ newPort.domain = port.domain ∧
        newPort.ptr ∈ st1.automaticPorts ∧
        st1.indexedPorts.get? n = some (some newPort.ptr) ∧
        st1.portNames = st.portNames ++ [name] ∧
        (∀ key, key ∈ st1.ports.map Prod.fst ↔ key = name ∨ key ∈ st.ports.map Prod.fst) ∧
        (∀ key other, key ≠ name → ((key, other) ∈ st1.ports ↔ (key, other) ∈ st.ports))) ∧
    (tryParseUnsigned name = none ∨ name ∈ st.ports.map Prod.fst →
      autoAllocatePort st name = Except.ok st) := by
  constructor
  · intro n i port hparse hn hnew hi hmem hmax hidx huniq
    have hindex := portNameToIndex_of_parse name n hparse hn
    have hlow : lowerPort st.ports n = some i :=
      lowerPort_eq_some st.ports n i hi (List.mem_map.mpr ⟨(toString i, port), hmem, rfl⟩) hmax
    have hderef := deref_eq_some st (toString i) port hmem huniq
    have hne : ¬ ((n : Int) = -1) := by omega
    have hnn : ¬ ((n : Int) < 0) := by omega
    have hauto : autoAllocatePort st name = allocatePort st name port.dtype port.domain true := by
      unfold autoAllocatePort
      simp only [hindex, hne, if_false, hnew, loopStart_of_nat n hn, hlow, hidx, hderef]
    have halloc : allocatePort st name port.dtype port.domain true
        = Except.ok
          { ports := mapSet st.ports name ⟨st.heap, name, (n : Int), port.dtype, port.domain, []⟩
            namedPorts := mapSet st.namedPorts name st.heap
            indexedPorts :=
              (growTo st.indexedPorts (max (n + 1) st.indexedPorts.length)).set n (some st.heap)
            portNames := st.portNames ++ [name]
            automaticPorts :=
              if st.heap ∈ st.automaticPorts then st.automaticPorts
              else st.automaticPorts ++ [st.heap]
            workInfoPointers :=
              ((growTo st.indexedPorts (max (n + 1) st.indexedPorts.length)).set n
                (some st.heap)).length
            heap := st.heap + 1 } := by
      unfold allocatePort
      simp only [hindex, ne_eq, hne, not_false_eq_true, if_true, hnn, if_false, Int.toNat_ofNat]
    refine ⟨_, ⟨st.heap, name, (n : Int), port.dtype, port.domain, []⟩, hauto.trans halloc,
      mem_mapSet_self _ _ _, rfl, rfl, rfl, rfl, ?_, ?_, rfl, ?_, ?_⟩
    · simp only
      split_ifs with h
      · exact h
      · simp
    · simp only
      have hlen : n < (growTo st.indexedPorts (max (n + 1) st.indexedPorts.length)).length := by
        simp only [growTo, List.length_append, List.length_replicate]
        omega
      rw [List.get?_eq_getElem?, List.getElem?_set_self hlen]
    · intro key
      exact mem_keys_mapSet _ _ _ key
    · intro key other hk
      exact mem_mapSet_of_ne _ _ _ key other hk
  · intro h
    unfold autoAllocatePort
    rcases h with h | h
    · have : portNameToIndex name = -1 := by simp [portNameToIndex, h]
      simp [this]
    · simp [h]

/-- Witness for C16 (amended): with port "0" set up, port "2" is allocated from it. -/
theorem autoAllocatePort_creates_witness :
    ∃ st1 newPort, autoAllocatePort tablesWithPort0 "2" = Except.ok st1 ∧
      ("2", newPort) ∈ st1.ports ∧
      newPort.name = "2" ∧ newPort.index = ((2 : Nat) : Int) ∧
      newPort.dtype = (⟨1, "0", 0, int32Type, "", []⟩ : PortObj).dtype ∧
      newPort.domain = (⟨1, "0", 0, int32Type, "", []⟩ : PortObj).domain ∧
      newPort.ptr ∈ st1.automaticPorts ∧
      st1.indexedPorts.get? 2 = some (some newPort.ptr) ∧
      st1.portNames = tablesWithPort0.portNames ++ ["2"] ∧
      (∀ key, key ∈ st1.ports.map Prod.fst ↔
        key = "2" ∨ key ∈ tablesWithPort0.ports.map Prod.fst) ∧
      (∀ key other, key ≠ "2" →
        ((key, other) ∈ st1.ports ↔ (key, other) ∈ tablesWithPort0.ports)) :=
  (autoAllocatePort_creates tablesWithPort0 "2").1 2 0 ⟨1, "0", 0, int32Type, "", []⟩
    (by decide) (by decide) (by decide) (by decide) (by decide)
    (by intro j h1 h2; have hj : j = 1 := by omega
        subst hj; decide) rfl
    (by intro entry hentry _; simp only [tablesWithPort0, List.mem_singleton] at hentry
        rw [hentry])

/-! ## Topology::make -/

/-- C20: for a description without a "blocks" array whose only connections entry is the
number 5, not an array, Topology::make ends with the null-pointer exception of
`blockArray->size()` instead of a DataFormatException naming "connections[0]"; with an
empty "blocks" array the same entry is reported as the claim says. -/
theorem make_without_blocks_array :
    Topology.make stringsOnlyEnv [("connections", Json.array [Json.number 5])]
      = Except.error MakeExn.NullPointerException ∧
    Topology.make stringsOnlyEnv
        [("blocks", Json.array []), ("connections", Json.array [Json.number 5])]
      = Except.error (MakeExn.DataFormatException "Pothos::Topology::make()"
          "connections[0] must be an array") :=
  ⟨rfl, rfl⟩

/-! ## Automatic deletion of ports -/

theorem autoDeleteStep_keep (st : PortTables) (thisIt : String × PortObj)
    (h : removable st thisIt.2 = false) : autoDeleteStep st thisIt = st := by
  unfold autoDeleteStep
  simp only [removable, Bool.and_eq_false_iff, decide_eq_false_iff_not] at h
  rcases h with h | h
  · simp [h]
  · simp [h]

theorem autoDeleteStep_remove (st : PortTables) (thisIt : String × PortObj)
    (h : removable st thisIt.2 = true) :
    autoDeleteStep st thisIt =
      { ports := st.ports.filter (fun entry => entry.1 ≠ thisIt.1)
        namedPorts := st.namedPorts.filter (fun entry => entry.1 ≠ thisIt.2.name)
        indexedPorts := stripNull
          (if 0 ≤ thisIt.2.index ∧ thisIt.2.index.toNat < st.indexedPorts.length then
            st.indexedPorts.set thisIt.2.index.toNat none
          else st.indexedPorts)
        portNames := st.portNames.erase thisIt.2.name
        automaticPorts := st.automaticPorts.filter (fun p => p ≠ thisIt.2.ptr)
        workInfoPointers := st.workInfoPointers
        heap := st.heap } := by
  unfold autoDeleteStep
  simp only [removable, Bool.and_eq_true, decide_eq_true_eq] at h
  simp [h.1, h.2]

theorem stripNull_concat (l : List (Option Nat)) (a : Option Nat) :
    stripNull (l ++ [a]) = if a.isNone then stripNull l else l ++ [a] := by
  unfold stripNull
  rw [List.rdropWhile_concat]

theorem get?_stripNull (l : List (Option Nat)) (i q : Nat) :
    (stripNull l).get? i = some (some q) ↔ l.get? i = some (some q) := by
  induction l using List.reverseRecOn with
  | nil => simp [stripNull]
  | append_singleton init a ih =>
    rw [stripNull_concat]
    cases a with
    | some v => simp
    | none =>
      simp only [Option.isNone_none, if_true, ih]
      by_cases hi : i < init.length
      · simp [List.getElem?_append_left hi]
      · have hge : init.length ≤ i := Nat.le_of_not_lt hi
        simp only [List.get?_eq_getElem?]
        rw [List.getElem?_append_right hge, List.getElem?_eq_none hge]
        constructor
        · intro h; cases h
        · intro h
          by_cases h0 : i - init.length = 0
          · rw [h0] at h; simp at h
          · rw [List.getElem?_eq_none (by simp; omega)] at h
            cases h

theorem get?_clear (l : List (Option Nat)) (index : Int) (i q : Nat) :
    (if 0 ≤ index ∧ index.toNat < l.length then l.set index.toNat none else l).get? i
        = some (some q) ↔
      l.get? i = some (some q) ∧ ¬ (0 ≤ index ∧ index.toNat = i) := by
  split_ifs with h
  · simp only [List.get?_eq_getElem?, List.getElem?_set]
    by_cases hi : index.toNat = i
    · simp [hi, h.1]
    · simp [hi]
  · constructor
    · intro hget
      refine ⟨hget, ?_⟩
      rintro ⟨h0, h1⟩
      apply h
      refine ⟨h0, ?_⟩
      rw [h1]
      by_contra hlen
      simp only [List.get?_eq_getElem?] at hget
      rw [List.getElem?_eq_none (Nat.le_of_not_lt hlen)] at hget
      cases hget
    · intro hget; exact hget.1

theorem autoDelete_fold (L : List (String × PortObj)) (s : PortTables)
    (hnd : (L.map (fun e => e.2.ptr)).Nodup) :
    (L.foldl autoDeleteStep s).ports
        = s.ports.filter (fun entry =>
            decide (entry.1 ∉ (L.filter (fun e => removable s e.2)).map Prod.fst)) ∧
    (L.foldl autoDeleteStep s).namedPorts
        = s.namedPorts.filter (fun entry =>
            decide (entry.1 ∉ (L.filter (fun e => removable s e.2)).map (fun e => e.2.name))) ∧
    (L.foldl autoDeleteStep s).portNames
        = s.portNames.diff ((L.filter (fun e => removable s e.2)).map (fun e => e.2.name)) ∧
    (L.foldl autoDeleteStep s).automaticPorts
        = s.automaticPorts.filter (fun p =>
            decide (p ∉ (L.filter (fun e => removable s e.2)).map (fun e => e.2.ptr))) ∧
    (∀ i q, (L.foldl autoDeleteStep s).indexedPorts.get? i = some (some q) ↔
      s.indexedPorts.get? i = some (some q) ∧
        ∀ r ∈ L.filter (fun e => removable s e.2), ¬ (0 ≤ r.2.index ∧ r.2.index.toNat = i)) := by
  induction L generalizing s with
  | nil => simp
  | cons e rest ih =>
    simp only [List.map_cons, List.nodup_cons] at hnd
    rw [List.foldl_cons]
    cases hrem : removable s e.2 with
    | false =>
      rw [autoDeleteStep_keep s e hrem]
      simp only [List.filter_cons, hrem, Bool.false_eq_true, if_false]
      exact ih s hnd.2
    | true =>
      rw [autoDeleteStep_remove s e hrem]
      have hsame : rest.filter (fun x => removable
            { ports := s.ports.filter (fun entry => entry.1 ≠ e.1)
              namedPorts := s.namedPorts.filter (fun entry => entry.1 ≠ e.2.name)
              indexedPorts := stripNull
                (if 0 ≤ e.2.index ∧ e.2.index.toNat < s.indexedPorts.length then
                  s.indexedPorts.set e.2.index.toNat none
                else s.indexedPorts)
              portNames := s.portNames.erase e.2.name
              automaticPorts := s.automaticPorts.filter (fun p => p ≠ e.2.ptr)
              workInfoPointers := s.workInfoPointers
              heap := s.heap } x.2)
          = rest.filter (fun x => removable s x.2) := by
        apply List.filter_congr
        intro x hx
        have hne : x.2.ptr ≠ e.2.ptr := by
          intro heq
          exact hnd.1 (heq ▸ List.mem_map.mpr ⟨x, hx, rfl⟩)
        simp [removable, hne]
      obtain ⟨h1, h2, h3, h4, h5⟩ := ih _ hnd.2
      rw [hsame] at h1 h2 h3 h4 h5
      simp only [List.filter_cons, hrem, if_true, List.map_cons, List.mem_cons, not_or]
      refine ⟨?_, ?_, ?_, ?_, ?_⟩
      · rw [h1, List.filter_filter]
        apply List.filter_congr
        intro x _
        simp only [ne_eq, decide_not, List.mem_cons, not_or, Bool.decide_and]
        exact Bool.and_comm _ _
      · rw [h2, List.filter_filter]
        apply List.filter_congr
        intro x _
        simp only [ne_eq, decide_not, List.mem_cons, not_or, Bool.decide_and]
        exact Bool.and_comm _ _
      · rw [h3, List.diff_cons]
      · rw [h4, List.filter_filter]
        apply List.filter_congr
        intro x _
        simp only [ne_eq, decide_not, List.mem_cons, not_or, Bool.decide_and]
        exact Bool.and_comm _ _
      · intro i q
        rw [h5 i q]
        simp only [get?_stripNull, get?_clear]
        constructor
        · rintro ⟨⟨hget, hne⟩, hall⟩
          refine ⟨hget, ?_⟩
          intro r hr
          rcases hr with rfl | hr
          · exact hne
          · exact hall r hr
        · rintro ⟨hget, hall⟩
          exact ⟨⟨hget, hall e (Or.inl rfl)⟩, fun r hr => hall r (Or.inr hr)⟩

/-- C18: after port "0" was set up, port "01" allocated automatically and port "1" set up,
both "01" and "1" have index 1 and entry 1 of the indexed-port vector holds port "1";
autoDeletePorts removes the automatic port "01" and with it clears entry 1, although port
"1" was explicitly set up and stays in the port map: port "1" is not left unchanged in the
indexed-port vector. -/
theorem autoDeletePorts_clears_slot_of_kept_port :
    runCalls [PortCall.allocatePort "0" int32Type "", PortCall.autoAllocatePort "01",
        PortCall.allocatePort "1" int32Type ""] PortTables.empty
      = Except.ok tablesWithSharedIndex ∧
    ("1", ⟨3, "1", 1, int32Type, "", []⟩) ∈ (autoDeletePorts tablesWithSharedIndex).ports ∧
    3 ∉ tablesWithSharedIndex.automaticPorts ∧
    tablesWithSharedIndex.indexedPorts = [some 1, some 3] ∧
    (autoDeletePorts tablesWithSharedIndex).indexedPorts = [some 1] := by
  refine ⟨rfl, by decide, by decide, rfl, by decide⟩

/-- The effect of autoDeletePorts on consistent tables: when the port map has one entry per
name, every port object is stored under its own name, distinct ports have distinct
addresses, no name occurs twice in the port-name list, and the indexed-port vector holds
each port exactly at its index, then autoDeletePorts removes a port if and only if it was
automatically allocated and has no subscribers; a removed port disappears from the port
map, the named-port map, the port-name list, the indexed-port vector and the automatic-port
set; and every other port is left unchanged in all of them, the remaining names keeping
their order. -/
theorem autoDeletePorts_effect (st : PortTables)
    (hkeys : (st.ports.map Prod.fst).Nodup)
    (hname : ∀ entry ∈ st.ports, entry.2.name = entry.1)
    (hptr : (st.ports.map (fun e => e.2.ptr)).Nodup)
    (hnames : st.portNames.Nodup)
    (hidx : ∀ entry ∈ st.ports, ∀ i : Nat,
      st.indexedPorts.get? i = some (some entry.2.ptr) ↔ entry.2.index = (i : Int)) :
    (∀ entry ∈ (autoDeletePorts st).ports, entry ∈ st.ports) ∧
    (∀ entry ∈ st.ports,
      (entry ∉ (autoDeletePorts st).ports ↔
        entry.2.subscribers = [] ∧ entry.2.ptr ∈ st.automaticPorts)) ∧
    (∀ entry ∈ st.ports, entry.2.subscribers = [] ∧ entry.2.ptr ∈ st.automaticPorts →
      entry.1 ∉ (autoDeletePorts st).ports.map Prod.fst ∧
      entry.1 ∉ (autoDeletePorts st).namedPorts.map Prod.fst ∧
      entry.1 ∉ (autoDeletePorts st).portNames ∧
      (∀ i, (autoDeletePorts st).indexedPorts.get? i ≠ some (some entry.2.ptr)) ∧
      entry.2.ptr ∉ (autoDeletePorts st).automaticPorts) ∧
    (∀ entry ∈ st.ports, ¬ (entry.2.subscribers = [] ∧ entry.2.ptr ∈ st.automaticPorts) →
      entry ∈ (autoDeletePorts st).ports ∧
      (∀ p, (entry.1, p) ∈ (autoDeletePorts st).namedPorts ↔ (entry.1, p) ∈ st.namedPorts) ∧
      (entry.1 ∈ (autoDeletePorts st).portNames ↔ entry.1 ∈ st.portNames) ∧
      (∀ i, (autoDeletePorts st).indexedPorts.get? i = some (some entry.2.ptr) ↔
        st.indexedPorts.get? i = some (some entry.2.ptr)) ∧
      (entry.2.ptr ∈ (autoDeletePorts st).automaticPorts ↔ entry.2.ptr ∈ st.automaticPorts)) ∧
    (autoDeletePorts st).portNames.Sublist st.portNames := by
  obtain ⟨h1, h2, h3, h4, h5⟩ := autoDelete_fold st.ports st hptr
  have hrem : ∀ entry : String × PortObj,
      removable st entry.2 = true ↔
        entry.2.subscribers = [] ∧ entry.2.ptr ∈ st.automaticPorts := by
    intro entry
    simp [removable]
  have hR : ∀ r, r ∈ st.ports.filter (fun e => removable st e.2) ↔
      r ∈ st.ports ∧ (r.2.subscribers = [] ∧ r.2.ptr ∈ st.automaticPorts) := by
    intro r
    rw [List.mem_filter, hrem]
  have hkeyR : ∀ entry ∈ st.ports,
      (entry.1 ∈ (st.ports.filter (fun e => removable st e.2)).map Prod.fst ↔
        entry.2.subscribers = [] ∧ entry.2.ptr ∈ st.automaticPorts) := by
    intro entry hentry
    constructor
    · intro hin
      obtain ⟨r, hr, hrk⟩ := List.mem_map.mp hin
      have hr2 := (hR r).mp hr
      have : r = entry := List.inj_on_of_nodup_map hkeys hr2.1 hentry hrk
      exact this ▸ hr2.2
    · intro hcond
      exact List.mem_map.mpr ⟨entry, (hR entry).mpr ⟨hentry, hcond⟩, rfl⟩
  have hnameR : ∀ entry ∈ st.ports,
      (entry.1 ∈ (st.ports.filter (fun e => removable st e.2)).map (fun e => e.2.name) ↔
        entry.2.subscribers = [] ∧ entry.2.ptr ∈ st.automaticPorts) := by
    intro entry hentry
    constructor
    · intro hin
      obtain ⟨r, hr, hrk⟩ := List.mem_map.mp hin
      have hr2 := (hR r).mp hr
      have hk : r.1 = entry.1 := by rw [← hname r hr2.1]; exact hrk
      have : r = entry := List.inj_on_of_nodup_map hkeys hr2.1 hentry hk
      exact this ▸ hr2.2
    · intro hcond
      exact List.mem_map.mpr ⟨entry, (hR entry).mpr ⟨hentry, hcond⟩, hname entry hentry⟩
  have hptrR : ∀ entry ∈ st.ports,
      (entry.2.ptr ∈ (st.ports.filter (fun e => removable st e.2)).map (fun e => e.2.ptr) ↔
        entry.2.subscribers = [] ∧ entry.2.ptr ∈ st.automaticPorts) := by
    intro entry hentry
    constructor
    · intro hin
      obtain ⟨r, hr, hrk⟩ := List.mem_map.mp hin
      have hr2 := (hR r).mp hr
      have : r = entry := List.inj_on_of_nodup_map hptr hr2.1 hentry hrk
      exact this ▸ hr2.2
    · intro hcond
      exact List.mem_map.mpr ⟨entry, (hR entry).mpr ⟨hentry, hcond⟩, rfl⟩
  unfold autoDeletePorts
  refine ⟨?_, ?_, ?_, ?_, ?_⟩
  · intro entry hentry
    rw [h1] at hentry
    exact (List.mem_filter.mp hentry).1
  · intro entry hentry
    rw [h1, List.mem_filter]
    simp only [decide_eq_true_eq]
    rw [hkeyR entry hentry]
    constructor
    · intro h
      by_contra hcond
      exact h ⟨hentry, hcond⟩
    · intro h hin
      exact hin.2 h
  · intro entry hentry hcond
    refine ⟨?_, ?_, ?_, ?_, ?_⟩
    · rw [h1]
      intro hin
      obtain ⟨x, hx, hxk⟩ := List.mem_map.mp hin
      have hx2 := List.mem_filter.mp hx
      simp only [decide_eq_true_eq] at hx2
      rw [hxk] at hx2
      exact hx2.2 ((hkeyR entry hentry).mpr hcond)
    · rw [h2]
      intro hin
      obtain ⟨x, hx, hxk⟩ := List.mem_map.mp hin
      have hx2 := List.mem_filter.mp hx
      simp only [decide_eq_true_eq] at hx2
      rw [hxk] at hx2
      exact hx2.2 ((hnameR entry hentry).mpr hcond)
    · rw [h3, List.Nodup.mem_diff_iff hnames]
      intro hin
      exact hin.2 ((hnameR entry hentry).mpr hcond)
    · intro i hget
      rw [h5] at hget
      have hindex := (hidx entry hentry i).mp hget.1
      apply hget.2 entry ((hR entry).mpr ⟨hentry, hcond⟩)
      rw [hindex]
      exact ⟨Int.ofNat_nonneg i, Int.toNat_ofNat i⟩
    · rw [h4]
      intro hin
      have hx2 := List.mem_filter.mp hin
      simp only [decide_eq_true_eq] at hx2
      exact hx2.2 ((hptrR entry hentry).mpr hcond)
  · intro entry hentry hcond
    refine ⟨?_, ?_, ?_, ?_, ?_⟩
    · rw [h1, List.mem_filter]
      simp only [decide_eq_true_eq]
      exact ⟨hentry, fun hin => hcond ((hkeyR entry hentry).mp hin)⟩
    · intro p
      rw [h2, List.mem_filter]
      simp only [decide_eq_true_eq]
      constructor
      · intro h; exact h.1
      · intro h; exact ⟨h, fun hin => hcond ((hnameR entry hentry).mp hin)⟩
    · rw [h3, List.Nodup.mem_diff_iff hnames]
      constructor
      · intro h; exact h.1
      · intro h; exact ⟨h, fun hin => hcond ((hnameR entry hentry).mp hin)⟩
    · intro i
      rw [h5]
      constructor
      · intro h; exact h.1
      · intro hget
        refine ⟨hget, ?_⟩
        intro r hr hri
        have hr2 := (hR r).mp hr
        have hrindex : r.2.index = (i : Int) := by
          rw [← hri.2]
          exact (Int.toNat_of_nonneg hri.1).symm
        have hrget := (hidx r hr2.1 i).mpr hrindex
        rw [hget] at hrget
        simp only [Option.some.injEq] at hrget
        have : entry = r := List.inj_on_of_nodup_map hptr hentry hr2.1 hrget
        exact hcond (this ▸ hr2.2)
    · rw [h4, List.mem_filter]
      simp only [decide_eq_true_eq]
      constructor
      · intro h; exact h.1
      · intro h; exact ⟨h, fun hin => hcond ((hptrR entry hentry).mp hin)⟩
  · rw [h3]
    exact List.diff_sublist _ _

theorem tablesWithAutoPort_indexed : ∀ entry ∈ tablesWithAutoPort.ports, ∀ i : Nat,
    tablesWithAutoPort.indexedPorts.get? i = some (some entry.2.ptr) ↔
      entry.2.index = (i : Int) := by
  intro entry hentry i
  simp only [tablesWithAutoPort, List.mem_cons, List.mem_singleton, List.not_mem_nil,
    or_false] at hentry
  rcases hentry with rfl | rfl
  · rcases i with _ | _ | _ | i
    · simp [tablesWithAutoPort]
    · simp [tablesWithAutoPort]
    · simp [tablesWithAutoPort]
    · simp [tablesWithAutoPort]
      omega
  · rcases i with _ | _ | _ | i
    · simp [tablesWithAutoPort]
    · simp [tablesWithAutoPort]
    · simp [tablesWithAutoPort]
    · simp [tablesWithAutoPort]
      omega

/-- An instance of the effect on consistent tables: with port "0" set up and port "2"
allocated automatically, neither subscribed, autoDeletePorts removes port "2" and keeps
port "0". -/
theorem autoDeletePorts_effect_witness :
    (∀ entry ∈ (autoDeletePorts tablesWithAutoPort).ports, entry ∈ tablesWithAutoPort.ports) ∧
    (∀ entry ∈ tablesWithAutoPort.ports,
      (entry ∉ (autoDeletePorts tablesWithAutoPort).ports ↔
        entry.2.subscribers = [] ∧ entry.2.ptr ∈ tablesWithAutoPort.automaticPorts)) ∧
    (∀ entry ∈ tablesWithAutoPort.ports,
      entry.2.subscribers = [] ∧ entry.2.ptr ∈ tablesWithAutoPort.automaticPorts →
      entry.1 ∉ (autoDeletePorts tablesWithAutoPort).ports.map Prod.fst ∧
      entry.1 ∉ (autoDeletePorts tablesWithAutoPort).namedPorts.map Prod.fst ∧
      entry.1 ∉ (autoDeletePorts tablesWithAutoPort).portNames ∧
      (∀ i, (autoDeletePorts tablesWithAutoPort).indexedPorts.get? i
        ≠ some (some entry.2.ptr)) ∧
      entry.2.ptr ∉ (autoDeletePorts tablesWithAutoPort).automaticPorts) ∧
    (∀ entry ∈ tablesWithAutoPort.ports,
      ¬ (entry.2.subscribers = [] ∧ entry.2.ptr ∈ tablesWithAutoPort.automaticPorts) →
      entry ∈ (autoDeletePorts tablesWithAutoPort).ports ∧
      (∀ p, (entry.1, p) ∈ (autoDeletePorts tablesWithAutoPort).namedPorts ↔
        (entry.1, p) ∈ tablesWithAutoPort.namedPorts) ∧
      (entry.1 ∈ (autoDeletePorts tablesWithAutoPort).portNames ↔
        entry.1 ∈ tablesWithAutoPort.portNames) ∧
      (∀ i, (autoDeletePorts tablesWithAutoPort).indexedPorts.get? i = some (some entry.2.ptr) ↔
        tablesWithAutoPort.indexedPorts.get? i = some (some entry.2.ptr)) ∧
      (entry.2.ptr ∈ (autoDeletePorts tablesWithAutoPort).automaticPorts ↔
        entry.2.ptr ∈ tablesWithAutoPort.automaticPorts)) ∧
    (autoDeletePorts tablesWithAutoPort).portNames.Sublist tablesWithAutoPort.portNames :=
  autoDeletePorts_effect tablesWithAutoPort (by decide) (by decide) (by decide) (by decide)
    tablesWithAutoPort_indexed

/-! ## workerThreadAcquire after an external call, and its timeout -/

/-- C22, as stated, fails: in wait mode a worker finds the flag clear and waits; an external
call sets the flag and unlocks; the wait ends by timeout before the notification, and
workerThreadAcquire returns false while changeFlagged is set. -/
theorem acquire_returns_false_with_flag_set :
    run [(0, false), (0, false), (0, false), (0, false),
         (1, false), (1, false), (1, false), (1, false),
         (0, true), (0, true)] waitingWorkerAndCaller
      = some
        { actor := { _waitModeEnabled := true, _changeFlagged := true, _mutex := none }
          threads := [Thread.worker (WorkerPc.finished false),
            Thread.external ExternalPc.releaseNotify] } :=
  rfl

theorem workerStep_waitMode (t : Nat) (timeout : Bool) (a a1 : ActorInterface)
    (pc pc1 : WorkerPc) (h : workerStep t timeout a pc = some (a1, pc1)) :
    a1._waitModeEnabled = a._waitModeEnabled := by
  cases pc <;> simp only [workerStep] at h <;> (try split_ifs at h) <;>
    simp only [Option.some.injEq, Prod.mk.injEq, reduceCtorEq] at h <;>
    (try (obtain ⟨h1, _⟩ := h; rw [← h1]))

theorem externalStep_waitMode (t : Nat) (a a1 : ActorInterface) (pc pc1 : ExternalPc)
    (h : externalStep t a pc = some (a1, pc1)) :
    a1._waitModeEnabled = a._waitModeEnabled := by
  cases pc <;> simp only [externalStep] at h <;> (try split_ifs at h) <;>
    simp only [Option.some.injEq, Prod.mk.injEq, reduceCtorEq] at h <;>
    (try (obtain ⟨h1, _⟩ := h; rw [← h1]))

/-- The transitions of a worker that lead towards the return of `false`. -/
theorem workerStep_towards_false (t : Nat) (timeout : Bool) (a a1 : ActorInterface)
    (pc pc1 : WorkerPc) (h : workerStep t timeout a pc = some (a1, pc1)) :
    (pc1 = WorkerPc.finished false →
      pc = WorkerPc.timedOut ∧ a1._mutex = none ∧ a1._changeFlagged = a._changeFlagged) ∧
    (pc1 = WorkerPc.timedOut →
      pc = WorkerPc.waiting ∧ timeout = true ∧ a._mutex = none ∧ a1._mutex = some t) ∧
    (pc1 = WorkerPc.waiting →
      pc = WorkerPc.waitLoop ∧ a._changeFlagged = false ∧ a1._mutex = none) ∧
    (pc1 = WorkerPc.waitLoop →
      (pc = WorkerPc.waitLock ∨ (pc = WorkerPc.waiting ∧ timeout = false)) ∧
        a._mutex = none ∧ a1._mutex = some t) ∧
    (pc1 = WorkerPc.waitLock → pc = WorkerPc.checkWaitMode ∧ a._waitModeEnabled = true) ∧
    (pc1 = WorkerPc.checkWaitMode → pc = WorkerPc.acquireEntry ∧ a._changeFlagged = false) := by
  cases pc <;> simp only [workerStep] at h <;> (try split_ifs at h with hc) <;>
    simp only [Option.some.injEq, Prod.mk.injEq, reduceCtorEq] at h <;>
    (try (obtain ⟨h1, h2⟩ := h; subst h1; subst h2)) <;>
    simp_all

theorem workerStep_inWaitPath (t : Nat) (timeout : Bool) (a a1 : ActorInterface)
    (pc pc1 : WorkerPc) (h : workerStep t timeout a pc = some (a1, pc1))
    (hinv : pc.inWaitPath = true → a._waitModeEnabled = true) :
    pc1.inWaitPath = true → a1._waitModeEnabled = true := by
  intro hp
  rw [workerStep_waitMode t timeout a a1 pc pc1 h]
  have ht := workerStep_towards_false t timeout a a1 pc pc1 h
  cases pc1 with
  | waitLock => exact (ht.2.2.2.2.1 rfl).2
  | waitLoop =>
    rcases (ht.2.2.2.1 rfl).1 with h1 | h1
    · exact hinv (by rw [h1]; rfl)
    · exact hinv (by rw [h1.1]; rfl)
  | waiting => exact hinv (by rw [(ht.2.2.1 rfl).1]; rfl)
  | timedOut => exact hinv (by rw [(ht.2.1 rfl).1]; rfl)
  | finished b =>
    cases b with
    | false => exact hinv (by rw [(ht.1 rfl).1]; rfl)
    | true => simp [WorkerPc.inWaitPath] at hp
  | acquireEntry => simp [WorkerPc.inWaitPath] at hp
  | fastLock => simp [WorkerPc.inWaitPath] at hp
  | checkWaitMode => simp [WorkerPc.inWaitPath] at hp
  | workTask => simp [WorkerPc.inWaitPath] at hp
  | release => simp [WorkerPc.inWaitPath] at hp

theorem step_cases (t : Nat) (timeout : Bool) (s s1 : System) (h : step t timeout s = some s1) :
    (∃ pc a1 pc1, s.threads.get? t = some (Thread.worker pc) ∧
      workerStep t timeout s.actor pc = some (a1, pc1) ∧
      s1 = { actor := a1, threads := s.threads.set t (Thread.worker pc1) }) ∨
    (∃ pc a1 pc1, s.threads.get? t = some (Thread.external pc) ∧
      externalStep t s.actor pc = some (a1, pc1) ∧
      s1 = { actor := a1, threads := s.threads.set t (Thread.external pc1) }) := by
  unfold step at h
  cases hth : s.threads.get? t with
  | none => rw [hth] at h; cases h
  | some th =>
    rw [hth] at h
    cases th with
    | worker pc =>
      left
      simp only [Option.map_eq_some'] at h
      obtain ⟨r, hr, hs⟩ := h
      exact ⟨pc, r.1, r.2, rfl, hr, hs.symm⟩
    | external pc =>
      right
      simp only [Option.map_eq_some'] at h
      obtain ⟨r, hr, hs⟩ := h
      exact ⟨pc, r.1, r.2, rfl, hr, hs.symm⟩

theorem get?_set_self_of_some {α : Type} (l : List α) (i : Nat) (x y : α)
    (h : l.get? i = some x) : (l.set i y).get? i = some y := by
  have hlt : i < l.length := by
    by_contra hge
    rw [List.get?_eq_getElem?, List.getElem?_eq_none (Nat.le_of_not_lt hge)] at h
    cases h
  rw [List.get?_eq_getElem?, List.getElem?_set_self hlt]

theorem get?_set_of_ne {α : Type} (l : List α) (i j : Nat) (y : α) (h : i ≠ j) :
    (l.set i y).get? j = l.get? j := by
  rw [List.get?_eq_getElem?, List.get?_eq_getElem?, List.getElem?_set_ne h]

theorem workerStep_mutex (t : Nat) (timeout : Bool) (a a1 : ActorInterface)
    (pc pc1 : WorkerPc) (h : workerStep t timeout a pc = some (a1, pc1)) :
    a1._mutex = a._mutex ∨ a1._mutex = none ∨ a1._mutex = some t := by
  cases pc <;> simp only [workerStep] at h <;> (try split_ifs at h) <;>
    simp only [Option.some.injEq, Prod.mk.injEq, reduceCtorEq] at h <;>
    (try (obtain ⟨h1, _⟩ := h; rw [← h1])) <;> simp

theorem externalStep_mutex (t : Nat) (a a1 : ActorInterface) (pc pc1 : ExternalPc)
    (h : externalStep t a pc = some (a1, pc1)) :
    a1._mutex = a._mutex ∨ a1._mutex = none ∨ a1._mutex = some t := by
  cases pc <;> simp only [externalStep] at h <;> (try split_ifs at h) <;>
    simp only [Option.some.injEq, Prod.mk.injEq, reduceCtorEq] at h <;>
    (try (obtain ⟨h1, _⟩ := h; rw [← h1])) <;> simp

theorem step_waitMode (t : Nat) (timeout : Bool) (s s1 : System)
    (h : step t timeout s = some s1) :
    s1.actor._waitModeEnabled = s.actor._waitModeEnabled := by
  rcases step_cases t timeout s s1 h with ⟨pc, a1, pc1, _, hw, rfl⟩ | ⟨pc, a1, pc1, _, hw, rfl⟩
  · exact workerStep_waitMode t timeout s.actor a1 pc pc1 hw
  · exact externalStep_waitMode t s.actor a1 pc pc1 hw

theorem step_workerInvariant (t u : Nat) (timeout : Bool) (s s1 : System)
    (h : step u timeout s = some s1) (hinv : workerInvariant t s) : workerInvariant t s1 := by
  by_cases hut : u = t
  · subst hut
    rcases step_cases u timeout s s1 h with ⟨pc, a1, pc1, hth, hw, rfl⟩ | ⟨pc, a1, pc1, hth, hw, rfl⟩
    · have hget := get?_set_self_of_some s.threads u (Thread.worker pc) (Thread.worker pc1) hth
      constructor
      · intro pc2 h2 hp
        simp only [hget, Option.some.injEq, Thread.worker.injEq] at h2
        subst h2
        exact workerStep_inWaitPath u timeout s.actor a1 pc pc1 hw (hinv.1 pc hth) hp
      · intro h2
        simp only [hget, Option.some.injEq, Thread.worker.injEq] at h2
        have := ((workerStep_towards_false u timeout s.actor a1 pc pc1 hw).1 h2).2.1
        simp [this]
    · have hget := get?_set_self_of_some s.threads u (Thread.external pc) (Thread.external pc1) hth
      constructor
      · intro pc2 h2 _
        simp only [hget, Option.some.injEq, reduceCtorEq] at h2
      · intro h2
        simp only [hget, Option.some.injEq, reduceCtorEq] at h2
  · have hwait := step_waitMode u timeout s s1 h
    rcases step_cases u timeout s s1 h with ⟨pc, a1, pc1, hth, hw, rfl⟩ | ⟨pc, a1, pc1, hth, hw, rfl⟩
    · simp only [workerInvariant, get?_set_of_ne _ u t _ hut]
      simp only at hwait
      constructor
      · intro pc2 h2 hp
        rw [hwait]
        exact hinv.1 pc2 h2 hp
      · intro h2
        have hm := hinv.2 h2
        rcases workerStep_mutex u timeout s.actor a1 pc pc1 hw with h3 | h3 | h3
        · rw [h3]; exact hm
        · rw [h3]; simp
        · rw [h3]; simpa using hut
    · simp only [workerInvariant, get?_set_of_ne _ u t _ hut]
      simp only at hwait
      constructor
      · intro pc2 h2 hp
        rw [hwait]
        exact hinv.1 pc2 h2 hp
      · intro h2
        have hm := hinv.2 h2
        rcases externalStep_mutex u s.actor a1 pc pc1 hw with h3 | h3 | h3
        · rw [h3]; exact hm
        · rw [h3]; simp
        · rw [h3]; simpa using hut

theorem run_workerInvariant (t : Nat) (sched : List (Nat × Bool)) (s s1 : System)
    (h : run sched s = some s1) (hinv : workerInvariant t s) :
    workerInvariant t s1 ∧ s1.actor._waitModeEnabled = s.actor._waitModeEnabled := by
  induction sched generalizing s with
  | nil =>
    simp only [run, Option.some.injEq] at h
    subst h
    exact ⟨hinv, rfl⟩
  | cons head rest ih =>
    obtain ⟨u, timeout⟩ := head
    simp only [run, Option.bind_eq_some] at h
    obtain ⟨s2, hs2, hrest⟩ := h
    obtain ⟨h1, h2⟩ := ih s2 hrest (step_workerInvariant t u timeout s s2 hs2 hinv)
    exact ⟨h1, h2.trans (step_waitMode u timeout s s2 hs2)⟩

theorem run_after_false (t : Nat) (sched : List (Nat × Bool)) (s s1 : System)
    (h : run sched s = some s1)
    (hend : s.threads.get? t = some (Thread.worker (WorkerPc.finished false))) :
    s1.threads.get? t = some (Thread.worker (WorkerPc.finished false)) := by
  induction sched generalizing s with
  | nil =>
    simp only [run, Option.some.injEq] at h
    subst h
    exact hend
  | cons head rest ih =>
    obtain ⟨u, timeout⟩ := head
    simp only [run, Option.bind_eq_some] at h
    obtain ⟨s2, hs2, hrest⟩ := h
    apply ih s2 hrest
    by_cases hut : u = t
    · subst hut
      unfold step at hs2
      rw [hend] at hs2
      simp [workerStep] at hs2
    · rcases step_cases u timeout s s2 hs2 with ⟨pc, a1, pc1, _, _, rfl⟩ | ⟨pc, a1, pc1, _, _, rfl⟩
      · simp only [get?_set_of_ne _ u t _ hut]
        exact hend
      · simp only [get?_set_of_ne _ u t _ hut]
        exact hend

/-- C22 (amended): workerThreadAcquire returns false only when wait mode is enabled, the flag
was found unset by the exchange on entry and again by the exchange before the wait, and the
wait timed out; whenever it has returned false the worker does not own the mutex, the return
itself leaves changeFlagged as it is, and processTask then runs neither workTask nor
workerThreadRelease (the worker takes no further step). -/
theorem acquire_false_only_after_timeout (t : Nat) (sched : List (Nat × Bool))
    (s0 s : System)
    (hstart : s0.threads.get? t = some (Thread.worker WorkerPc.acquireEntry))
    (hrun : run sched s0 = some s)
    (hend : s.threads.get? t = some (Thread.worker (WorkerPc.finished false))) :
    s0.actor._waitModeEnabled = true ∧ s.actor._waitModeEnabled = true ∧
    s.actor._mutex ≠ some t ∧
    (∀ timeout, step t timeout s = none) ∧
    (∀ sched1 s1, run sched1 s = some s1 →
      s1.threads.get? t = some (Thread.worker (WorkerPc.finished false)) ∧
      s1.actor._mutex ≠ some t) ∧
    (∀ (timeout : Bool) (a a1 : ActorInterface) (pc pc1 : WorkerPc),
      workerStep t timeout a pc = some (a1, pc1) →
      (pc1 = WorkerPc.finished false →
        pc = WorkerPc.timedOut ∧ a1._mutex = none ∧ a1._changeFlagged = a._changeFlagged) ∧
      (pc1 = WorkerPc.timedOut →
        pc = WorkerPc.waiting ∧ timeout = true ∧ a._mutex = none ∧ a1._mutex = some t) ∧
      (pc1 = WorkerPc.waiting →
        pc = WorkerPc.waitLoop ∧ a._changeFlagged = false ∧ a1._mutex = none) ∧
      (pc1 = WorkerPc.waitLoop →
        (pc = WorkerPc.waitLock ∨ (pc = WorkerPc.waiting ∧ timeout = false)) ∧
          a._mutex = none ∧ a1._mutex = some t) ∧
      (pc1 = WorkerPc.waitLock → pc = WorkerPc.checkWaitMode ∧ a._waitModeEnabled = true) ∧
      (pc1 = WorkerPc.checkWaitMode →
        pc = WorkerPc.acquireEntry ∧ a._changeFlagged = false)) := by
  have hinv0 : workerInvariant t s0 := by
    constructor
    · intro pc h hp
      rw [hstart] at h
      simp only [Option.some.injEq, Thread.worker.injEq] at h
      subst h
      simp [WorkerPc.inWaitPath] at hp
    · intro h
      rw [hstart] at h
      simp at h
  obtain ⟨hinv, hwait⟩ := run_workerInvariant t sched s0 s hrun hinv0
  have hw : s.actor._waitModeEnabled = true := hinv.1 _ hend rfl
  refine ⟨hwait ▸ hw, hw, hinv.2 hend, ?_, ?_, ?_⟩
  · intro timeout
    unfold step
    rw [hend]
    simp [workerStep]
  · intro sched1 s1 hrun1
    have hend1 := run_after_false t sched1 s s1 hrun1 hend
    exact ⟨hend1, (run_workerInvariant t sched1 s s1 hrun1 hinv).1.2 hend1⟩
  · intro timeout a a1 pc pc1 h
    exact workerStep_towards_false t timeout a a1 pc pc1 h

/-- Witness for C22 (amended): a worker in wait mode whose wait times out undisturbed. -/
theorem acquire_false_only_after_timeout_witness :
    waitingWorkerAndCaller.actor._waitModeEnabled = true ∧
    ({ actor := { _waitModeEnabled := true, _changeFlagged := false, _mutex := none }
       threads := [Thread.worker (WorkerPc.finished false),
         Thread.external ExternalPc.acquire] } : System).actor._mutex ≠ some 0 :=
  have h := acquire_false_only_after_timeout 0
    [(0, false), (0, false), (0, false), (0, false), (0, true), (0, true)]
    waitingWorkerAndCaller
    { actor := { _waitModeEnabled := true, _changeFlagged := false, _mutex := none }
      threads := [Thread.worker (WorkerPc.finished false), Thread.external ExternalPc.acquire] }
    rfl rfl rfl
  ⟨h.1, h.2.2.1⟩

/-! ## workerThreadAcquire after an external call -/

theorem externalStep_flag (t : Nat) (a a1 : ActorInterface) (pc pc1 : ExternalPc)
    (h : externalStep t a pc = some (a1, pc1)) :
    (a._changeFlagged = true → a1._changeFlagged = true) ∧
    (pc1 = ExternalPc.releaseUnlock → a1._changeFlagged = true) ∧
    (pc1 = ExternalPc.releaseNotify →
      pc = ExternalPc.releaseUnlock ∧ a1._mutex = none ∧ a1._changeFlagged = a._changeFlagged) ∧
    (pc1 = ExternalPc.finished → pc = ExternalPc.releaseNotify ∧ a1 = a) := by
  cases pc <;> simp only [externalStep] at h <;> (try split_ifs at h with hc) <;>
    simp only [Option.some.injEq, Prod.mk.injEq, reduceCtorEq] at h <;>
    (try (obtain ⟨h1, h2⟩ := h; subst h1; subst h2)) <;>
    simp_all

theorem isExternal_set (l : List Thread) (a : ActorInterface) (a1 : ActorInterface) (u : Nat)
    (th th1 : Thread) (hth : l.get? u = some th)
    (hkind : ∀ pc, th = Thread.external pc → ∃ pc1, th1 = Thread.external pc1)
    (hkind2 : ∀ pc, th = Thread.worker pc → ∃ pc1, th1 = Thread.worker pc1) (t : Nat) :
    isExternal { actor := a1, threads := l.set u th1 } t
      = isExternal { actor := a, threads := l } t := by
  unfold isExternal
  by_cases hut : u = t
  · subst hut
    simp only [get?_set_self_of_some l u th th1 hth, hth]
    cases th with
    | worker pc =>
      obtain ⟨pc1, h1⟩ := hkind2 pc rfl
      rw [h1]
    | external pc =>
      obtain ⟨pc1, h1⟩ := hkind pc rfl
      rw [h1]
  · simp only [get?_set_of_ne l u t th1 hut]

theorem step_isExternal (u : Nat) (b : Bool) (s s1 : System) (h : step u b s = some s1)
    (t : Nat) : isExternal s1 t = isExternal s t := by
  rcases step_cases u b s s1 h with ⟨pc, a1, pc1, hth, _, rfl⟩ | ⟨pc, a1, pc1, hth, _, rfl⟩
  · exact isExternal_set s.threads s.actor a1 u _ _ hth
      (fun _ hh => by cases hh) (fun _ _ => ⟨pc1, rfl⟩) t
  · exact isExternal_set s.threads s.actor a1 u _ _ hth
      (fun _ _ => ⟨pc1, rfl⟩) (fun _ hh => by cases hh) t

theorem step_external_only (e u : Nat) (b : Bool) (s s1 : System)
    (hu : isExternal s u = true) (hinv : callerInvariant e s) (h : step u b s = some s1) :
    callerInvariant e s1 ∧
    (∀ w pc, s.threads.get? w = some (Thread.worker pc) →
      s1.threads.get? w = some (Thread.worker pc)) := by
  have hkind := step_isExternal u b s s1 h
  rcases step_cases u b s s1 h with ⟨pc, a1, pc1, hth, hw, hs1⟩ | ⟨pc, a1, pc1, hth, hw, hs1⟩
  · unfold isExternal at hu
    rw [hth] at hu
    cases hu
  · have hflag := externalStep_flag u s.actor a1 pc pc1 hw
    have hmutex := externalStep_mutex u s.actor a1 pc pc1 hw
    subst hs1
    refine ⟨?_, ?_⟩
    · by_cases hue : u = e
      · subst hue
        have hget := get?_set_self_of_some s.threads u (Thread.external pc)
          (Thread.external pc1) hth
        constructor
        · intro pc2 h2 hp
          simp only [hget, Option.some.injEq, Thread.external.injEq] at h2
          subst h2
          simp only
          rcases hp with hp | hp | hp
          · exact hflag.2.1 hp
          · obtain ⟨hpc, _, hf⟩ := hflag.2.2.1 hp
            rw [hf]
            exact hinv.1 pc hth (Or.inl hpc)
          · obtain ⟨hpc, ha⟩ := hflag.2.2.2 hp
            rw [ha]
            exact hinv.1 pc hth (Or.inr (Or.inl hpc))
        · intro pc2 h2 hp
          simp only [hget, Option.some.injEq, Thread.external.injEq] at h2
          subst h2
          rcases hp with hp | hp
          · left
            exact (hflag.2.2.1 hp).2.1
          · obtain ⟨hpc, ha⟩ := hflag.2.2.2 hp
            rcases hinv.2 pc hth (Or.inl hpc) with h3 | ⟨o, ho, hm, hext⟩
            · left
              simp only [ha]
              exact h3
            · right
              refine ⟨o, ho, by simp only [ha]; exact hm, ?_⟩
              rw [hkind o]
              exact hext
      · constructor
        · intro pc2 h2 hp
          simp only [get?_set_of_ne _ u e _ hue] at h2
          exact hflag.1 (hinv.1 pc2 h2 hp)
        · intro pc2 h2 hp
          simp only [get?_set_of_ne _ u e _ hue] at h2
          rcases hmutex with h3 | h3 | h3
          · rcases hinv.2 pc2 h2 hp with h4 | ⟨o, ho, hm, hext⟩
            · left
              simp only [h3]
              exact h4
            · right
              refine ⟨o, ho, by simp only [h3]; exact hm, ?_⟩
              rw [hkind o]
              exact hext
          · left
            exact h3
          · right
            refine ⟨u, hue, h3, ?_⟩
            rw [hkind u]
            exact hu
    · intro w pc2 h2
      have hne : u ≠ w := by
        intro huw
        subst huw
        rw [hth] at h2
        cases h2
      simp only [get?_set_of_ne _ u w _ hne]
      exact h2

theorem run_external_only (e : Nat) (s0 : System) (sched : List (Nat × Bool)) (s s1 : System)
    (hsched : ∀ p ∈ sched, isExternal s0 p.1 = true)
    (hkind : ∀ t, isExternal s t = isExternal s0 t)
    (hinv : callerInvariant e s) (h : run sched s = some s1) :
    callerInvariant e s1 ∧
    (∀ w pc, s.threads.get? w = some (Thread.worker pc) →
      s1.threads.get? w = some (Thread.worker pc)) ∧
    (∀ t, isExternal s1 t = isExternal s0 t) := by
  induction sched generalizing s with
  | nil =>
    simp only [run, Option.some.injEq] at h
    subst h
    exact ⟨hinv, fun _ _ hh => hh, hkind⟩
  | cons head rest ih =>
    obtain ⟨u, b⟩ := head
    simp only [run, Option.bind_eq_some] at h
    obtain ⟨s2, hs2, hrest⟩ := h
    have hu : isExternal s u = true := by
      rw [hkind u]
      exact hsched (u, b) (List.mem_cons_self _ _)
    obtain ⟨hinv2, hw2⟩ := step_external_only e u b s s2 hu hinv hs2
    have hkind2 : ∀ t, isExternal s2 t = isExternal s0 t := fun t =>
      (step_isExternal u b s s2 hs2 t).trans (hkind t)
    obtain ⟨h1, h2, h3⟩ :=
      ih s2 (fun p hp => hsched p (List.mem_cons_of_mem _ hp)) hkind2 hinv2 hrest
    exact ⟨h1, fun w pc hh => h2 w pc (hw2 w pc hh), h3⟩

theorem workerStep_onFastPath (t : Nat) (timeout : Bool) (a a1 : ActorInterface)
    (pc pc1 : WorkerPc) (h : workerStep t timeout a pc = some (a1, pc1))
    (hp : pc.onFastPath = true) : pc1.onFastPath = true := by
  cases pc <;> simp only [workerStep] at h <;> (try split_ifs at h with hc) <;>
    simp only [Option.some.injEq, Prod.mk.injEq, reduceCtorEq] at h <;>
    (try (obtain ⟨h1, h2⟩ := h; subst h1; subst h2)) <;>
    simp_all [WorkerPc.onFastPath]

theorem run_onFastPath (w : Nat) (sched : List (Nat × Bool)) (s s1 : System)
    (h : run sched s = some s1)
    (hp : ∃ pc, s.threads.get? w = some (Thread.worker pc) ∧ pc.onFastPath = true) :
    ∃ pc, s1.threads.get? w = some (Thread.worker pc) ∧ pc.onFastPath = true := by
  induction sched generalizing s with
  | nil =>
    simp only [run, Option.some.injEq] at h
    subst h
    exact hp
  | cons head rest ih =>
    obtain ⟨u, b⟩ := head
    simp only [run, Option.bind_eq_some] at h
    obtain ⟨s2, hs2, hrest⟩ := h
    apply ih s2 hrest
    obtain ⟨pc0, hpc0, hfast⟩ := hp
    by_cases huw : u = w
    · subst huw
      rcases step_cases u b s s2 hs2 with ⟨pc, a1, pc1, hth, hw, rfl⟩ | ⟨pc, a1, pc1, hth, _, rfl⟩
      · rw [hpc0] at hth
        simp only [Option.some.injEq, Thread.worker.injEq] at hth
        subst hth
        exact ⟨pc1, get?_set_self_of_some _ _ _ _ hpc0,
          workerStep_onFastPath u b s.actor a1 pc0 pc1 hw hfast⟩
      · rw [hpc0] at hth
        cases hth
    · rcases step_cases u b s s2 hs2 with ⟨pc, a1, pc1, _, _, rfl⟩ | ⟨pc, a1, pc1, _, _, rfl⟩
      · exact ⟨pc0, by simp only [get?_set_of_ne _ u w _ huw]; exact hpc0, hfast⟩
      · exact ⟨pc0, by simp only [get?_set_of_ne _ u w _ huw]; exact hpc0, hfast⟩

/-- C21, as stated, fails: a worker waits in wait_for while an external call runs to its end;
the waiting worker wakes up, finds the flag set and clears it; the next workerThreadAcquire,
begun by another worker after the external call, finds the flag clear, does not take the
fast path and returns false after the wait timed out. -/
theorem next_acquire_after_external_call_waits :
    run [(0, false), (0, false), (0, false), (0, false),
         (1, false), (1, false), (1, false), (1, false), (1, false)]
        waitingTwoWorkersAndCaller
      = some
        { actor := { _waitModeEnabled := true, _changeFlagged := true, _mutex := none }
          threads := [Thread.worker WorkerPc.waiting, Thread.external ExternalPc.finished,
            Thread.worker WorkerPc.acquireEntry] } ∧
    run [(0, false), (0, false), (2, false)]
        { actor := { _waitModeEnabled := true, _changeFlagged := true, _mutex := none }
          threads := [Thread.worker WorkerPc.waiting, Thread.external ExternalPc.finished,
            Thread.worker WorkerPc.acquireEntry] }
      = some
        { actor := { _waitModeEnabled := true, _changeFlagged := false, _mutex := some 0 }
          threads := [Thread.worker WorkerPc.workTask, Thread.external ExternalPc.finished,
            Thread.worker WorkerPc.checkWaitMode] } ∧
    run [(2, false), (0, false), (0, false), (2, false), (2, false), (2, true), (2, true)]
        { actor := { _waitModeEnabled := true, _changeFlagged := false, _mutex := some 0 }
          threads := [Thread.worker WorkerPc.workTask, Thread.external ExternalPc.finished,
            Thread.worker WorkerPc.checkWaitMode] }
      = some
        { actor := { _waitModeEnabled := true, _changeFlagged := false, _mutex := none }
          threads := [Thread.worker (WorkerPc.finished true), Thread.external ExternalPc.finished,
            Thread.worker (WorkerPc.finished false)] } :=
  ⟨rfl, rfl, rfl⟩

theorem step_external_eq (e : Nat) (b : Bool) (s : System) (pc pc1 : ExternalPc)
    (a1 : ActorInterface) (hth : s.threads.get? e = some (Thread.external pc))
    (hstep : externalStep e s.actor pc = some (a1, pc1)) :
    step e b s = some { actor := a1, threads := s.threads.set e (Thread.external pc1) } := by
  unfold step
  rw [hth]
  simp only [hstep, Option.map_some']

theorem step_worker_eq (w : Nat) (b : Bool) (s : System) (pc pc1 : WorkerPc)
    (a1 : ActorInterface) (hth : s.threads.get? w = some (Thread.worker pc))
    (hstep : workerStep w b s.actor pc = some (a1, pc1)) :
    step w b s = some { actor := a1, threads := s.threads.set w (Thread.worker pc1) } := by
  unfold step
  rw [hth]
  simp only [hstep, Option.map_some']

theorem external_call_alone (s0 : System) (e : Nat)
    (he : s0.threads.get? e = some (Thread.external ExternalPc.acquire))
    (hfree : s0.actor._mutex = none) (b1 b2 b3 b4 b5 : Bool) :
    run [(e, b1), (e, b2), (e, b3), (e, b4), (e, b5)] s0
      = some
        { actor := { _waitModeEnabled := s0.actor._waitModeEnabled, _changeFlagged := true,
                     _mutex := none }
          threads := s0.threads.set e (Thread.external ExternalPc.finished) } := by
  obtain ⟨a, l⟩ := s0
  simp only at he hfree
  have h1 := step_external_eq e b1 ⟨a, l⟩ ExternalPc.acquire ExternalPc.holding
    { a with _mutex := some e } he (by simp [externalStep, hfree])
  have g1 := get?_set_self_of_some l e _ (Thread.external ExternalPc.holding) he
  have h2 := step_external_eq e b2 ⟨{ a with _mutex := some e }, l.set e _⟩ ExternalPc.holding
    ExternalPc.releaseFlag { a with _mutex := some e } g1 (by simp [externalStep])
  have g2 := get?_set_self_of_some _ e _ (Thread.external ExternalPc.releaseFlag) g1
  have h3 := step_external_eq e b3 ⟨{ a with _mutex := some e }, (l.set e _).set e _⟩
    ExternalPc.releaseFlag ExternalPc.releaseUnlock
    { a with _mutex := some e, _changeFlagged := true } g2 (by simp [externalStep])
  have g3 := get?_set_self_of_some _ e _ (Thread.external ExternalPc.releaseUnlock) g2
  have h4 := step_external_eq e b4
    ⟨{ a with _mutex := some e, _changeFlagged := true }, ((l.set e _).set e _).set e _⟩
    ExternalPc.releaseUnlock ExternalPc.releaseNotify
    { a with _mutex := none, _changeFlagged := true } g3 (by simp [externalStep])
  have g4 := get?_set_self_of_some _ e _ (Thread.external ExternalPc.releaseNotify) g3
  have h5 := step_external_eq e b5
    ⟨{ a with _mutex := none, _changeFlagged := true }, (((l.set e _).set e _).set e _).set e _⟩
    ExternalPc.releaseNotify ExternalPc.finished
    { a with _mutex := none, _changeFlagged := true } g4 (by simp [externalStep])
  simp only at h1 h2 h3 h4 h5
  simp only [run]
  rw [h1]
  simp only [Option.some_bind]
  rw [h2]
  simp only [Option.some_bind]
  rw [h3]
  simp only [Option.some_bind]
  rw [h4]
  simp only [Option.some_bind]
  rw [h5]
  simp only [Option.some_bind, List.set_set]

/-- C21 (amended): in a run from the start of an external call (externalCallAcquire followed
by externalCallRelease) past its end in which only external callers take steps, at the end
changeFlagged is set and the mutex is free or owned by another external caller (it is free
when the caller ran alone from a free mutex); a workerThreadAcquire begun then, before any
other worker takes a step, in wait mode or poll mode, takes the fast path: its exchange
clears changeFlagged, and whatever the threads do afterwards the worker is before the lock
of line 113, where it locks the mutex as soon as the mutex is free, or has returned true;
it never waits on the condition variable. -/
theorem fast_path_after_external_call (s0 s : System) (e w : Nat) (sched : List (Nat × Bool))
    (he : s0.threads.get? e = some (Thread.external ExternalPc.acquire))
    (hw : s0.threads.get? w = some (Thread.worker WorkerPc.acquireEntry))
    (hsched : ∀ p ∈ sched, isExternal s0 p.1 = true)
    (hrun : run sched s0 = some s)
    (hdone : s.threads.get? e = some (Thread.external ExternalPc.finished)) :
    s.actor._changeFlagged = true ∧
    (s.actor._mutex = none ∨
      ∃ o, o ≠ e ∧ s.actor._mutex = some o ∧ isExternal s o = true) ∧
    (∀ b1 b2 b3 b4 b5 : Bool, s0.actor._mutex = none →
      run [(e, b1), (e, b2), (e, b3), (e, b4), (e, b5)] s0
        = some
          { actor := { _waitModeEnabled := s0.actor._waitModeEnabled, _changeFlagged := true,
                       _mutex := none }
            threads := s0.threads.set e (Thread.external ExternalPc.finished) }) ∧
    s.threads.get? w = some (Thread.worker WorkerPc.acquireEntry) ∧
    (∀ b : Bool, ∃ s1, step w b s = some s1 ∧
      s1.actor = { _waitModeEnabled := s.actor._waitModeEnabled, _changeFlagged := false,
                   _mutex := s.actor._mutex } ∧
      s1.threads.get? w = some (Thread.worker WorkerPc.fastLock) ∧
      ∀ (sched2 : List (Nat × Bool)) (s2 : System), run sched2 s1 = some s2 →
        (∃ pc, s2.threads.get? w = some (Thread.worker pc) ∧ pc.onFastPath = true) ∧
        (s2.threads.get? w = some (Thread.worker WorkerPc.fastLock) → ∀ b2 : Bool,
          (s2.actor._mutex = none →
            ∃ s3, step w b2 s2 = some s3 ∧ s3.actor._mutex = some w ∧
              s3.actor._changeFlagged = s2.actor._changeFlagged ∧
              s3.threads.get? w = some (Thread.worker WorkerPc.workTask)) ∧
          (s2.actor._mutex ≠ none → step w b2 s2 = none))) := by
  have hinv0 : callerInvariant e s0 := by
    constructor
    · intro pc h hp
      rw [he] at h
      simp only [Option.some.injEq, Thread.external.injEq] at h
      subst h
      simp at hp
    · intro pc h hp
      rw [he] at h
      simp only [Option.some.injEq, Thread.external.injEq] at h
      subst h
      simp at hp
  obtain ⟨hinv, hworkers, _⟩ :=
    run_external_only e s0 sched s0 s hsched (fun _ => rfl) hinv0 hrun
  have hflag : s.actor._changeFlagged = true := hinv.1 _ hdone (Or.inr (Or.inr rfl))
  have hws : s.threads.get? w = some (Thread.worker WorkerPc.acquireEntry) :=
    hworkers w _ hw
  refine ⟨hflag, hinv.2 _ hdone (Or.inr rfl),
    fun b1 b2 b3 b4 b5 hfree => external_call_alone s0 e he hfree b1 b2 b3 b4 b5, hws, ?_⟩
  intro b
  have hstep := step_worker_eq w b s WorkerPc.acquireEntry WorkerPc.fastLock
    { s.actor with _changeFlagged := false } hws (by simp [workerStep, hflag])
  refine ⟨_, hstep, rfl, get?_set_self_of_some _ _ _ _ hws, ?_⟩
  intro sched2 s2 hrun2
  refine ⟨run_onFastPath w sched2 _ s2 hrun2
    ⟨WorkerPc.fastLock, get?_set_self_of_some _ _ _ _ hws, rfl⟩, ?_⟩
  intro hfast b2
  constructor
  · intro hfree
    have h3 := step_worker_eq w b2 s2 WorkerPc.fastLock WorkerPc.workTask
      { s2.actor with _mutex := some w } hfast (by simp [workerStep, hfree])
    exact ⟨_, h3, rfl, rfl, get?_set_self_of_some _ _ _ _ hfast⟩
  · intro hheld
    unfold step
    rw [hfast]
    simp [workerStep, hheld]

/-- Witness for C21 (amended): an external caller and a worker on an actor in wait mode; the
caller runs alone from its externalCallAcquire to the end of its externalCallRelease, and
the exchange of the worker then leads to the lock of the fast path. -/
theorem fast_path_after_external_call_witness :
    ∃ s1, step 1 false
        { actor := { _waitModeEnabled := true, _changeFlagged := true, _mutex := none }
          threads := [Thread.external ExternalPc.finished,
            Thread.worker WorkerPc.acquireEntry] } = some s1 ∧
      s1.actor = { _waitModeEnabled := true, _changeFlagged := false, _mutex := none } ∧
      s1.threads.get? 1 = some (Thread.worker WorkerPc.fastLock) := by
  obtain ⟨s1, h1, h2, h3, _⟩ := (fast_path_after_external_call
    { actor := { _waitModeEnabled := true, _changeFlagged := false, _mutex := none }
      threads := [Thread.external ExternalPc.acquire, Thread.worker WorkerPc.acquireEntry] }
    { actor := { _waitModeEnabled := true, _changeFlagged := true, _mutex := none }
      threads := [Thread.external ExternalPc.finished, Thread.worker WorkerPc.acquireEntry] }
    0 1 [(0, false), (0, false), (0, false), (0, false), (0, false)]
    rfl rfl (by decide) rfl rfl).2.2.2.2 false
  exact ⟨s1, h1, h2, h3⟩

/-! ## Repeated sub-commits, message order, activation state -/

theorem topologySubCommit_outcome (env : Env) (impl : TopologyImpl) :
    ((installBufferManagers env (newFlowsOf impl.flows impl.activeFlatFlows)).2 = Except.ok () →
      (topologySubCommit env impl).result = Except.ok () ∧
      (topologySubCommit env impl).impl = { impl with activeFlatFlows := impl.flows }) ∧
    (∀ e, (installBufferManagers env (newFlowsOf impl.flows impl.activeFlatFlows)).2
        = Except.error e →
      (topologySubCommit env impl).result = Except.error e ∧
      (topologySubCommit env impl).impl = impl) := by
  unfold topologySubCommit
  simp only [updateFlows_snd]
  constructor
  · intro h
    simp [h, activationPhase, reportErrors_ok]
  · intro e h
    simp [h]

theorem newFlowsOf_self (flows : List Flow) : newFlowsOf flows flows = [] := by
  rw [newFlowsOf_eq, List.filter_eq_nil_iff]
  intro flow hflow
  simpa using hflow

theorem oldFlowsOf_self (flows : List Flow) : oldFlowsOf flows flows = [] := by
  rw [oldFlowsOf_eq, List.filter_eq_nil_iff]
  intro flow hflow
  simpa using hflow

theorem topologySubCommit_same_flows (env : Env) (flows : List Flow) :
    (topologySubCommit env ⟨flows, flows⟩).sent = [] ∧
    (topologySubCommit env ⟨flows, flows⟩).result = Except.ok () ∧
    (topologySubCommit env ⟨flows, flows⟩).impl = ⟨flows, flows⟩ := by
  have hout := (topologySubCommit_outcome env ⟨flows, flows⟩).1
  simp only [newFlowsOf_self, installBufferManagers_nil] at hout
  refine ⟨?_, (hout trivial).1, (hout trivial).2⟩
  rw [topologySubCommit_sent]
  simp [newFlowsOf_self, oldFlowsOf_self, installBufferManagers_nil, getObjSetFromFlowList]

/-- C24: a sub-commit whose flow list equals the recorded active flow list returns normally,
sends no message at all and leaves the topology as it was; hence after a sub-commit that
returned normally, a second sub-commit of the unchanged flows sends no message. -/
theorem subCommit_same_flows_is_noop (env : Env) :
    (∀ flows : List Flow,
      (topologySubCommit env ⟨flows, flows⟩).sent = [] ∧
      (topologySubCommit env ⟨flows, flows⟩).result = Except.ok () ∧
      (topologySubCommit env ⟨flows, flows⟩).impl.activeFlatFlows = flows) ∧
    (topologySubCommit env ⟨[], []⟩).sent = [] ∧
    (topologySubCommit env ⟨[], []⟩).result = Except.ok () ∧
    (∀ impl : TopologyImpl, (topologySubCommit env impl).result = Except.ok () →
      (topologySubCommit env impl).impl.flows = impl.flows ∧
      (topologySubCommit env (topologySubCommit env impl).impl).sent = [] ∧
      (topologySubCommit env (topologySubCommit env impl).impl).result = Except.ok () ∧
      (topologySubCommit env (topologySubCommit env impl).impl).impl
        = (topologySubCommit env impl).impl) := by
  refine ⟨?_, (topologySubCommit_same_flows env []).1, (topologySubCommit_same_flows env []).2.1,
    ?_⟩
  · intro flows
    have h := topologySubCommit_same_flows env flows
    exact ⟨h.1, h.2.1, by rw [h.2.2]⟩
  · intro impl hok
    have hout := topologySubCommit_outcome env impl
    cases hinst : (installBufferManagers env (newFlowsOf impl.flows impl.activeFlatFlows)).2 with
    | error e =>
      rw [(hout.2 e hinst).1] at hok
      cases hok
    | ok u =>
      have himpl := (hout.1 hinst).2
      rw [himpl]
      have h := topologySubCommit_same_flows env impl.flows
      exact ⟨rfl, h.1, h.2.1, h.2.2⟩

/-- Witness for C24: committing one new flow, then committing again. -/
theorem subCommit_same_flows_is_noop_witness :
    (topologySubCommit failingEnv ⟨[flow12], []⟩).impl.flows = [flow12] ∧
    (topologySubCommit failingEnv (topologySubCommit failingEnv ⟨[flow12], []⟩).impl).sent
      = [] ∧
    (topologySubCommit failingEnv (topologySubCommit failingEnv ⟨[flow12], []⟩).impl).result
      = Except.ok () ∧
    (topologySubCommit failingEnv (topologySubCommit failingEnv ⟨[flow12], []⟩).impl).impl
      = (topologySubCommit failingEnv ⟨[flow12], []⟩).impl :=
  (subCommit_same_flows_is_noop failingEnv).2.2.2 ⟨[flow12], []⟩ rfl

/-- C25: the port-subscriber messages of a sub-commit are sent before every other message
and are, in this order: one SUBINPUT per new flow, one SUBOUTPUT per new flow, one
UNSUBOUTPUT per old flow, one UNSUBINPUT per old flow, each group in flow-list order; an
INPUT message goes to the source actor and names the source port with the destination block
and port as peer, an OUTPUT message goes to the destination actor and names the destination
port with the source block and port as peer. -/
theorem subscriber_message_sequence (env : Env) (impl : TopologyImpl) :
    ∃ rest,
      (topologySubCommit env impl).sent
        = (newFlowsOf impl.flows impl.activeFlatFlows).map (fun flow =>
            Msg.sendPortSubscriberMessage flow.src.obj "SUBINPUT" flow.src.name
              flow.dst.obj flow.dst.name)
          ++ (newFlowsOf impl.flows impl.activeFlatFlows).map (fun flow =>
            Msg.sendPortSubscriberMessage flow.dst.obj "SUBOUTPUT" flow.dst.name
              flow.src.obj flow.src.name)
          ++ (oldFlowsOf impl.flows impl.activeFlatFlows).map (fun flow =>
            Msg.sendPortSubscriberMessage flow.dst.obj "UNSUBOUTPUT" flow.dst.name
              flow.src.obj flow.src.name)
          ++ (oldFlowsOf impl.flows impl.activeFlatFlows).map (fun flow =>
            Msg.sendPortSubscriberMessage flow.src.obj "UNSUBINPUT" flow.src.name
              flow.dst.obj flow.dst.name)
          ++ rest ∧
      ∀ m ∈ rest, isSubscriberMsg m = false := by
  have h1 : isInputAction "SUBINPUT" = true := by decide
  have h2 : isInputAction "SUBOUTPUT" = false := by decide
  have h3 : isInputAction "UNSUBOUTPUT" = false := by decide
  have h4 : isInputAction "UNSUBINPUT" = true := by decide
  refine ⟨(installBufferManagers env (newFlowsOf impl.flows impl.activeFlatFlows)).1
    ++ (match (installBufferManagers env (newFlowsOf impl.flows impl.activeFlatFlows)).2 with
        | Except.error _ => []
        | Except.ok _ =>
          (getObjSetFromFlowList (newFlowsOf impl.flows impl.activeFlatFlows)
              impl.activeFlatFlows).map Msg.sendActivateMessage
          ++ (getObjSetFromFlowList (oldFlowsOf impl.flows impl.activeFlatFlows)
              impl.flows).map Msg.sendDeactivateMessage), ?_, ?_⟩
  · have e1 : subscriberMsg "SUBINPUT" = fun flow =>
        Msg.sendPortSubscriberMessage flow.src.obj "SUBINPUT" flow.src.name
          flow.dst.obj flow.dst.name := by
      funext flow; simp [subscriberMsg, h1]
    have e2 : subscriberMsg "SUBOUTPUT" = fun flow =>
        Msg.sendPortSubscriberMessage flow.dst.obj "SUBOUTPUT" flow.dst.name
          flow.src.obj flow.src.name := by
      funext flow; simp [subscriberMsg, h2]
    have e3 : subscriberMsg "UNSUBOUTPUT" = fun flow =>
        Msg.sendPortSubscriberMessage flow.dst.obj "UNSUBOUTPUT" flow.dst.name
          flow.src.obj flow.src.name := by
      funext flow; simp [subscriberMsg, h3]
    have e4 : subscriberMsg "UNSUBINPUT" = fun flow =>
        Msg.sendPortSubscriberMessage flow.src.obj "UNSUBINPUT" flow.src.name
          flow.dst.obj flow.dst.name := by
      funext flow; simp [subscriberMsg, h4]
    rw [topologySubCommit_sent, e1, e2, e3, e4]
    simp only [List.append_assoc]
  · intro m hm
    rcases List.mem_append.mp hm with hm | hm
    · obtain ⟨a, n, mg, rfl⟩ := installBufferManagers_sent_kind env _ m hm
      rfl
    · cases hinst : (installBufferManagers env (newFlowsOf impl.flows impl.activeFlatFlows)).2 with
      | error e => rw [hinst] at hm; cases hm
      | ok u =>
        rw [hinst] at hm
        simp only [List.mem_append, List.mem_map] at hm
        rcases hm with ⟨b, _, rfl⟩ | ⟨b, _, rfl⟩ <;> rfl

theorem applyActivation_append (activated : List Nat) (l1 l2 : List Msg) :
    applyActivation activated (l1 ++ l2) = applyActivation (applyActivation activated l1) l2 := by
  induction l1 generalizing activated with
  | nil => rfl
  | cons m rest ih =>
    cases m <;> simp only [List.cons_append, applyActivation] <;> exact ih _

theorem applyActivation_other (activated : List Nat) (l : List Msg)
    (h : ∀ m ∈ l, (∀ b, m ≠ Msg.sendActivateMessage b) ∧ (∀ b, m ≠ Msg.sendDeactivateMessage b)) :
    applyActivation activated l = activated := by
  induction l with
  | nil => rfl
  | cons m rest ih =>
    have hm := h m (List.mem_cons_self _ _)
    have hrest := ih (fun x hx => h x (List.mem_cons_of_mem _ hx))
    cases m with
    | sendActivateMessage b => exact absurd rfl (hm.1 b)
    | sendDeactivateMessage b => exact absurd rfl (hm.2 b)
    | sendPortSubscriberMessage a b c d e => simpa [applyActivation] using hrest
    | setOutputBufferManager a b c => simpa [applyActivation] using hrest

theorem mem_applyActivation_activate (activated blocks : List Nat) (b : Nat) :
    b ∈ applyActivation activated (blocks.map Msg.sendActivateMessage) ↔
      b ∈ activated ∨ b ∈ blocks := by
  induction blocks generalizing activated with
  | nil => simp [applyActivation]
  | cons x rest ih =>
    simp only [List.map_cons, applyActivation, ih, List.mem_cons]
    tauto

theorem mem_applyActivation_deactivate (activated blocks : List Nat) (b : Nat) :
    b ∈ applyActivation activated (blocks.map Msg.sendDeactivateMessage) ↔
      b ∈ activated ∧ b ∉ blocks := by
  induction blocks generalizing activated with
  | nil => simp [applyActivation]
  | cons x rest ih =>
    simp only [List.map_cons, applyActivation, ih, List.mem_cons, List.mem_filter,
      decide_eq_true_eq, not_or]
    tauto

theorem mem_endpointBlocks (flows : List Flow) (b : Nat) :
    b ∈ endpointBlocks flows ↔ ∃ flow ∈ flows, flow.src.obj = b ∨ flow.dst.obj = b := by
  simp only [endpointBlocks, List.mem_flatMap, List.mem_cons, List.mem_singleton,
    List.not_mem_nil, or_false]
  constructor
  · rintro ⟨flow, hf, h | h⟩
    · exact ⟨flow, hf, Or.inl h.symm⟩
    · exact ⟨flow, hf, Or.inr h.symm⟩
  · rintro ⟨flow, hf, h | h⟩
    · exact ⟨flow, hf, Or.inl h.symm⟩
    · exact ⟨flow, hf, Or.inr h.symm⟩

theorem mem_sent_activate (env : Env) (impl : TopologyImpl) (b : Nat) :
    (Msg.sendActivateMessage b ∈ (topologySubCommit env impl).sent →
      b ∈ endpointBlocks (newFlowsOf impl.flows impl.activeFlatFlows) ∧
      b ∉ endpointBlocks impl.activeFlatFlows) ∧
    (Msg.sendDeactivateMessage b ∈ (topologySubCommit env impl).sent →
      b ∈ endpointBlocks (oldFlowsOf impl.flows impl.activeFlatFlows) ∧
      b ∉ endpointBlocks impl.flows) := by
  rw [topologySubCommit_sent]
  have hs := fun action flows => subscriber_ne_activate action flows b
  have hi := install_ne_activate env (newFlowsOf impl.flows impl.activeFlatFlows) b
  simp only [List.mem_append, (hs _ _).1, (hs _ _).2, hi.1, hi.2, false_or, mem_endpointBlocks]
  cases h : (installBufferManagers env (newFlowsOf impl.flows impl.activeFlatFlows)).2 with
  | error e => simp
  | ok u =>
    simp only [List.mem_append, List.mem_map, Msg.sendActivateMessage.injEq,
      Msg.sendDeactivateMessage.injEq, exists_eq_right, and_false, exists_false, or_false,
      false_or, mem_getObjSetFromFlowList, reduceCtorEq]
    exact ⟨fun h => h, fun h => h⟩

/-- C27: if before a sub-commit the activated blocks are exactly the endpoint blocks of
the active flows, then after the messages of the sub-commit took effect the activated
blocks are exactly the endpoint blocks of the active flows it recorded; no block is sent
both an activate and a deactivate message, and a block that is an endpoint of an active
flow and of a flow of the new list is sent neither. -/
theorem activation_tracks_active_flows (env : Env) (impl : TopologyImpl)
    (activated : List Nat)
    (hbefore : ∀ b, b ∈ activated ↔ b ∈ endpointBlocks impl.activeFlatFlows) :
    (∀ b, b ∈ applyActivation activated (topologySubCommit env impl).sent ↔
      b ∈ endpointBlocks (topologySubCommit env impl).impl.activeFlatFlows) ∧
    (∀ b, ¬ (Msg.sendActivateMessage b ∈ (topologySubCommit env impl).sent ∧
      Msg.sendDeactivateMessage b ∈ (topologySubCommit env impl).sent)) ∧
    (∀ b, b ∈ endpointBlocks impl.activeFlatFlows → b ∈ endpointBlocks impl.flows →
      Msg.sendActivateMessage b ∉ (topologySubCommit env impl).sent ∧
      Msg.sendDeactivateMessage b ∉ (topologySubCommit env impl).sent) := by
  have hnew_sub : ∀ b, b ∈ endpointBlocks (newFlowsOf impl.flows impl.activeFlatFlows) →
      b ∈ endpointBlocks impl.flows := by
    intro b hb
    rw [mem_endpointBlocks] at hb ⊢
    obtain ⟨flow, hf, h⟩ := hb
    rw [newFlowsOf_eq] at hf
    exact ⟨flow, (List.mem_filter.mp hf).1, h⟩
  refine ⟨?_, ?_, ?_⟩
  · intro b
    have hprefix : ∀ m ∈ (newFlowsOf impl.flows impl.activeFlatFlows).map (subscriberMsg "SUBINPUT")
          ++ (newFlowsOf impl.flows impl.activeFlatFlows).map (subscriberMsg "SUBOUTPUT")
          ++ (oldFlowsOf impl.flows impl.activeFlatFlows).map (subscriberMsg "UNSUBOUTPUT")
          ++ (oldFlowsOf impl.flows impl.activeFlatFlows).map (subscriberMsg "UNSUBINPUT")
          ++ (installBufferManagers env (newFlowsOf impl.flows impl.activeFlatFlows)).1,
        (∀ x, m ≠ Msg.sendActivateMessage x) ∧ (∀ x, m ≠ Msg.sendDeactivateMessage x) := by
      intro m hm
      constructor
      · intro x hx
        subst hx
        simp only [List.mem_append] at hm
        rcases hm with (((hm | hm) | hm) | hm) | hm
        · exact (subscriber_ne_activate _ _ x).1 hm
        · exact (subscriber_ne_activate _ _ x).1 hm
        · exact (subscriber_ne_activate _ _ x).1 hm
        · exact (subscriber_ne_activate _ _ x).1 hm
        · exact (install_ne_activate env _ x).1 hm
      · intro x hx
        subst hx
        simp only [List.mem_append] at hm
        rcases hm with (((hm | hm) | hm) | hm) | hm
        · exact (subscriber_ne_activate _ _ x).2 hm
        · exact (subscriber_ne_activate _ _ x).2 hm
        · exact (subscriber_ne_activate _ _ x).2 hm
        · exact (subscriber_ne_activate _ _ x).2 hm
        · exact (install_ne_activate env _ x).2 hm
    rw [topologySubCommit_sent, applyActivation_append, applyActivation_other _ _ hprefix]
    have hout := topologySubCommit_outcome env impl
    cases hinst : (installBufferManagers env (newFlowsOf impl.flows impl.activeFlatFlows)).2 with
    | error e =>
      rw [(hout.2 e hinst).2]
      simpa [applyActivation] using hbefore b
    | ok u =>
      rw [(hout.1 hinst).2]
      simp only [applyActivation_append, mem_applyActivation_deactivate,
        mem_applyActivation_activate, mem_getObjSetFromFlowList, hbefore b]
      simp only [← mem_endpointBlocks]
      constructor
      · rintro ⟨h1 | h1, h2⟩
        · by_contra hnot
          apply h2
          refine ⟨?_, hnot⟩
          rw [mem_endpointBlocks] at h1 ⊢
          obtain ⟨flow, hf, h⟩ := h1
          by_cases hin : flow ∈ impl.flows
          · exact absurd ((mem_endpointBlocks _ _).mpr ⟨flow, hin, h⟩) hnot
          · refine ⟨flow, ?_, h⟩
            rw [oldFlowsOf_eq, List.mem_filter]
            exact ⟨hf, by simpa using hin⟩
        · exact hnew_sub b h1.1
      · intro hb
        refine ⟨?_, fun h => h.2 hb⟩
        by_cases hact : b ∈ endpointBlocks impl.activeFlatFlows
        · exact Or.inl hact
        · refine Or.inr ⟨?_, hact⟩
          rw [mem_endpointBlocks] at hb ⊢
          obtain ⟨flow, hf, h⟩ := hb
          refine ⟨flow, ?_, h⟩
          rw [newFlowsOf_eq, List.mem_filter]
          refine ⟨hf, ?_⟩
          simp only [decide_eq_true_eq]
          intro hin
          exact hact ((mem_endpointBlocks _ _).mpr ⟨flow, hin, h⟩)
  · intro b hboth
    have h1 := (mem_sent_activate env impl b).1 hboth.1
    have h2 := (mem_sent_activate env impl b).2 hboth.2
    exact h2.2 (hnew_sub b h1.1)
  · intro b hact hflows
    exact ⟨fun h => ((mem_sent_activate env impl b).1 h).2 hact,
      fun h => ((mem_sent_activate env impl b).2 h).2 hflows⟩

/-- Witness for C27: no block activated and no flow active before the first flow is
committed. -/
theorem activation_tracks_active_flows_witness :
    (∀ b, b ∈ applyActivation [] (topologySubCommit failingEnv ⟨[flow12], []⟩).sent ↔
      b ∈ endpointBlocks (topologySubCommit failingEnv ⟨[flow12], []⟩).impl.activeFlatFlows) ∧
    (∀ b, ¬ (Msg.sendActivateMessage b ∈ (topologySubCommit failingEnv ⟨[flow12], []⟩).sent ∧
      Msg.sendDeactivateMessage b ∈ (topologySubCommit failingEnv ⟨[flow12], []⟩).sent)) ∧
    (∀ b, b ∈ endpointBlocks ([] : List Flow) → b ∈ endpointBlocks [flow12] →
      Msg.sendActivateMessage b ∉ (topologySubCommit failingEnv ⟨[flow12], []⟩).sent ∧
      Msg.sendDeactivateMessage b ∉ (topologySubCommit failingEnv ⟨[flow12], []⟩).sent) :=
  activation_tracks_active_flows failingEnv ⟨[flow12], []⟩ [] (by simp [endpointBlocks])

/-! ## Indexed ports and port indices -/

/-- C28: after port "0" is set up, port "01" allocated automatically, port "1" set up and
autoDeletePorts run, port "1" with index 1 is in the port map while the indexed-port vector
has size 1; the next autoAllocatePort for "2" finds the port named "1" and reads
`indexedPorts[1]` out of range. -/
theorem indexed_vector_loses_live_port :
    runCalls [PortCall.allocatePort "0" int32Type "", PortCall.autoAllocatePort "01",
        PortCall.allocatePort "1" int32Type "", PortCall.autoDeletePorts] PortTables.empty
      = Except.ok
        { ports := [("0", ⟨1, "0", 0, int32Type, "", []⟩), ("1", ⟨3, "1", 1, int32Type, "", []⟩)],
          namedPorts := [("0", 1), ("1", 3)], indexedPorts := [some 1],
          portNames := ["0", "1"], automaticPorts := [], workInfoPointers := 2, heap := 4 } ∧
    portNameToIndex "1" = 1 ∧ portNameToIndex "01" = 1 ∧
    runCalls [PortCall.allocatePort "0" int32Type "", PortCall.autoAllocatePort "01",
        PortCall.allocatePort "1" int32Type "", PortCall.autoDeletePorts,
        PortCall.autoAllocatePort "2"] PortTables.empty
      = Except.error PortExn.undefined_behaviour :=
  ⟨rfl, by decide, by decide, rfl⟩

/-- C29: the name "3000000000" is an unsigned decimal number, and portNameToIndex returns
-1294967296 for it, a negative value other than -1; allocatePort takes that index as a slot
of the indexed-port vector and the resize fails.  The name "4294967295" is an unsigned
decimal number too, and portNameToIndex returns -1 for it. -/
theorem portNameToIndex_negative :
    tryParseUnsigned "3000000000" = some 3000000000 ∧
    portNameToIndex "3000000000" = -1294967296 ∧
    allocatePort PortTables.empty "3000000000" int32Type "" false
      = Except.error PortExn.length_error ∧
    tryParseUnsigned "4294967295" = some 4294967295 ∧
    portNameToIndex "4294967295" = -1 :=
  ⟨by decide, by decide, rfl, by decide, by decide⟩

/-! ## Thread priority -/

theorem truncToInt_bounds (x : ℚ) (d : Int) (h0 : 0 ≤ x) (hd : x ≤ (d : ℚ)) :
    0 ≤ truncToInt x ∧ truncToInt x ≤ d := by
  unfold truncToInt
  rw [if_pos h0]
  constructor
  · exact Int.floor_nonneg.mpr h0
  · have h1 : ((⌊x⌋ : Int) : ℚ) ≤ x := Int.floor_le x
    have h2 : ((⌊x⌋ : Int) : ℚ) ≤ (d : ℚ) := le_trans h1 hd
    exact_mod_cast h2

theorem truncToInt_intCast (d : Int) (hd : 0 ≤ d) : truncToInt (d : ℚ) = d := by
  unfold truncToInt
  have h0 : (0 : ℚ) ≤ (d : ℚ) := by exact_mod_cast hd
  rw [if_pos h0, Int.floor_intCast]

/-- C23: setPriority makes no call of sched_setscheduler and returns the empty text for
every prio ≤ 0; for every prio in (0, 1], with minPrio and maxPrio the bounds of the
round-robin policy and 0 ≤ minPrio ≤ maxPrio, it calls sched_setscheduler with the policy
SCHED_RR and sched_priority = minPrio + trunc(prio * (maxPrio - minPrio)), the product being
that of doubles, and this value lies between minPrio and maxPrio and is maxPrio at
prio = 1.  The rounding to double is monotone and exact on the integers of 32 bits. -/
theorem setPriority_range (env : SchedEnv) (minPrio maxPrio : Int)
    (hmax : env.sched_get_priority_max Policy.SCHED_RR = maxPrio)
    (hmin : env.sched_get_priority_min Policy.SCHED_RR = minPrio) :
    (∀ prio : ℚ, prio ≤ 0 → setPriority env prio = (none, "")) ∧
    (∀ prio : ℚ, 0 < prio → prio ≤ 1 → 0 ≤ minPrio → minPrio ≤ maxPrio → maxPrio < 2 ^ 31 →
      (∀ x y : ℚ, x ≤ y → env.round x ≤ env.round y) →
      (∀ n : Int, 0 ≤ n → n < 2 ^ 31 → env.round (n : ℚ) = (n : ℚ)) →
      ∃ p, setPriority env prio
          = (some ⟨Policy.SCHED_RR, p⟩,
              if env.sched_setscheduler ⟨Policy.SCHED_RR, p⟩ ≠ 0 then env.strerror else "") ∧
        p = minPrio + truncToInt (env.round (prio * ((maxPrio - minPrio : Int) : ℚ))) ∧
        minPrio ≤ p ∧ p ≤ maxPrio ∧ (prio = 1 → p = maxPrio)) := by
  subst hmax hmin
  constructor
  · intro prio h
    simp [setPriority, h]
  · intro prio hpos hle hmin hminmax hmax hmono hexact
    generalize hMax : env.sched_get_priority_max Policy.SCHED_RR = maxPrio at *
    generalize hMin : env.sched_get_priority_min Policy.SCHED_RR = minPrio at *
    have hd0 : 0 ≤ maxPrio - minPrio := by omega
    have hd1 : maxPrio - minPrio < 2 ^ 31 := by omega
    have hdq : (0 : ℚ) ≤ ((maxPrio - minPrio : Int) : ℚ) := by exact_mod_cast hd0
    have hprod0 : (0 : ℚ) ≤ prio * ((maxPrio - minPrio : Int) : ℚ) :=
      mul_nonneg (le_of_lt hpos) hdq
    have hprod1 : prio * ((maxPrio - minPrio : Int) : ℚ) ≤ ((maxPrio - minPrio : Int) : ℚ) := by
      calc prio * ((maxPrio - minPrio : Int) : ℚ)
          ≤ 1 * ((maxPrio - minPrio : Int) : ℚ) := mul_le_mul_of_nonneg_right hle hdq
        _ = ((maxPrio - minPrio : Int) : ℚ) := one_mul _
    have hr0 : (0 : ℚ) ≤ env.round (prio * ((maxPrio - minPrio : Int) : ℚ)) := by
      have h := hmono 0 _ hprod0
      have hz := hexact 0 (le_refl 0) (by norm_num)
      simp only [Int.cast_zero] at hz
      rw [hz] at h
      exact h
    have hr1 : env.round (prio * ((maxPrio - minPrio : Int) : ℚ))
        ≤ ((maxPrio - minPrio : Int) : ℚ) := by
      have h := hmono _ _ hprod1
      rw [hexact _ hd0 hd1] at h
      exact h
    have hb := truncToInt_bounds _ _ hr0 hr1
    have hnotle : ¬ prio ≤ 0 := not_le.mpr hpos
    have hnmax : ¬ maxPrio < 0 := by omega
    have hnmin : ¬ minPrio < 0 := by omega
    refine ⟨minPrio + truncToInt (env.round (prio * ((maxPrio - minPrio : Int) : ℚ))),
      ?_, rfl, by omega, by omega, ?_⟩
    · unfold setPriority
      simp only [hnotle, hMax, hMin, hnmax, hnmin, if_false]
      split_ifs
      · rfl
      · rfl
    · intro h1
      rw [h1, one_mul, hexact _ hd0 hd1, truncToInt_intCast _ hd0]
      omega

/-- Witness for C23: priority 1/2 on a system with round-robin priorities 1 to 99. -/
theorem setPriority_range_witness :
    ∃ p, setPriority linuxSched (1 / 2)
        = (some ⟨Policy.SCHED_RR, p⟩,
            if linuxSched.sched_setscheduler ⟨Policy.SCHED_RR, p⟩ ≠ 0 then linuxSched.strerror
            else "") ∧
      p = 1 + truncToInt (linuxSched.round ((1 / 2) * (((99 : Int) - 1 : Int) : ℚ))) ∧
      1 ≤ p ∧ p ≤ 99 ∧ ((1 / 2 : ℚ) = 1 → p = 99) :=
  (setPriority_range linuxSched 1 99 rfl rfl).2 (1 / 2) (by norm_num) (by norm_num)
    (by norm_num) (by norm_num) (by norm_num) (fun _ _ h => h) (fun _ _ _ => rfl)

/-! ## Conversions between integer types -/

theorem encodeInt_cast (s : Scalar) (v : Int) : ((encodeInt s v : Nat) : Int) = v % 2 ^ s.width := by
  unfold encodeInt
  have hpos : (0 : Int) < 2 ^ s.width := by positivity
  exact Int.toNat_of_nonneg (Int.emod_nonneg _ (ne_of_gt hpos))

theorem encodeInt_lt (s : Scalar) (v : Int) : encodeInt s v < 2 ^ s.width := by
  have hpos : (0 : Int) < 2 ^ s.width := by positivity
  have h := Int.emod_lt_of_pos v hpos
  rw [← encodeInt_cast] at h
  exact_mod_cast h

theorem decodeInt_modEq (s : Scalar) (bits : Nat) :
    decodeInt s bits ≡ (bits : Int) [ZMOD 2 ^ s.width] := by
  unfold decodeInt
  split_ifs
  · apply Int.ModEq.symm
    apply (Int.modEq_iff_dvd).mpr
    exact ⟨-1, by ring⟩
  · exact Int.ModEq.refl _

theorem intCast_modEq (i o : Scalar) (bits : Nat) :
    ((intCast i o bits : Nat) : Int) ≡ decodeInt i bits [ZMOD 2 ^ o.width] := by
  unfold intCast
  rw [encodeInt_cast]
  exact Int.mod_modEq _ _

theorem eq_of_modEq_of_lt (w : Nat) (x y : Nat) (hx : x < 2 ^ w) (hy : y < 2 ^ w)
    (h : (x : Int) ≡ (y : Int) [ZMOD 2 ^ w]) : x = y := by
  have h2 : x ≡ y [MOD 2 ^ w] := by
    apply (Int.natCast_modEq_iff).mp
    simpa using h
  unfold Nat.ModEq at h2
  rwa [Nat.mod_eq_of_lt hx, Nat.mod_eq_of_lt hy] at h2

theorem intCast_same_width (i o : Scalar) (bits : Nat) (hw : i.sizeof = o.sizeof)
    (hbits : bits < 2 ^ i.width) : intCast i o bits = bits := by
  have hwidth : o.width = i.width := by unfold Scalar.width; rw [hw]
  apply eq_of_modEq_of_lt o.width
  · exact encodeInt_lt _ _
  · rw [hwidth]; exact hbits
  · have h1 := intCast_modEq i o bits
    have h2 := decodeInt_modEq i bits
    rw [← hwidth] at h2
    exact h1.trans h2

theorem intCast_round_trip (a b : Scalar) (bits : Nat) (hw : a.sizeof ≤ b.sizeof)
    (hbits : bits < 2 ^ a.width) : intCast b a (intCast a b bits) = bits := by
  have hdvd : ((2 : Int) ^ a.width) ∣ 2 ^ b.width := by
    apply pow_dvd_pow
    unfold Scalar.width
    omega
  apply eq_of_modEq_of_lt a.width
  · exact encodeInt_lt _ _
  · exact hbits
  · have h1 := intCast_modEq b a (intCast a b bits)
    have h2 := (decodeInt_modEq b (intCast a b bits)).of_dvd hdvd
    have h3 := (intCast_modEq a b bits).of_dvd hdvd
    have h4 := decodeInt_modEq a bits
    exact ((h1.trans h2).trans h3).trans h4

theorem rawConvert_spec {V : Type} (cast : V → V) (inElems outElems : Nat → V) (num i : Nat) :
    rawConvert cast inElems outElems num i
      = (if i < num then cast (inElems i) else outElems i) := by
  unfold rawConvert
  induction num with
  | zero => simp
  | succ n ih =>
    rw [List.range_succ, List.foldl_append]
    simp only [List.foldl_cons, List.foldl_nil]
    by_cases h : i = n
    · subst h
      simp [Function.update_same]
    · have hlt : i < n + 1 ↔ i < n := by omega
      simp only [Function.update_noteq h, ih, hlt]

theorem mem_Scalar_all (s : Scalar) : s ∈ Scalar.all := by
  cases s <;> decide

theorem convertMap_lookup_real : ∀ a ∈ Scalar.all, ∀ b ∈ Scalar.all,
    getBufferConvertImpl.convertMap.lookup
        (dtypeIOToHash (DType.numeric ⟨a, false⟩ 1) (DType.numeric ⟨b, false⟩ 1))
      = some (Converter.rawConvert a b) := by
  decide -- all pairs of element types

theorem sharesBuffer_real_integers : ∀ a ∈ Scalar.all, ∀ b ∈ Scalar.all,
    a.isInteger = true → b.isInteger = true →
    sharesBuffer (DType.numeric ⟨a, false⟩ 1) (DType.numeric ⟨b, false⟩ 1)
      = decide (a.sizeof = b.sizeof) := by
  decide -- all pairs of element types

theorem sharesBuffer_table : ∀ eIn ∈ ElemType.all, ∀ eOut ∈ ElemType.all, eIn ≠ eOut →
    ((sharesBuffer (DType.numeric eIn 1) (DType.numeric eOut 1) = true ↔
        (eIn.scalar.sizeof = eOut.scalar.sizeof ∧ eIn.scalar.isInteger = true ∧
          eOut.scalar.isInteger = true ∧ eIn.complex = eOut.complex)) ∧
      (sharesBuffer (DType.numeric eIn 1) (DType.numeric eOut 1) = true →
        eIn.scalar.isSigned ≠ eOut.scalar.isSigned)) := by
  decide -- all pairs of element types

theorem convert_of_shares {V : Type} (env : ConvertEnv V) (c : Chunk V) (d : DType) (n : Nat)
    (h : sharesBuffer c.dtype d = true) :
    c.convert env d n = Except.ok
      { address := c.address
        length := d.size * ((n * c.dtype.size / c.dtype.elemSize) * d.size / d.elemSize)
        dtype := d
        capacity := c.capacity
        cells := c.cells } := by
  unfold sharesBuffer at h
  simp only [decide_eq_true_eq] at h
  unfold Chunk.convert
  simp only
  rw [if_pos h]

theorem convert_of_lookup {V : Type} (env : ConvertEnv V) (c : Chunk V) (d : DType) (n : Nat)
    (conv : Converter) (h : sharesBuffer c.dtype d = false)
    (hl : getBufferConvertImpl.convertMap.lookup (dtypeIOToHash c.dtype d) = some conv) :
    c.convert env d n = Except.ok
      { address := env.alloc (d.size * ((n * c.dtype.size / c.dtype.elemSize) * d.size / d.elemSize))
        length := d.size * ((n * c.dtype.size / c.dtype.elemSize) * d.size / d.elemSize)
        dtype := d
        capacity := d.size * ((n * c.dtype.size / c.dtype.elemSize) * d.size / d.elemSize)
        cells := conv.run env c.cells env.fresh (n * c.dtype.size / c.dtype.elemSize) } := by
  unfold sharesBuffer at h
  simp only [decide_eq_false_iff_not] at h
  unfold Chunk.convert
  simp only
  rw [if_neg h, hl]
  rfl

theorem real_size (a : Scalar) :
    (DType.numeric ⟨a, false⟩ 1).size = a.sizeof ∧
    (DType.numeric ⟨a, false⟩ 1).elemSize = a.sizeof ∧ 0 < a.sizeof := by
  cases a <;> decide

theorem convert_real_integers (env : ConvertEnv Nat) (c : Chunk Nat) (a b : Scalar) (n : Nat)
    (ha : a.isInteger = true) (hb : b.isInteger = true)
    (hdt : c.dtype = DType.numeric ⟨a, false⟩ 1)
    (hcast : env.cast a b = intCast a b) :
    ∃ out, c.convert env (DType.numeric ⟨b, false⟩ 1) n = Except.ok out ∧
      out.dtype = DType.numeric ⟨b, false⟩ 1 ∧
      out.length = b.sizeof * n ∧
      ∀ k, k < n → c.cells k < 2 ^ a.width → out.cells k = intCast a b (c.cells k) := by
  obtain ⟨sa, ea, pa⟩ := real_size a
  obtain ⟨sb, eb, pb⟩ := real_size b
  have hprim : n * c.dtype.size / c.dtype.elemSize = n := by
    rw [hdt, sa, ea]
    exact Nat.mul_div_cancel n pa
  have hout : n * (DType.numeric ⟨b, false⟩ 1).size / (DType.numeric ⟨b, false⟩ 1).elemSize = n := by
    rw [sb, eb]
    exact Nat.mul_div_cancel n pb
  have hs := sharesBuffer_real_integers a (mem_Scalar_all a) b (mem_Scalar_all b) ha hb
  rw [← hdt] at hs
  by_cases hw : a.sizeof = b.sizeof
  · have hshare : sharesBuffer c.dtype (DType.numeric ⟨b, false⟩ 1) = true := by
      rw [hs]; exact decide_eq_true hw
    refine ⟨_, convert_of_shares env c _ n hshare, rfl, ?_, ?_⟩
    · show (DType.numeric ⟨b, false⟩ 1).size
          * ((n * c.dtype.size / c.dtype.elemSize) * (DType.numeric ⟨b, false⟩ 1).size
            / (DType.numeric ⟨b, false⟩ 1).elemSize) = b.sizeof * n
      rw [hprim, hout, sb]
    · intro k _ hbits
      exact (intCast_same_width a b _ hw hbits).symm
  · have hshare : sharesBuffer c.dtype (DType.numeric ⟨b, false⟩ 1) = false := by
      rw [hs]; exact decide_eq_false hw
    have hl := convertMap_lookup_real a (mem_Scalar_all a) b (mem_Scalar_all b)
    rw [← hdt] at hl
    refine ⟨_, convert_of_lookup env c _ n _ hshare hl, rfl, ?_, ?_⟩
    · show (DType.numeric ⟨b, false⟩ 1).size
          * ((n * c.dtype.size / c.dtype.elemSize) * (DType.numeric ⟨b, false⟩ 1).size
            / (DType.numeric ⟨b, false⟩ 1).elemSize) = b.sizeof * n
      rw [hprim, hout, sb]
    · intro k hk _
      simp only [hprim, Converter.run, rawConvert_spec, if_pos hk, hcast]

/-- C26: for every pair of distinct numeric element types (any vector sizes), convert takes
the branch that copies nothing exactly when the two types have the same width, are both
integer and have the same complex flag, and then they differ in signedness; in that case
the result is the buffer of the input with the new dtype, and every cell of it that holds a
bit pattern of the input type holds what the element-wise integer conversion modulo 2^width
produces from it. -/
theorem convert_no_copy_iff_signedness_only (env : ConvertEnv Nat) (c : Chunk Nat)
    (eIn eOut : ElemType) (dimIn dimOut numElems : Nat)
    (hIn : c.dtype = DType.numeric eIn dimIn) (hne : eIn ≠ eOut) :
    (sharesBuffer c.dtype (DType.numeric eOut dimOut) = true ↔
      (eIn.scalar.sizeof = eOut.scalar.sizeof ∧ eIn.scalar.isInteger = true ∧
        eOut.scalar.isInteger = true ∧ eIn.complex = eOut.complex)) ∧
    (sharesBuffer c.dtype (DType.numeric eOut dimOut) = true →
      eIn.scalar.isSigned ≠ eOut.scalar.isSigned ∧
      ∃ out, c.convert env (DType.numeric eOut dimOut) numElems = Except.ok out ∧
        out.address = c.address ∧ out.capacity = c.capacity ∧
        out.dtype = DType.numeric eOut dimOut ∧
        (dimIn = 1 → dimOut = 1 → out.length = numElems * c.dtype.size) ∧
        ∀ k, c.cells k < 2 ^ eIn.scalar.width →
          out.cells k = elementwiseIntConversion eIn.scalar eOut.scalar c.cells k) ∧
    (sharesBuffer c.dtype (DType.numeric eOut dimOut) = false →
      ∀ out, c.convert env (DType.numeric eOut dimOut) numElems = Except.ok out →
        out.address = env.alloc out.length ∧ out.capacity = out.length) := by
  have htab := sharesBuffer_table eIn (mem_ElemType_all eIn) eOut (mem_ElemType_all eOut) hne
  have hshare : sharesBuffer c.dtype (DType.numeric eOut dimOut)
      = sharesBuffer (DType.numeric eIn 1) (DType.numeric eOut 1) := by rw [hIn]; rfl
  rw [hshare]
  refine ⟨htab.1, ?_, ?_⟩
  · intro hs
    have hs2 : sharesBuffer c.dtype (DType.numeric eOut dimOut) = true := by rw [hshare]; exact hs
    obtain ⟨hsize, _, _, hcomplex⟩ := htab.1.mp hs
    refine ⟨htab.2 hs, _, convert_of_shares env c _ numElems hs2, rfl, rfl, rfl, ?_, ?_⟩
    · intro h1 h2
      subst h1 h2
      have hpos : 0 < (DType.numeric eOut 1).elemSize := numeric_elemSize_pos eOut (mem_ElemType_all eOut)
      have hsz : (DType.numeric eOut 1).size = (DType.numeric eOut 1).elemSize := by
        unfold DType.size; exact Nat.mul_one _
      have hsame : (DType.numeric eOut 1).elemSize = c.dtype.size := by
        have h := (decide_eq_true_eq.mp hs)
        rw [hIn]
        show _ = (DType.numeric eIn 1).elemSize * 1
        rw [Nat.mul_one]
        rcases h with h | h
        · unfold DType.elemSize
          rw [h]
        · exact h.1
      have hprim : numElems * c.dtype.size / c.dtype.elemSize = numElems * 1 := by
        rw [hIn]
        exact numeric_primElems eIn 1 numElems
      show (DType.numeric eOut 1).size
          * ((numElems * c.dtype.size / c.dtype.elemSize) * (DType.numeric eOut 1).size
            / (DType.numeric eOut 1).elemSize) = numElems * c.dtype.size
      rw [hprim, Nat.mul_one, hsz, Nat.mul_div_cancel _ hpos, hsame, Nat.mul_comm]
    · intro k hbits
      exact (intCast_same_width _ _ _ hsize hbits).symm
  · intro hs out hout
    have hs2 : sharesBuffer c.dtype (DType.numeric eOut dimOut) = false := by rw [hshare]; exact hs
    cases hl : getBufferConvertImpl.convertMap.lookup
        (dtypeIOToHash c.dtype (DType.numeric eOut dimOut)) with
    | none =>
      have herr := (convert_error_iff env c (DType.numeric eOut dimOut) numElems).mpr ⟨hs2, hl⟩
      obtain ⟨source, text, he⟩ := herr
      rw [he] at hout
      cases hout
    | some conv =>
      rw [convert_of_lookup env c _ numElems conv hs2 hl] at hout
      cases hout
      exact ⟨rfl, rfl⟩

/-- Witness for C26: signed to unsigned 8-bit integers. -/
theorem convert_no_copy_iff_signedness_only_witness :
    sharesBuffer twoBytesChunk.dtype (DType.numeric ⟨Scalar.uint8, false⟩ 1) = true ∧
    ∃ out, twoBytesChunk.convert intEnv (DType.numeric ⟨Scalar.uint8, false⟩ 1) 2 = Except.ok out ∧
      out.address = twoBytesChunk.address ∧ out.capacity = twoBytesChunk.capacity ∧
      out.dtype = DType.numeric ⟨Scalar.uint8, false⟩ 1 ∧
      (1 = 1 → 1 = 1 → out.length = 2 * twoBytesChunk.dtype.size) ∧
      ∀ k, twoBytesChunk.cells k < 2 ^ Scalar.int8.width →
        out.cells k = elementwiseIntConversion Scalar.int8 Scalar.uint8 twoBytesChunk.cells k :=
  ⟨by decide,
    ((convert_no_copy_iff_signedness_only intEnv twoBytesChunk ⟨Scalar.int8, false⟩
      ⟨Scalar.uint8, false⟩ 1 1 2 rfl (by decide)).2.1 (by decide)).2⟩

/-- The round trip for vector size 1: for real integer element types A and B with
width(B) ≥ width(A) and a chunk c of dtype A with vector size 1, with the integer
conversions taken modulo 2^width, converting c to B (vector size 1) succeeds, converting the
result back to A succeeds, and the chunk obtained has the dtype A, the element count of c
and, at every element index, the element value of c. -/
theorem convert_widen_and_back (env : ConvertEnv Nat) (c : Chunk Nat) (A B : Scalar)
    (hA : A.isInteger = true) (hB : B.isInteger = true) (hw : A.width ≤ B.width)
    (hdt : c.dtype = DType.numeric ⟨A, false⟩ 1)
    (hcast : ∀ i o, i.isInteger = true → o.isInteger = true → env.cast i o = intCast i o)
    (hbits : ∀ k, k < c.length / c.dtype.size → c.cells k < 2 ^ A.width) :
    ∃ b back,
      c.convert env (DType.numeric ⟨B, false⟩ 1) (c.length / c.dtype.size) = Except.ok b ∧
      b.convert env (DType.numeric ⟨A, false⟩ 1) (b.length / b.dtype.size) = Except.ok back ∧
      back.dtype = DType.numeric ⟨A, false⟩ 1 ∧
      back.length / back.dtype.size = c.length / c.dtype.size ∧
      ∀ k, k < c.length / c.dtype.size → back.cells k = c.cells k := by
  obtain ⟨sa, _, pa⟩ := real_size A
  obtain ⟨sb, _, pb⟩ := real_size B
  have hsize : A.sizeof ≤ B.sizeof := by unfold Scalar.width at hw; omega
  obtain ⟨b, hb1, hb2, hb3, hb4⟩ :=
    convert_real_integers env c A B (c.length / c.dtype.size) hA hB hdt (hcast A B hA hB)
  have hcount : b.length / b.dtype.size = c.length / c.dtype.size := by
    rw [hb2, hb3, sb]
    exact Nat.mul_div_cancel_left _ pb
  obtain ⟨back, hk1, hk2, hk3, hk4⟩ :=
    convert_real_integers env b B A (b.length / b.dtype.size) hB hA hb2 (hcast B A hB hA)
  refine ⟨b, back, hb1, hk1, hk2, ?_, ?_⟩
  · rw [hk2, hk3, sa, hcount]
    exact Nat.mul_div_cancel_left _ pa
  · intro k hk
    have h1 := hb4 k hk (hbits k hk)
    have h2 := hk4 k (by rw [hcount]; exact hk) (by rw [h1]; exact encodeInt_lt _ _)
    rw [h2, h1]
    exact intCast_round_trip A B _ hsize (hbits k hk)

/-- An instance of the round trip for vector size 1: two signed 8-bit integers, -1 and 5,
to unsigned 32-bit integers and back. -/
theorem convert_widen_and_back_witness :
    ∃ b back,
      twoBytesChunk.convert intEnv (DType.numeric ⟨Scalar.uint32, false⟩ 1)
          (twoBytesChunk.length / twoBytesChunk.dtype.size) = Except.ok b ∧
      b.convert intEnv (DType.numeric ⟨Scalar.int8, false⟩ 1) (b.length / b.dtype.size)
        = Except.ok back ∧
      back.dtype = DType.numeric ⟨Scalar.int8, false⟩ 1 ∧
      back.length / back.dtype.size = twoBytesChunk.length / twoBytesChunk.dtype.size ∧
      ∀ k, k < twoBytesChunk.length / twoBytesChunk.dtype.size →
        back.cells k = twoBytesChunk.cells k :=
  convert_widen_and_back intEnv twoBytesChunk Scalar.int8 Scalar.uint32 rfl rfl (by decide) rfl
    (fun _ _ _ _ => rfl)
    (fun k _ => by
      unfold twoBytesChunk
      simp only
      split_ifs <;> decide)

/-- C30: a chunk of one sample of two signed 8-bit integers (-1 and 5), converted over its
one element to vectors of two signed 16-bit integers, comes back with four elements, and
the conversion of that result back to vectors of two signed 8-bit integers, over its four
elements, has sixteen elements; the first two values are those of the chunk. -/
theorem widen_and_back_changes_element_count :
    bytePairChunk.length / bytePairChunk.dtype.size = 1 ∧
    (bytePairChunk.convert intEnv (DType.numeric ⟨Scalar.int16, false⟩ 2)
        (bytePairChunk.length / bytePairChunk.dtype.size)).map
        (fun b => (b.dtype, b.length, b.length / b.dtype.size))
      = Except.ok (DType.numeric ⟨Scalar.int16, false⟩ 2, 16, 4) ∧
    ((bytePairChunk.convert intEnv (DType.numeric ⟨Scalar.int16, false⟩ 2)
        (bytePairChunk.length / bytePairChunk.dtype.size)).bind
        (fun b => b.convert intEnv (DType.numeric ⟨Scalar.int8, false⟩ 2)
          (b.length / b.dtype.size))).map
        (fun back => (back.dtype, back.length, back.length / back.dtype.size,
          back.cells 0, back.cells 1))
      = Except.ok (DType.numeric ⟨Scalar.int8, false⟩ 2, 32, 16, 255, 5) := by
  refine ⟨by decide, rfl, rfl⟩

end Pothos
